import Mathlib

/-!
# Texture baking operator (`object_bake_api.c`)

A shallow embedding of `source/blender/editors/object/object_bake_api.c`.

Pointers to datablocks (`Image *`, `Object *`) are natural numbers, `NULL` is
`none`.  C arrays are lists; indices, counts and the dimensions read from an
image buffer are natural numbers.  The `int` sums and products over
dimensions (`tot_size` and `ibuf->x * ibuf->y` in `initialize_internal_images`,
`num_pixels = width * height * size` in `bake`) are reduced modulo `2 ^ 32`
(`int_of`); a theorem on them states the range in which that reduction is the
identity.  Float payloads are abstract codes: a `Texel` is
the group of `depth` floats of one texel of the result buffer, a pixel of an
image buffer is the group of channel values of one pixel.  Functions of other
modules (renderer, image buffers, colour management, mesh evaluation) are the
fields of `Env`; every call the claims speak about is recorded in the `trace`
of the `World`.
-/

namespace BlenderBake

/-! ## Data model -/

/-- Operator return flags of `WM_types.h` used by this file. -/
inductive OperatorFlag
  | OPERATOR_RUNNING_MODAL
  | OPERATOR_CANCELLED
  | OPERATOR_FINISHED
  | OPERATOR_PASS_THROUGH
  deriving DecidableEq, Repr

/-- Render pass kinds (`ScenePassType`).  The enumerators this file names are
constructors; `other n` stands for any further enumerator of the enum. -/
inductive ScenePassType
  | SCE_PASS_COMBINED
  | SCE_PASS_Z
  | SCE_PASS_NORMAL
  | SCE_PASS_VECTOR
  | SCE_PASS_INDEXOB
  | SCE_PASS_UV
  | SCE_PASS_RAYHITS
  | SCE_PASS_INDEXMA
  | other (n : Nat)
  deriving DecidableEq, Repr

/-- Save modes (`BakeSaveMode`). -/
inductive BakeSaveMode
  | R_BAKE_SAVE_INTERNAL
  | R_BAKE_SAVE_EXTERNAL
  deriving DecidableEq, Repr

/-- Normal spaces (`normal_space`); `other n` is any value outside the three
cases of the `switch`. -/
inductive BakeNormalSpace
  | R_BAKE_SPACE_WORLD
  | R_BAKE_SPACE_OBJECT
  | R_BAKE_SPACE_TANGENT
  | other (n : Nat)
  deriving DecidableEq, Repr

/-- Signed axes of the normal swizzle (`BakeNormalSwizzle`). -/
inductive BakeNormalSwizzle
  | R_BAKE_POSX
  | R_BAKE_POSY
  | R_BAKE_POSZ
  | R_BAKE_NEGX
  | R_BAKE_NEGY
  | R_BAKE_NEGZ
  deriving DecidableEq, Repr

/-- Report severities used by this file. -/
inductive ReportType
  | RPT_INFO
  | RPT_ERROR
  deriving DecidableEq, Repr

/-- An output file name under construction: the path made by
`BKE_makepicstring_from_type` and the suffixes added by `BLI_path_suffix`, each
with its separator, in the order of the calls. -/
structure PathName where
  base : String
  suffixes : List (String × String)
  deriving DecidableEq, Repr

/-- The messages this file reports, one constructor per format string, with
the values substituted for its conversions. -/
inductive ReportMsg
  /-- "No active image found in material %d (%s)" -/
  | no_active_image_in_material_named (i : Nat) (name : String)
  /-- "No active image found in material %d" -/
  | no_active_image_in_material (i : Nat)
  /-- "Not initialized image %s" -/
  | not_initialized_image (name : String)
  /-- "No active image found. Add a material or bake to an external file" -/
  | no_active_image_add_material_or_external
  /-- "No active image found. Add a material or bake without the Split Materials option" -/
  | no_active_image_add_material_or_no_split
  /-- "No valid selected objects" -/
  | no_valid_selected_objects
  /-- "No valid cage object" -/
  | no_valid_cage_object
  /-- "Problem baking object map" -/
  | problem_baking_object_map
  /-- "Problem saving the bake map internally, make sure there is a Texture Image node in the current object material" -/
  | problem_saving_internally
  /-- "Baking map saved to internal image, save it externally or pack it" -/
  | saved_to_internal_image
  /-- "Problem saving baked map in \"%s\"." -/
  | problem_saving_baked_map_in (name : PathName)
  /-- "Baking map written to \"%s\"." -/
  | baking_map_written_to (name : PathName)
  deriving DecidableEq, Repr

/-- One entry of a `ReportList`. -/
structure Report where
  type : ReportType
  msg : ReportMsg
  deriving DecidableEq, Repr

/-- The float group of one texel of the result buffer, or the channel group of
one pixel of an image buffer (an abstract code). -/
abbrev Texel := Nat

/-- A texel locator (`BakePixel`): whether a UV triangle covers the texel, and
the rest of the record as a code. -/
structure BakePixel where
  valid : Bool
  locator : Nat
  deriving DecidableEq, Repr, Inhabited

/-- An image buffer (`ImBuf`): dimensions, channel count, whether the float
rect is the active one (`flags & IB_rectfloat`), the pixels of the active rect
in raster order, the colour spaces of the two rects and the dirty mark
(`userflags & IB_BITMAPDIRTY`). -/
structure ImBuf where
  x : Nat
  y : Nat
  channels : Nat
  planes : Nat
  dither : Nat
  is_float : Bool
  pixels : List Texel
  float_colorspace : Nat
  rect_colorspace : Nat
  bitmapdirty : Bool
  deriving DecidableEq, Repr

/-- One target surface (`BakeImage`). -/
structure BakeImage where
  image : Option Nat
  width : Nat
  height : Nat
  offset : Nat
  deriving DecidableEq, Repr, Inhabited

/-- The surface collection and the slot map (`BakeImages`). -/
structure BakeImages where
  data : List BakeImage
  lookup : List Nat
  size : Nat
  deriving DecidableEq, Repr

/-- Render visibility of an object: the `OB_RESTRICT_RENDER` bit of
`restrictflag` and the remaining bits. -/
structure RestrictFlag where
  render : Bool
  rest : Nat
  deriving DecidableEq, Repr, Inhabited

/-- The fields of an `Object` that the bake operator only reads.  `mat i` is
the name (`id.name + 2`) of `ob->mat[i]`, `mesh_mat i` that of
`((Mesh *) ob->data)->mat[i]`, `none` for a null entry; `active_image s` is the
image `ED_object_get_active_image` yields for material slot number `s`
(counted from one). -/
structure Object where
  name : String
  is_mesh : Bool
  totcol : Nat
  mat : Nat → Option String
  mesh_mat : Nat → Option String
  active_image : Nat → Option Nat

/-- A mesh made by `BKE_mesh_new_from_object`: the object evaluated and the
state of its modifier stack at that moment (0: as it is, 1: the copy without
edge split, 2: with the temporary triangulate modifier, 3: multires not
rendered). -/
structure Mesh where
  ob : Nat
  stack : Nat
  deriving DecidableEq, Repr

/-- The format of written files (`ImageFormatData`). -/
structure ImageFormatData where
  depth : Nat
  planes : Nat
  imtype : Nat
  deriving DecidableEq, Repr

/-- Calls that the claims speak about, in the order they are made. -/
inductive Event
  /-- `RE_bake_engine` (`engine = true`) or `RE_bake_internal` for object `ob` -/
  | evaluate (engine : Bool) (ob : Nat) (num_pixels depth : Nat) (ok : Bool)
  /-- `RE_bake_ibuf_clear` -/
  | ibuf_clear (is_tangent : Bool)
  /-- `write_internal_bake_pixels` -/
  | write_internal (image : Option Nat) (offset width height : Nat) (ok : Bool)
  /-- `write_external_bake_pixels` -/
  | write_external (name : PathName) (offset width height : Nat) (ok : Bool)
  /-- `IMB_colormanagement_transform` -/
  | colormanagement_transform (from_colorspace to_colorspace : Nat)
  /-- `RE_bake_normal_world_to_world` -/
  | normal_world_to_world
  /-- `RE_bake_normal_world_to_object` -/
  | normal_world_to_object (ob : Nat)
  /-- `RE_bake_normal_world_to_tangent` -/
  | normal_world_to_tangent (me : Mesh)
  deriving DecidableEq, Repr

/-- The mutable state the operator works on. -/
structure World where
  /-- `G.is_break` -/
  is_break : Bool
  /-- `image->id.flag & LIB_DOIT` of every image datablock -/
  doit : Nat → Bool
  /-- what `BKE_image_acquire_ibuf` yields for every image datablock -/
  ibuf : Nat → Option ImBuf
  /-- `id.name + 2` of every image datablock -/
  image_name : Nat → String
  /-- the objects of `bmain` -/
  object : Nat → Object
  /-- `restrictflag` of every object -/
  restrictflag : Nat → RestrictFlag
  /-- the operator's `ReportList` -/
  reports : List Report
  /-- the calls made so far -/
  trace : List Event

/-- `BKE_report` and `BKE_reportf`: append one report. -/
def BKE_report (w : World) (type : ReportType) (msg : ReportMsg) : World :=
  { w with reports := w.reports ++ [⟨type, msg⟩] }

/-- `BKE_main_id_tag_idcode(bmain, ID_IM, false)`: clear `LIB_DOIT` on every
image. -/
def BKE_main_id_tag_idcode_images (w : World) : World :=
  { w with doit := fun _ => false }

/-! ## `build_image_lookup` -/

/-- The inner `for (j = 0; j < i; j++)` of `build_image_lookup`: the first
`j < i` with `data[j].image == image`, searched from index `j`. -/
def find_image_index (data : List BakeImage) (image : Nat) : Nat → Nat → Option Nat
  | 0, _ => none
  | k + 1, j =>
    if (data.getD j default).image = some image then some j
    else find_image_index data image k (j + 1)

/-- The report of `build_image_lookup` for a slot `i` without active image. -/
def no_image_report (ob : Object) (i : Nat) : ReportMsg :=
  match ob.mat i with
  | some name => ReportMsg.no_active_image_in_material_named i name
  | none =>
    match ob.mesh_mat i with
    | some name => ReportMsg.no_active_image_in_material_named i name
    | none => ReportMsg.no_active_image_in_material i

/-- The `for (i = 0; i < tot_mat; i++)` loop of `build_image_lookup`, with `k`
iterations left, at slot `i`, with `tot_images` surfaces found so far.  The
result is `none` on the early `return false`, else the final `tot_images`. -/
def build_image_lookup_loop (ob : Object) :
    Nat → Nat → Nat → BakeImages → World → Option Nat × BakeImages × World
  | 0, _, tot_images, bi, w => (some tot_images, bi, w)
  | k + 1, i, tot_images, bi, w =>
    match ob.active_image (i + 1) with
    | none => (none, bi, BKE_report w ReportType.RPT_ERROR (no_image_report ob i))
    | some image =>
      if w.doit image then
        match find_image_index bi.data image i 0 with
        | some j =>
          build_image_lookup_loop ob k (i + 1) tot_images
            { bi with lookup := bi.lookup.set i j } w
        | none => build_image_lookup_loop ob k (i + 1) tot_images bi w
      else
        build_image_lookup_loop ob k (i + 1) (tot_images + 1)
          { bi with
            lookup := bi.lookup.set i tot_images
            data := bi.data.set tot_images
              { (bi.data.getD tot_images default) with image := some image } }
          { w with doit := Function.update w.doit image true }

/-- `build_image_lookup(bmain, ob, bake_images, reports)`. -/
def build_image_lookup (ob : Object) (bake_images : BakeImages) (w : World) :
    Bool × BakeImages × World :=
  match build_image_lookup_loop ob ob.totcol 0 0 bake_images
      (BKE_main_id_tag_idcode_images w) with
  | (none, bi, w1) => (false, bi, w1)
  | (some tot_images, bi, w1) => (true, { bi with size := tot_images }, w1)

/-- `MEM_callocN` of `n` zeroed `BakeImage` records and `n` zeroed `int`s. -/
def calloc_bake_images (n : Nat) (size : Nat) : BakeImages :=
  { data := List.replicate n default, lookup := List.replicate n 0, size := size }

/-! ## Collaborators -/

/-- Functions of other modules that the operator calls, and the user at the
keyboard.  Each function that works on a pixel or float array in place is
given as the function from the old content to the new one. -/
structure Env where
  /-- whether the escape handler has set `G.is_break` by the time the calls
  recorded so far have been made -/
  esc_pressed : List Event → Bool
  /-- `RE_pass_depth` -/
  RE_pass_depth : ScenePassType → Nat
  /-- `RE_bake_has_engine(re)` -/
  RE_bake_has_engine : Bool
  /-- `RE_bake_engine`: success and the new content of `result` -/
  RE_bake_engine :
    World → Nat → List BakePixel → Nat → Nat → ScenePassType → List Texel → Bool × List Texel
  /-- `RE_bake_internal`: success and the new content of `result` -/
  RE_bake_internal :
    World → Nat → List BakePixel → Nat → Nat → ScenePassType → List Texel → Bool × List Texel
  /-- `me->mat[i]` of an evaluated mesh, by name -/
  mesh_mat : Mesh → Nat → Option String
  /-- `RE_bake_pixels_populate`: the new content of the pixel array -/
  RE_bake_pixels_populate : Mesh → List BakePixel → Nat → BakeImages → List BakePixel
  /-- `RE_bake_pixels_populate_from_objects`: the new content of the pixel
  array of high-poly object number `i` -/
  RE_bake_pixels_populate_from_objects :
    Mesh → List BakePixel → List Nat → Nat → Nat → Nat → List BakePixel
  /-- `RE_bake_normal_world_to_world` -/
  RE_bake_normal_world_to_world :
    List BakePixel → Nat → Nat → List Texel → List BakeNormalSwizzle → List Texel
  /-- `RE_bake_normal_world_to_object` -/
  RE_bake_normal_world_to_object :
    List BakePixel → Nat → Nat → List Texel → Nat → List BakeNormalSwizzle → List Texel
  /-- `RE_bake_normal_world_to_tangent` -/
  RE_bake_normal_world_to_tangent :
    List BakePixel → Nat → Nat → List Texel → Mesh → List BakeNormalSwizzle → List Texel
  /-- `IMB_colormanagement_role_colorspace_name_get(COLOR_ROLE_SCENE_LINEAR)` -/
  scene_linear_colorspace : Nat
  /-- `IMB_colormanagement_transform(buffer, x, y, channels, from, to, false)`,
  on the `x * y` texels it works on -/
  IMB_colormanagement_transform : List Texel → Nat → Nat → Nat → Nat → Nat → List Texel
  /-- the pixel `IMB_buffer_float_from_float` stores at position `p` for a
  texel of the buffer -/
  float_from_float : ImBuf → Nat → Texel → Texel
  /-- the pixel `IMB_buffer_byte_from_float` stores at position `p` for a
  texel of the buffer -/
  byte_from_float : ImBuf → Nat → Texel → Texel
  /-- the colour `RE_bake_ibuf_clear` fills an image buffer with, chosen by
  `is_tangent` and the `planes` of the buffer -/
  clear_color : Bool → Nat → Texel
  /-- `IMB_allocImBuf(width, height, planes, flags)`, `none` when it fails -/
  IMB_allocImBuf : Nat → Nat → Nat → Bool → Option ImBuf
  /-- `BKE_imbuf_write(ibuf, filepath, im_format)` -/
  BKE_imbuf_write : World → ImBuf → PathName → ImageFormatData → Bool
  /-- `BKE_makepicstring_from_type(name, filepath, bmain->name, 0, imtype, true, false)` -/
  BKE_makepicstring_from_type : String → String → Nat → String

/-- Record a call; the escape handler may have set `G.is_break` meanwhile. -/
def emit (env : Env) (w : World) (e : Event) : World :=
  { w with
    trace := w.trace ++ [e]
    is_break := w.is_break || env.esc_pressed (w.trace ++ [e]) }

/-- `bake_break`: the test-break callback handed to the renderer. -/
def bake_break (w : World) : Nat :=
  if w.is_break then 1 else 0

/-- `BKE_image_acquire_ibuf(image, NULL, &lock)`. -/
def BKE_image_acquire_ibuf (w : World) (image : Option Nat) : Option ImBuf :=
  match image with
  | none => none
  | some im => w.ibuf im

/-- `image->id.name + 2`; the code dereferences `image` without a test. -/
def image_id_name (w : World) (image : Option Nat) : String :=
  match image with
  | none => ""
  | some im => w.image_name im

/-- Store an image buffer back into its image datablock. -/
def set_ibuf (w : World) (image : Nat) (ib : ImBuf) : World :=
  { w with ibuf := Function.update w.ibuf image (some ib) }

/-- `BLI_path_suffix(name, FILE_MAX, suffix, sep)`, for names that fit. -/
def BLI_path_suffix (name : PathName) (suffix sep : String) : PathName :=
  { name with suffixes := name.suffixes ++ [(suffix, sep)] }

/-! ## Image buffer helpers of the render and image modules -/

/-- Modelled from the spec: `RE_bake_mask_fill` of the render module is not in
this file.  The coverage mask of the first `num_pixels` locators: a texel is
covered exactly when its locator is valid. -/
def RE_bake_mask_fill (pixel_array : List BakePixel) (num_pixels : Nat) : List Bool :=
  (List.range num_pixels).map (fun p => (pixel_array.getD p default).valid)

/-- Modelled from the spec: the full-overwrite copies `IMB_buffer_float_from_float`
and `IMB_buffer_byte_from_float` of the image module are not in this file.
Every pixel of the image takes the converted texel of the buffer. -/
def buffer_from_float (store : Nat → Texel → Texel) (ib : ImBuf) (buffer : List Texel) :
    List Texel :=
  (List.range (ib.x * ib.y)).map (fun p => store p (buffer.getD p 0))

/-- Modelled from the spec: the masked copies `IMB_buffer_float_from_float_mask`
and `IMB_buffer_byte_from_float_mask` of the image module are not in this file.
A pixel takes the converted texel where the mask is set and keeps its value
elsewhere. -/
def buffer_from_float_mask (store : Nat → Texel → Texel) (ib : ImBuf) (buffer : List Texel)
    (mask : List Bool) : List Texel :=
  (List.range (ib.x * ib.y)).map (fun p =>
    if mask.getD p false then store p (buffer.getD p 0) else ib.pixels.getD p 0)

/-- The first covered 4-neighbour of pixel `p` of an `x` by `y` raster, in the
scan order left, right, up, down. -/
def covered_neighbour (x y : Nat) (mask : List Bool) (p : Nat) : Option Nat :=
  if 0 < p % x ∧ mask.getD (p - 1) false then some (p - 1)
  else if p % x + 1 < x ∧ mask.getD (p + 1) false then some (p + 1)
  else if x ≤ p ∧ mask.getD (p - x) false then some (p - x)
  else if p + x < x * y ∧ mask.getD (p + x) false then some (p + x)
  else none

/-- One step of the dilation: every uncovered pixel with a covered neighbour
takes that neighbour's colour and becomes covered. -/
def margin_step (x y : Nat) (st : List Bool × List Texel) : List Bool × List Texel :=
  ((List.range (x * y)).map (fun p =>
      st.1.getD p false || (covered_neighbour x y st.1 p).isSome),
   (List.range (x * y)).map (fun p =>
      if st.1.getD p false then st.2.getD p 0
      else match covered_neighbour x y st.1 p with
        | some q => st.2.getD q 0
        | none => st.2.getD p 0))

/-- Modelled from the spec: `RE_bake_margin` of the render module is not in this
file.  Covered pixels are dilated outward by `margin` pixels, nearest covered
neighbour first. -/
def RE_bake_margin (ib : ImBuf) (mask : List Bool) (margin : Nat) : ImBuf :=
  { ib with pixels := ((margin_step ib.x ib.y)^[margin] (mask, ib.pixels)).2 }

/-- The clearing of one image by `RE_bake_ibuf_clear`. -/
def ibuf_clear_image (env : Env) (is_tangent : Bool) (w : World) (bk_image : BakeImage) :
    World :=
  match bk_image.image with
  | none => w
  | some im =>
    match w.ibuf im with
    | none => w
    | some ib =>
      set_ibuf w im
        { ib with pixels := List.replicate (ib.x * ib.y) (env.clear_color is_tangent ib.planes) }

/-- Modelled from the spec: `RE_bake_ibuf_clear` of the render module is not in
this file.  It fills the image buffer of each of the `size` surfaces with one
colour, chosen by `is_tangent`. -/
def RE_bake_ibuf_clear (env : Env) (bake_images : BakeImages) (is_tangent : Bool)
    (w : World) : World :=
  emit env ((bake_images.data.take bake_images.size).foldl (ibuf_clear_image env is_tangent) w)
    (Event.ibuf_clear is_tangent)

/-! ## The writers -/

/-- The colour management block of `write_internal_bake_pixels`: the new
content of `buffer` and the call made, if any. -/
def internal_colormanagement (env : Env) (ib : ImBuf) (buffer : List Texel)
    (is_noncolor : Bool) (w : World) : List Texel × World :=
  if !is_noncolor then
    let from_colorspace := env.scene_linear_colorspace
    let to_colorspace := if ib.is_float then ib.float_colorspace else ib.rect_colorspace
    if from_colorspace ≠ to_colorspace then
      (env.IMB_colormanagement_transform (buffer.take (ib.x * ib.y)) ib.x ib.y ib.channels
          from_colorspace to_colorspace ++ buffer.drop (ib.x * ib.y),
        emit env w (Event.colormanagement_transform from_colorspace to_colorspace))
    else (buffer, w)
  else (buffer, w)

/-- The block "populates the ImBuf" of `write_internal_bake_pixels`. -/
def internal_populate (env : Env) (ib : ImBuf) (buffer : List Texel)
    (mask_buffer : List Bool) (is_clear : Bool) : ImBuf :=
  if is_clear then
    if ib.is_float then
      { ib with pixels := buffer_from_float (env.float_from_float ib) ib buffer }
    else
      { ib with pixels := buffer_from_float (env.byte_from_float ib) ib buffer }
  else
    if ib.is_float then
      { ib with pixels := buffer_from_float_mask (env.float_from_float ib) ib buffer mask_buffer }
    else
      { ib with pixels := buffer_from_float_mask (env.byte_from_float ib) ib buffer mask_buffer }

/-- `write_internal_bake_pixels(image, pixel_array, buffer, width, height,
margin, is_clear, is_noncolor)`: the returned flag, the new content of
`buffer` and the new state. -/
def write_internal_bake_pixels (env : Env) (image : Option Nat)
    (pixel_array : List BakePixel) (buffer : List Texel) (width height margin : Nat)
    (is_clear is_noncolor : Bool) (w : World) : Bool × List Texel × World :=
  let num_pixels := width * height
  match image, BKE_image_acquire_ibuf w image with
  | some im, some ibuf =>
    let mask_buffer : List Bool :=
      if 0 < margin ∨ is_clear = false then RE_bake_mask_fill pixel_array num_pixels else []
    let cm := internal_colormanagement env ibuf buffer is_noncolor w
    let ibuf1 := internal_populate env ibuf cm.1 mask_buffer is_clear
    let ibuf2 := if 0 < margin then RE_bake_margin ibuf1 mask_buffer margin else ibuf1
    (true, cm.1, set_ibuf cm.2 im { ibuf2 with bitmapdirty := true })
  | _, _ => (false, buffer, w)

/-- The colour management of `write_external_bake_pixels`, made only on the
way to a byte buffer: the new content of `buffer` and the call made, if any. -/
def external_colormanagement (env : Env) (ibuf : ImBuf) (buffer : List Texel)
    (is_float is_noncolor : Bool) (w : World) : List Texel × World :=
  if is_float then (buffer, w)
  else if !is_noncolor then
    (env.IMB_colormanagement_transform (buffer.take (ibuf.x * ibuf.y)) ibuf.x ibuf.y
        ibuf.channels env.scene_linear_colorspace ibuf.rect_colorspace
        ++ buffer.drop (ibuf.x * ibuf.y),
      emit env w (Event.colormanagement_transform env.scene_linear_colorspace
        ibuf.rect_colorspace))
  else (buffer, w)

/-- `write_external_bake_pixels(filepath, pixel_array, buffer, width, height,
margin, im_format, is_noncolor)`: the returned flag, the new content of
`buffer` and the new state. -/
def write_external_bake_pixels (env : Env) (filepath : PathName)
    (pixel_array : List BakePixel) (buffer : List Texel) (width height margin : Nat)
    (im_format : ImageFormatData) (is_noncolor : Bool) (w : World) :
    Bool × List Texel × World :=
  let is_float := decide (8 < im_format.depth)
  match env.IMB_allocImBuf width height im_format.planes is_float with
  | none => (false, buffer, w)
  | some ibuf =>
    let cm := external_colormanagement env ibuf buffer is_float is_noncolor w
    let ibuf1 : ImBuf :=
      if is_float then
        { ibuf with pixels := buffer_from_float (env.float_from_float ibuf) ibuf buffer }
      else
        { ibuf with pixels := buffer_from_float (env.byte_from_float ibuf) ibuf cm.1 }
    let ibuf2 :=
      if 0 < margin then
        RE_bake_margin ibuf1 (RE_bake_mask_fill pixel_array (width * height)) margin
      else ibuf1
    (env.BKE_imbuf_write cm.2 ibuf2 filepath im_format, cm.1, cm.2)

/-- `is_noncolor_pass(pass_type)`: `ELEM7` against the seven enumerators. -/
def is_noncolor_pass (pass_type : ScenePassType) : Bool :=
  pass_type = ScenePassType.SCE_PASS_Z ||
  pass_type = ScenePassType.SCE_PASS_NORMAL ||
  pass_type = ScenePassType.SCE_PASS_VECTOR ||
  pass_type = ScenePassType.SCE_PASS_INDEXOB ||
  pass_type = ScenePassType.SCE_PASS_UV ||
  pass_type = ScenePassType.SCE_PASS_RAYHITS ||
  pass_type = ScenePassType.SCE_PASS_INDEXMA

/-! ## `initialize_internal_images` -/

/-- `INT_MAX` of the 32-bit `int`. -/
def INT_MAX : Nat := 2147483647

/-- The value an `int` holds after an operation whose exact result is `n`, on a
machine with 32-bit two's complement `int`: `n` modulo `2 ^ 32`.  A value above
`INT_MAX` stands for the negative `int` that lies `2 ^ 32` below it. -/
def int_of (n : Nat) : Nat := n % 4294967296

/-- The loop of `initialize_internal_images`, with `k` iterations left, at
surface `i`, with `tot_size` texels counted so far; the first component is the
value returned. -/
def initialize_internal_images_loop :
    Nat → Nat → Nat → BakeImages → World → Nat × BakeImages × World
  | 0, _, tot_size, bi, w => (tot_size, bi, w)
  | k + 1, i, tot_size, bi, w =>
    let bk_image := bi.data.getD i default
    match BKE_image_acquire_ibuf w bk_image.image with
    | some ibuf =>
      initialize_internal_images_loop k (i + 1) (int_of (tot_size + int_of (ibuf.x * ibuf.y)))
        { bi with
          data := bi.data.set i
            { bk_image with width := ibuf.x, height := ibuf.y, offset := tot_size } } w
    | none =>
      (0, bi, BKE_report w ReportType.RPT_ERROR
        (ReportMsg.not_initialized_image (image_id_name w bk_image.image)))

/-- `initialize_internal_images(bake_images, reports)`: returns the total
number of pixels. -/
def initialize_internal_images (bake_images : BakeImages) (w : World) :
    Nat × BakeImages × World :=
  initialize_internal_images_loop bake_images.size 0 0 bake_images w

/-! ## `bake` -/

/-- The fields of `Main` that `bake` reads: the file name and the object list. -/
structure Main where
  name : String
  object : List Nat

/-- The fields of `Scene` that `bake` reads: `scene->r.bake.im_format`. -/
structure Scene where
  im_format : ImageFormatData

/-- The arguments of `bake`. -/
structure BakeArgs where
  bmain : Main
  scene : Scene
  ob_low : Nat
  selected_objects : List Nat
  pass_type : ScenePassType
  margin : Nat
  save_mode : BakeSaveMode
  is_clear : Bool
  is_split_materials : Bool
  is_automatic_name : Bool
  use_selected_to_active : Bool
  cage_extrusion : Nat
  normal_space : BakeNormalSpace
  normal_swizzle : List BakeNormalSwizzle
  custom_cage : String
  filepath : String
  width : Nat
  height : Nat
  identifier : String

/-- One entry of the `highpoly` array (`BakeHighPolyData`). -/
structure BakeHighPolyData where
  ob : Nat
  restrict_flag : RestrictFlag
  pixel_array : List BakePixel
  me : Option Mesh
  tri_mod : Option Nat

/-- The local variables of `bake`.  `highpoly`, `bake_images` and
`restrict_flag_cage` are declared without initialiser: `none` until the first
assignment.  A null `pixel_array_low` or `result` is the empty list.
`re_test_break` is the test-break callback of the render `re`, `none` until
`RE_test_break_cb` sets it. -/
structure BakeLocals where
  op_result : OperatorFlag
  ok : Bool
  re_test_break : Option (World → Nat)
  ob_cage : Option Nat
  highpoly : Option (List BakeHighPolyData)
  tot_highpoly : Nat
  restrict_flag_low : RestrictFlag
  restrict_flag_cage : Option RestrictFlag
  me_low : Option Mesh
  result : List Texel
  pixel_array_low : List BakePixel
  is_highpoly : Bool
  bake_images : Option BakeImages
  num_pixels : Nat
  tot_materials : Nat

/-- How a run of `bake` ends: it returns `op_result`, or its cleanup reads a
local variable that was never assigned. -/
inductive BakeExit
  | returned (op_result : OperatorFlag)
  | undefined
  deriving DecidableEq, Repr

/-- The locals at the first statement of `bake`. -/
def bake_locals_init (a : BakeArgs) (w : World) : BakeLocals :=
  { op_result := OperatorFlag.OPERATOR_CANCELLED
    ok := false
    re_test_break := none
    ob_cage := none
    highpoly := none
    tot_highpoly := 0
    restrict_flag_low := w.restrictflag a.ob_low
    restrict_flag_cage := none
    me_low := none
    result := []
    pixel_array_low := []
    is_highpoly := false
    bake_images := none
    num_pixels := 0
    tot_materials := (w.object a.ob_low).totcol }

/-- `is_save_internal` of `bake`. -/
def is_save_internal (a : BakeArgs) : Bool :=
  decide (a.save_mode = BakeSaveMode.R_BAKE_SAVE_INTERNAL)

/-- `is_tangent` of `bake`. -/
def is_tangent (a : BakeArgs) : Bool :=
  decide (a.pass_type = ScenePassType.SCE_PASS_NORMAL) &&
    decide (a.normal_space = BakeNormalSpace.R_BAKE_SPACE_TANGENT)

/-- A stage of `bake`: `Except.error` is `goto cleanup`. -/
abbrev Stage := Except (BakeLocals × World) (BakeLocals × World)

/-- The block `if (tot_materials == 0)` of `bake`. -/
def bake_check_materials (a : BakeArgs) (l : BakeLocals) (w : World) : Stage :=
  if l.tot_materials = 0 then
    if is_save_internal a then
      Except.error (l, BKE_report w ReportType.RPT_ERROR
        ReportMsg.no_active_image_add_material_or_external)
    else if a.is_split_materials then
      Except.error (l, BKE_report w ReportType.RPT_ERROR
        ReportMsg.no_active_image_add_material_or_no_split)
    else
      Except.ok ({ l with tot_materials := 1 }, w)
  else Except.ok (l, w)

/-- The `else` branch "when saving extenally always use the size specified in
the UI" of `bake`: `num_pixels` and the surfaces and slot map it leaves. -/
def bake_external_images (a : BakeArgs) (tot_materials : Nat) (bi : BakeImages) :
    Nat × BakeImages :=
  let num_pixels := int_of (int_of (a.width * a.height) * bi.size)
  let data := (bi.data.take bi.size).map (fun _ =>
      ({ image := none, width := a.width, height := a.height,
         offset := if a.is_split_materials then num_pixels else 0 } : BakeImage))
    ++ bi.data.drop bi.size
  let lookup :=
    if a.is_split_materials then bi.lookup
    else (bi.lookup.take tot_materials).map (fun _ => 0) ++ bi.lookup.drop tot_materials
  (num_pixels, { bi with data := data, lookup := lookup })

/-- The allocation of the surfaces, `build_image_lookup` and the two branches
on `is_save_internal` of `bake`. -/
def bake_resolve_images (env : Env) (a : BakeArgs) (l : BakeLocals) (w : World) : Stage :=
  match build_image_lookup (w.object a.ob_low) (calloc_bake_images l.tot_materials 0) w with
  | (false, bi, w1) => Except.error ({ l with bake_images := some bi }, w1)
  | (true, bi, w1) =>
    if is_save_internal a then
      match initialize_internal_images bi w1 with
      | (num_pixels, bi2, w2) =>
        if num_pixels = 0 then
          Except.error ({ l with bake_images := some bi2, num_pixels := num_pixels }, w2)
        else
          Except.ok ({ l with bake_images := some bi2, num_pixels := num_pixels },
            if a.is_clear then RE_bake_ibuf_clear env bi2 (is_tangent a) w2 else w2)
    else
      match bake_external_images a l.tot_materials bi with
      | (num_pixels, bi2) =>
        Except.ok ({ l with bake_images := some bi2, num_pixels := num_pixels }, w1)

/-- The block `if (use_selected_to_active)` of `bake`. -/
def bake_count_highpoly (a : BakeArgs) (l : BakeLocals) (w : World) : Stage :=
  if a.use_selected_to_active then
    let tot_highpoly := (a.selected_objects.filter (fun ob_iter => ob_iter ≠ a.ob_low)).length
    if tot_highpoly = 0 then
      Except.error ({ l with tot_highpoly := tot_highpoly,
                             op_result := OperatorFlag.OPERATOR_CANCELLED },
        BKE_report w ReportType.RPT_ERROR ReportMsg.no_valid_selected_objects)
    else
      Except.ok ({ l with tot_highpoly := tot_highpoly, is_highpoly := true }, w)
  else Except.ok (l, w)

/-- `BLI_findstring(&bmain->object, custom_cage, offsetof(ID, name) + 2)`. -/
def find_object_by_name (a : BakeArgs) (w : World) : Option Nat :=
  a.bmain.object.find? (fun ob => (w.object ob).name = a.custom_cage)

/-- The block `if (custom_cage[0] != 0)` of `bake`. -/
def bake_find_cage (a : BakeArgs) (l : BakeLocals) (w : World) : Stage :=
  if a.custom_cage ≠ "" then
    match find_object_by_name a w with
    | none =>
      Except.error ({ l with ob_cage := none, op_result := OperatorFlag.OPERATOR_CANCELLED },
        BKE_report w ReportType.RPT_ERROR ReportMsg.no_valid_cage_object)
    | some ob_cage =>
      if (w.object ob_cage).is_mesh then
        Except.ok ({ l with ob_cage := some ob_cage,
                            restrict_flag_cage := some (w.restrictflag ob_cage) }, w)
      else
        Except.error ({ l with ob_cage := some ob_cage,
                               op_result := OperatorFlag.OPERATOR_CANCELLED },
          BKE_report w ReportType.RPT_ERROR ReportMsg.no_valid_cage_object)
  else Except.ok (l, w)

/-- `G.is_break = false`, `RE_test_break_cb(re, NULL, bake_break)` and the
allocation of `pixel_array_low` and `result`. -/
def bake_allocate (l : BakeLocals) (w : World) : BakeLocals × World :=
  ({ l with re_test_break := some bake_break
            pixel_array_low := List.replicate l.num_pixels default
            result := List.replicate l.num_pixels 0 },
   { w with is_break := false })

/-- `ob->restrictflag |= OB_RESTRICT_RENDER` (`render = true`) and
`ob->restrictflag &= ~OB_RESTRICT_RENDER` (`render = false`). -/
def set_restrict_render (w : World) (ob : Nat) (render : Bool) : World :=
  { w with
    restrictflag := Function.update w.restrictflag ob
      { (w.restrictflag ob) with render := render } }

/-- `ob->restrictflag = flag`. -/
def set_restrictflag (w : World) (ob : Nat) (flag : RestrictFlag) : World :=
  { w with restrictflag := Function.update w.restrictflag ob flag }

/-- One call of the evaluator: `RE_bake_engine` when the render has an engine,
else `RE_bake_internal`. -/
def bake_evaluate (env : Env) (a : BakeArgs) (ob : Nat) (pixel_array : List BakePixel)
    (num_pixels : Nat) (result : List Texel) (w : World) : Bool × List Texel × World :=
  let depth := env.RE_pass_depth a.pass_type
  let r :=
    if env.RE_bake_has_engine then
      env.RE_bake_engine w ob pixel_array num_pixels depth a.pass_type result
    else
      env.RE_bake_internal w ob pixel_array num_pixels depth a.pass_type result
  (r.1, r.2, emit env w (Event.evaluate env.RE_bake_has_engine ob num_pixels depth r.1))

/-- The loop "populate highpoly array" of `bake` over the selected objects. -/
def bake_populate_highpoly (a : BakeArgs) (num_pixels : Nat) :
    List Nat → World → List BakeHighPolyData × World
  | [], w => ([], w)
  | ob_iter :: rest, w =>
    if ob_iter = a.ob_low then bake_populate_highpoly a num_pixels rest w
    else
      let h : BakeHighPolyData :=
        { ob := ob_iter
          restrict_flag := w.restrictflag ob_iter
          pixel_array := List.replicate num_pixels default
          me := some { ob := ob_iter, stack := 2 }
          tri_mod := some ob_iter }
      let r := bake_populate_highpoly a num_pixels rest (set_restrict_render w ob_iter false)
      (h :: r.1, r.2)

/-- The loop "the baking itself" of `bake`: one evaluator call per high-poly
object, left at the first failure. -/
def bake_highpoly_loop (env : Env) (a : BakeArgs) (num_pixels : Nat) :
    List BakeHighPolyData → Bool → List Texel → World → Bool × List Texel × World
  | [], ok, result, w => (ok, result, w)
  | h :: rest, _, result, w =>
    match bake_evaluate env a h.ob h.pixel_array num_pixels result w with
    | (ok, result1, w1) =>
      if ok then bake_highpoly_loop env a num_pixels rest ok result1 w1
      else (ok, result1, w1)

/-- The branch `if (is_highpoly)` of `bake`. -/
def bake_highpoly (env : Env) (a : BakeArgs) (bi : BakeImages) (l : BakeLocals) (w : World) :
    BakeLocals × World :=
  let me_low : Mesh :=
    match l.ob_cage with
    | some ob_cage => { ob := ob_cage, stack := 0 }
    | none => { ob := a.ob_low, stack := 1 }
  let hp := bake_populate_highpoly a l.num_pixels a.selected_objects w
  let pixel_array_low := env.RE_bake_pixels_populate me_low l.pixel_array_low l.num_pixels bi
  let w1 := set_restrict_render hp.2 a.ob_low true
  let from_objects := env.RE_bake_pixels_populate_from_objects me_low pixel_array_low
    (hp.1.map (fun h => h.ob)) l.num_pixels a.cage_extrusion
  let highpoly := List.zipWith
    (fun (h : BakeHighPolyData) i => { h with pixel_array := from_objects i })
    hp.1 (List.range hp.1.length)
  match bake_highpoly_loop env a l.num_pixels highpoly l.ok l.result w1 with
  | (ok, result, w2) =>
    ({ l with highpoly := some highpoly, me_low := some me_low,
              pixel_array_low := pixel_array_low, ok := ok, result := result },
     match l.ob_cage with
     | some ob_cage => set_restrict_render w2 ob_cage true
     | none => w2)

/-- The branch `else` of `if (is_highpoly)` of `bake`: the direct bake. -/
def bake_direct (env : Env) (a : BakeArgs) (bi : BakeImages) (l : BakeLocals) (w : World) :
    BakeLocals × World :=
  let me_low : Mesh := { ob := a.ob_low, stack := 0 }
  let pixel_array_low := env.RE_bake_pixels_populate me_low l.pixel_array_low l.num_pixels bi
  let w1 := set_restrict_render w a.ob_low false
  match bake_evaluate env a a.ob_low pixel_array_low l.num_pixels l.result w1 with
  | (ok, result, w2) =>
    ({ l with me_low := some me_low, pixel_array_low := pixel_array_low,
              ok := ok, result := result }, w2)

/-- The block "normal space conversion" of `bake`. -/
def bake_normal_space (env : Env) (a : BakeArgs) (bi : BakeImages) (l : BakeLocals)
    (w : World) : BakeLocals × World :=
  let depth := env.RE_pass_depth a.pass_type
  if a.pass_type = ScenePassType.SCE_PASS_NORMAL then
    match a.normal_space with
    | BakeNormalSpace.R_BAKE_SPACE_WORLD =>
      if a.normal_swizzle[0]? = some BakeNormalSwizzle.R_BAKE_POSX ∧
         a.normal_swizzle[1]? = some BakeNormalSwizzle.R_BAKE_POSY ∧
         a.normal_swizzle[2]? = some BakeNormalSwizzle.R_BAKE_POSZ then (l, w)
      else
        let result := env.RE_bake_normal_world_to_world l.pixel_array_low l.num_pixels
          depth l.result a.normal_swizzle
        ({ l with result := result }, emit env w Event.normal_world_to_world)
    | BakeNormalSpace.R_BAKE_SPACE_OBJECT =>
      let result := env.RE_bake_normal_world_to_object l.pixel_array_low l.num_pixels
        depth l.result a.ob_low a.normal_swizzle
      ({ l with result := result }, emit env w (Event.normal_world_to_object a.ob_low))
    | BakeNormalSpace.R_BAKE_SPACE_TANGENT =>
      if l.is_highpoly then
        match l.me_low with
        | some me_low =>
          let result := env.RE_bake_normal_world_to_tangent l.pixel_array_low
            l.num_pixels depth l.result me_low a.normal_swizzle
          ({ l with result := result }, emit env w (Event.normal_world_to_tangent me_low))
        | none => (l, w)
      else
        let me_nores : Mesh := { ob := a.ob_low, stack := 3 }
        let pixel_array_low :=
          env.RE_bake_pixels_populate me_nores l.pixel_array_low l.num_pixels bi
        let result := env.RE_bake_normal_world_to_tangent pixel_array_low
          l.num_pixels depth l.result me_nores a.normal_swizzle
        ({ l with pixel_array_low := pixel_array_low, result := result },
         emit env w (Event.normal_world_to_tangent me_nores))
    | BakeNormalSpace.other _ => (l, w)
  else (l, w)

/-- The name `bake` builds for the file of surface `i`. -/
def bake_file_name (env : Env) (a : BakeArgs) (l : BakeLocals) (w : World) (i : Nat)
    (bk_image : BakeImage) : PathName :=
  let name0 : PathName :=
    { base := env.BKE_makepicstring_from_type a.filepath a.bmain.name a.scene.im_format.imtype
      suffixes := [] }
  let name1 :=
    if a.is_automatic_name then
      BLI_path_suffix (BLI_path_suffix name0 (w.object a.ob_low).name "_") a.identifier "_"
    else name0
  if a.is_split_materials then
    match bk_image.image with
    | some im => BLI_path_suffix name1 (w.image_name im) "_"
    | none =>
      match (w.object a.ob_low).mat i with
      | some m => BLI_path_suffix name1 m "_"
      | none =>
        match l.me_low.bind (fun me => env.mesh_mat me i) with
        | some m => BLI_path_suffix name1 m "_"
        | none => BLI_path_suffix name1 (Nat.repr (i % 1000)) "_"
  else name1

/-- The body of the loop "save the results" of `bake` for surface `i`. -/
def bake_save_surface (env : Env) (a : BakeArgs) (bi : BakeImages) (i : Nat)
    (l : BakeLocals) (w : World) : BakeLocals × World :=
  let bk_image := bi.data.getD i default
  let is_noncolor := is_noncolor_pass a.pass_type
  if is_save_internal a then
    match write_internal_bake_pixels env bk_image.image
        (l.pixel_array_low.drop bk_image.offset) (l.result.drop bk_image.offset)
        bk_image.width bk_image.height a.margin a.is_clear is_noncolor w with
    | (ok, buffer, w1) =>
      let w2 := emit env w1
        (Event.write_internal bk_image.image bk_image.offset bk_image.width bk_image.height ok)
      let result := l.result.take bk_image.offset ++ buffer
      if ok then
        ({ l with ok := ok, result := result, op_result := OperatorFlag.OPERATOR_FINISHED },
         BKE_report w2 ReportType.RPT_INFO ReportMsg.saved_to_internal_image)
      else
        ({ l with ok := ok, result := result, op_result := OperatorFlag.OPERATOR_CANCELLED },
         BKE_report w2 ReportType.RPT_ERROR ReportMsg.problem_saving_internally)
  else
    let name := bake_file_name env a l w i bk_image
    match write_external_bake_pixels env name
        (l.pixel_array_low.drop bk_image.offset) (l.result.drop bk_image.offset)
        bk_image.width bk_image.height a.margin a.scene.im_format is_noncolor w with
    | (ok, buffer, w1) =>
      let w2 := emit env w1
        (Event.write_external name bk_image.offset bk_image.width bk_image.height ok)
      let result := l.result.take bk_image.offset ++ buffer
      if ok then
        ({ l with ok := ok, result := result, op_result := OperatorFlag.OPERATOR_FINISHED },
         BKE_report w2 ReportType.RPT_INFO (ReportMsg.baking_map_written_to name))
      else
        ({ l with ok := ok, result := result, op_result := OperatorFlag.OPERATOR_CANCELLED },
         BKE_report w2 ReportType.RPT_ERROR (ReportMsg.problem_saving_baked_map_in name))

/-- The loop "save the results" of `bake`, with `k` iterations left, at
surface `i`; in external mode without split materials it is left after the
first surface. -/
def bake_save_loop (env : Env) (a : BakeArgs) (bi : BakeImages) :
    Nat → Nat → BakeLocals → World → BakeLocals × World
  | 0, _, l, w => (l, w)
  | k + 1, i, l, w =>
    match bake_save_surface env a bi i l w with
    | (l1, w1) =>
      if is_save_internal a = false ∧ a.is_split_materials = false then (l1, w1)
      else bake_save_loop env a bi k (i + 1) l1 w1

/-- The block `if (!ok) ... else ...` after the evaluation of `bake`. -/
def bake_save (env : Env) (a : BakeArgs) (bi : BakeImages) (l : BakeLocals) (w : World) :
    BakeLocals × World :=
  if l.ok then bake_save_loop env a bi bi.size 0 l w
  else
    ({ l with op_result := OperatorFlag.OPERATOR_CANCELLED },
     BKE_report w ReportType.RPT_ERROR ReportMsg.problem_baking_object_map)

/-- The evaluation of `bake`: the branch `if (is_highpoly)` or its `else`. -/
def bake_evaluation (env : Env) (a : BakeArgs) (bi : BakeImages) (l : BakeLocals)
    (w : World) : BakeLocals × World :=
  if l.is_highpoly then bake_highpoly env a bi l w else bake_direct env a bi l w

/-- The part of `bake` from `RE_bake_engine_set_engine_parameters` to the label
`cleanup`. -/
def bake_run (env : Env) (a : BakeArgs) (l : BakeLocals) (w : World) : BakeLocals × World :=
  match l.bake_images with
  | none => (l, w)
  | some bi =>
    match bake_allocate l w with
    | (l1, w1) =>
      match bake_evaluation env a bi l1 w1 with
      | (l2, w2) =>
        match bake_normal_space env a bi l2 w2 with
        | (l3, w3) => bake_save env a bi l3 w3

/-- The part of `bake` before `RE_bake_engine_set_engine_parameters`: the
checks that may `goto cleanup`. -/
def bake_setup (env : Env) (a : BakeArgs) (w : World) : Stage :=
  match bake_check_materials a (bake_locals_init a w) w with
  | Except.error s => Except.error s
  | Except.ok (l1, w1) =>
    match bake_resolve_images env a l1 w1 with
    | Except.error s => Except.error s
    | Except.ok (l2, w2) =>
      match bake_count_highpoly a l2 w2 with
      | Except.error s => Except.error s
      | Except.ok (l3, w3) => bake_find_cage a l3 w3

/-- The restoring loop over `highpoly` in the cleanup of `bake`. -/
def cleanup_highpoly (w : World) (highpoly : List BakeHighPolyData) : World :=
  highpoly.foldl (fun w h => set_restrictflag w h.ob h.restrict_flag) w

/-- The code of `bake` after the label `cleanup`. -/
def bake_cleanup (a : BakeArgs) (l : BakeLocals) (w : World) : BakeExit × World :=
  let after_highpoly : Option World :=
    if l.is_highpoly then
      match l.highpoly with
      | none => none
      | some highpoly => some (cleanup_highpoly w (highpoly.take l.tot_highpoly))
    else some w
  match after_highpoly with
  | none => (BakeExit.undefined, w)
  | some w1 =>
    let w2 := set_restrictflag w1 a.ob_low l.restrict_flag_low
    let after_cage : Option World :=
      match l.ob_cage with
      | none => some w2
      | some ob_cage =>
        match l.restrict_flag_cage with
        | none => none
        | some flag => some (set_restrictflag w2 ob_cage flag)
    match after_cage with
    | none => (BakeExit.undefined, w2)
    | some w3 =>
      match l.bake_images with
      | none => (BakeExit.undefined, w3)
      | some _ => (BakeExit.returned l.op_result, w3)

/-- `bake(bmain, scene, ob_low, selected_objects, reports, pass_type, margin,
save_mode, is_clear, is_split_materials, is_automatic_name,
use_selected_to_active, cage_extrusion, normal_space, normal_swizzle,
custom_cage, filepath, width, height, identifier)`. -/
def bake (env : Env) (a : BakeArgs) (w : World) : BakeExit × World :=
  match bake_setup env a w with
  | Except.error (l, w1) => bake_cleanup a l w1
  | Except.ok (l, w1) =>
    match bake_run env a l w1 with
    | (l2, w2) => bake_cleanup a l2 w2

/-- The locals and the state with which `bake` reaches the label `cleanup`. -/
def bake_before_cleanup (env : Env) (a : BakeArgs) (w : World) : BakeLocals × World :=
  match bake_setup env a w with
  | Except.error s => s
  | Except.ok (l, w1) => bake_run env a l w1

/-! ## The operator: `bake_init_api_data`, `bake_exec`, `bake_modal`, `bake_invoke` -/

/-- The properties of the operator (`op->ptr`), as the `RNA_*_get` calls of
`bake_init_api_data` read them. -/
structure OperatorProperties where
  type : ScenePassType
  margin : Nat
  save_mode : BakeSaveMode
  use_clear : Bool
  use_split_materials : Bool
  use_automatic_name : Bool
  use_selected_to_active : Bool
  cage_extrusion : Nat
  normal_space : BakeNormalSpace
  normal_r : BakeNormalSwizzle
  normal_g : BakeNormalSwizzle
  normal_b : BakeNormalSwizzle
  width : Nat
  height : Nat
  cage : String

/-- Job types of `WM_api.h` that this file names; `other n` is any further
enumerator. -/
inductive JobType
  | WM_JOB_TYPE_RENDER_BAKE
  | WM_JOB_TYPE_OBJECT_BAKE_TEXTURE
  | other (n : Nat)
  deriving DecidableEq, Repr

/-- The type of a `wmEvent`: the escape key or any other event type. -/
inductive EventType
  | ESCKEY
  | other (n : Nat)
  deriving DecidableEq, Repr

/-- The request record (`BakeAPIRender`); `reports`, `result` and `ready` are
left out. -/
structure BakeAPIRender where
  ob : Nat
  main : Main
  scene : Scene
  selected_objects : List Nat
  pass_type : ScenePassType
  margin : Nat
  save_mode : BakeSaveMode
  is_clear : Bool
  is_split_materials : Bool
  is_automatic_name : Bool
  use_selected_to_active : Bool
  cage_extrusion : Nat
  normal_space : BakeNormalSpace
  normal_swizzle : List BakeNormalSwizzle
  custom_cage : String
  filepath : String
  width : Nat
  height : Nat
  identifier : String

/-- A job of the window manager (`wmJob`): its owner, its type, whether it is
running or waiting to run, and the request it was given as custom data. -/
structure wmJob where
  owner : Nat
  job_type : JobType
  running : Bool
  suspended : Bool
  customdata : Option BakeAPIRender

/-- What the operator callbacks read from their `bContext`, with the job list
of its window manager and the global `G.is_rendering`. -/
structure bContext where
  /-- `CTX_data_main(C)` -/
  main : Main
  /-- `CTX_data_scene(C)`, as the owner of jobs -/
  scene_id : Nat
  /-- `CTX_data_scene(C)`, the fields `bake` reads -/
  scene : Scene
  /-- `CTX_data_active_object(C)` -/
  active_object : Nat
  /-- `CTX_data_selected_objects(C, ...)` -/
  selected_objects : List Nat
  /-- `RNA_property_enum_identifier` for the property "type": the identifier of
  the enum item of a pass kind, `none` when it has no item -/
  pass_type_identifier : ScenePassType → Option String
  /-- `CTX_wm_manager(C)->jobs` -/
  jobs : List wmJob
  /-- `G.is_rendering` -/
  is_rendering : Bool
  /-- whether the operator has a modal handler in the window -/
  modal_handler : Bool

/-- `bake_init_api_data(op, C, bkr)` on a zeroed `bkr`, as both callers pass
it.  The property "filepath" is not read: `bkr->filepath` stays empty. -/
def bake_init_api_data (op : OperatorProperties) (C : bContext) : BakeAPIRender :=
  let is_save_internal := decide (op.save_mode = BakeSaveMode.R_BAKE_SAVE_INTERNAL)
  let is_automatic_name := op.use_automatic_name
  { ob := C.active_object
    main := C.main
    scene := C.scene
    pass_type := op.type
    margin := op.margin
    is_clear := op.use_clear
    is_split_materials := !is_save_internal && op.use_split_materials
    is_automatic_name := is_automatic_name
    use_selected_to_active := op.use_selected_to_active
    cage_extrusion := op.cage_extrusion
    normal_space := op.normal_space
    normal_swizzle := [op.normal_r, op.normal_g, op.normal_b]
    width := op.width
    height := op.height
    identifier :=
      if !is_save_internal && is_automatic_name then
        match C.pass_type_identifier op.type with
        | some identifier => identifier
        | none => ""
      else ""
    custom_cage := op.cage
    selected_objects := if op.use_selected_to_active then C.selected_objects else []
    filepath := ""
    save_mode := BakeSaveMode.R_BAKE_SAVE_INTERNAL }

/-- The argument list of the two calls of `bake`, in `bake_exec` and in
`bake_startjob`. -/
def bake_args (bkr : BakeAPIRender) : BakeArgs :=
  { bmain := bkr.main
    scene := bkr.scene
    ob_low := bkr.ob
    selected_objects := bkr.selected_objects
    pass_type := bkr.pass_type
    margin := bkr.margin
    save_mode := bkr.save_mode
    is_clear := bkr.is_clear
    is_split_materials := bkr.is_split_materials
    is_automatic_name := bkr.is_automatic_name
    use_selected_to_active := bkr.use_selected_to_active
    cage_extrusion := bkr.cage_extrusion
    normal_space := bkr.normal_space
    normal_swizzle := bkr.normal_swizzle
    custom_cage := bkr.custom_cage
    filepath := bkr.filepath
    width := bkr.width
    height := bkr.height
    identifier := bkr.identifier }

/-- `bake_exec(C, op)`. -/
def bake_exec (env : Env) (op : OperatorProperties) (C : bContext) (w : World) :
    BakeExit × World :=
  bake env (bake_args (bake_init_api_data op C)) w

/-- `bake_startjob(bkv, ...)`: the value stored in `bkr->result` and the new
state. -/
def bake_startjob (env : Env) (bkr : BakeAPIRender) (w : World) : BakeExit × World :=
  bake env (bake_args bkr) w

/-- Modelled from the spec: `WM_jobs_test` of the window manager is not in this
file.  Whether a job of the given owner and of the given type is active
(running or waiting to run): the admission gate of the job host. -/
def WM_jobs_test (jobs : List wmJob) (owner : Nat) (job_type : JobType) : Bool :=
  jobs.any (fun j =>
    decide (j.owner = owner) && decide (j.job_type = job_type) && (j.running || j.suspended))

/-- Modelled from the spec: `WM_jobs_get`, `WM_jobs_customdata_set` and
`WM_jobs_start` of the window manager are not in this file.  A job of the
given owner and type, with the given custom data, is active afterwards. -/
def WM_jobs_start (jobs : List wmJob) (owner : Nat) (job_type : JobType)
    (customdata : BakeAPIRender) : List wmJob :=
  jobs ++ [{ owner := owner, job_type := job_type, running := true, suspended := false,
             customdata := some customdata }]

/-- `bake_modal(C, op, event)`: the flags returned, or-ed together, and the new
state. -/
def bake_modal (C : bContext) (event : EventType) (w : World) : List OperatorFlag × World :=
  if WM_jobs_test C.jobs C.scene_id JobType.WM_JOB_TYPE_RENDER_BAKE = false then
    ([OperatorFlag.OPERATOR_FINISHED, OperatorFlag.OPERATOR_PASS_THROUGH], w)
  else
    match event with
    | EventType.ESCKEY => ([OperatorFlag.OPERATOR_RUNNING_MODAL], { w with is_break := true })
    | EventType.other _ => ([OperatorFlag.OPERATOR_PASS_THROUGH], w)

/-- `bake_invoke(C, op, event)`, for properties as `bake_set_props` leaves them:
the flags returned and the new context and state.  The job runs
`bake_startjob` on its custom data. -/
def bake_invoke (op : OperatorProperties) (C : bContext) (w : World) :
    List OperatorFlag × bContext × World :=
  if WM_jobs_test C.jobs C.scene_id JobType.WM_JOB_TYPE_OBJECT_BAKE_TEXTURE then
    ([OperatorFlag.OPERATOR_CANCELLED], C, w)
  else
    let bkr := bake_init_api_data op C
    ([OperatorFlag.OPERATOR_RUNNING_MODAL],
     { C with
       jobs := WM_jobs_start C.jobs C.scene_id JobType.WM_JOB_TYPE_OBJECT_BAKE_TEXTURE bkr
       is_rendering := true
       modal_handler := true },
     { w with is_break := false })

/-! ## Reading a trace -/

/-- Whether a call is an evaluator call. -/
def Event.is_evaluate : Event → Bool
  | Event.evaluate _ _ _ _ _ => true
  | _ => false

/-- Whether a call is an evaluator call that reported failure. -/
def Event.evaluate_failed : Event → Bool
  | Event.evaluate _ _ _ _ ok => !ok
  | _ => false

/-- Whether a call is a call of one of the two writers. -/
def Event.is_write : Event → Bool
  | Event.write_internal _ _ _ _ _ => true
  | Event.write_external _ _ _ _ _ => true
  | _ => false

/-- The slice `(offset, width, height)` a writer call was given. -/
def Event.write_slice : Event → Option (Nat × Nat × Nat)
  | Event.write_internal _ offset width height _ => some (offset, width, height)
  | Event.write_external _ offset width height _ => some (offset, width, height)
  | _ => none

/-- Whether a call is a colour space transform. -/
def Event.is_transform : Event → Bool
  | Event.colormanagement_transform _ _ => true
  | _ => false

/-- The flag an evaluator call returned. -/
def Event.evaluate_ok : Event → Option Bool
  | Event.evaluate _ _ _ _ ok => some ok
  | _ => none

/-- The object an evaluator call was made for. -/
def Event.evaluate_ob : Event → Option Nat
  | Event.evaluate _ ob _ _ _ => some ob
  | _ => none

/-- The flag a writer call returned. -/
def Event.write_ok : Event → Option Bool
  | Event.write_internal _ _ _ _ ok => some ok
  | Event.write_external _ _ _ _ ok => some ok
  | _ => none

/-- The file name a call of the external writer was given. -/
def Event.write_name : Event → Option PathName
  | Event.write_external name _ _ _ _ => some name
  | _ => none

/-- Whether a call is a call of one of the three normal space converters. -/
def Event.is_converter : Event → Bool
  | Event.normal_world_to_world => true
  | Event.normal_world_to_object _ => true
  | Event.normal_world_to_tangent _ => true
  | _ => false

/-! ## Concrete inputs -/

/-- Collaborators for the concrete runs: the evaluator answers `ok` of the
calls made so far and fills `result` with the texel 9, the escape handler
answers `esc`, every other helper succeeds and leaves its data as it is. -/
def demo_env (ok : List Event → Bool) (esc : List Event → Bool) : Env :=
  { esc_pressed := esc
    RE_pass_depth := fun _ => 4
    RE_bake_has_engine := true
    RE_bake_engine := fun w _ _ n _ _ _ => (ok w.trace, List.replicate n 9)
    RE_bake_internal := fun w _ _ n _ _ _ => (ok w.trace, List.replicate n 9)
    mesh_mat := fun _ _ => none
    RE_bake_pixels_populate := fun _ _ n _ => List.replicate n { valid := true, locator := 0 }
    RE_bake_pixels_populate_from_objects := fun _ pixel_array _ _ _ _ => pixel_array
    RE_bake_normal_world_to_world := fun _ _ _ result _ => result
    RE_bake_normal_world_to_object := fun _ _ _ result _ _ => result
    RE_bake_normal_world_to_tangent := fun _ _ _ result _ _ => result
    scene_linear_colorspace := 0
    IMB_colormanagement_transform := fun buffer _ _ _ _ _ => buffer
    float_from_float := fun _ _ t => t
    byte_from_float := fun _ _ t => t
    clear_color := fun _ _ => 0
    IMB_allocImBuf := fun x y planes is_float =>
      some { x := x, y := y, channels := 4, planes := planes, dither := 0,
             is_float := is_float, pixels := List.replicate (x * y) 0,
             float_colorspace := 0, rect_colorspace := 1, bitmapdirty := false }
    BKE_imbuf_write := fun _ _ _ _ => true
    BKE_makepicstring_from_type := fun filepath _ _ => filepath }

/-- An object with `totcol` material slots, all of material "Mat", whose
active images are given by `active_image`. -/
def demo_object (totcol : Nat) (active_image : Nat → Option Nat) : Object :=
  { name := "Cube", is_mesh := true, totcol := totcol
    mat := fun _ => some "Mat", mesh_mat := fun _ => none
    active_image := active_image }

/-- A state in which object 0 is `ob`, the objects 1 and 2 are meshes without
materials, and every image has a float buffer of 2 by 1 pixels `[5, 6]`. -/
def demo_world (ob : Object) : World :=
  { is_break := false
    doit := fun _ => false
    ibuf := fun _ =>
      some { x := 2, y := 1, channels := 4, planes := 32, dither := 0, is_float := true,
             pixels := [5, 6], float_colorspace := 0, rect_colorspace := 1,
             bitmapdirty := false }
    image_name := fun _ => "Image"
    object := fun n => if n = 0 then ob else demo_object 0 (fun _ => none)
    restrictflag := fun _ => { render := false, rest := 0 }
    reports := []
    trace := [] }

/-- Arguments of a bake of object 0 of the combined pass, with margin 0 and
the size 2 by 1 for written files. -/
def demo_args (save_mode : BakeSaveMode) (is_clear is_split_materials : Bool)
    (selected_objects : List Nat) : BakeArgs :=
  { bmain := { name := "untitled.blend", object := [0, 1, 2] }
    scene := { im_format := { depth := 8, planes := 32, imtype := 0 } }
    ob_low := 0
    selected_objects := selected_objects
    pass_type := ScenePassType.SCE_PASS_COMBINED
    margin := 0
    save_mode := save_mode
    is_clear := is_clear
    is_split_materials := is_split_materials
    is_automatic_name := false
    use_selected_to_active := !selected_objects.isEmpty
    cage_extrusion := 0
    normal_space := BakeNormalSpace.R_BAKE_SPACE_WORLD
    normal_swizzle := [BakeNormalSwizzle.R_BAKE_POSX, BakeNormalSwizzle.R_BAKE_POSY,
      BakeNormalSwizzle.R_BAKE_POSZ]
    custom_cage := ""
    filepath := "bake"
    width := 2
    height := 1
    identifier := "" }

/-- Two surfaces on the images 7 and 8, as `build_image_lookup` leaves them. -/
def demo_two_surfaces : BakeImages :=
  { data := [{ image := some 7, width := 0, height := 0, offset := 0 },
             { image := some 8, width := 0, height := 0, offset := 0 }]
    lookup := [0, 1]
    size := 2 }

/-- The images seen so far, extended by the image of the next slot. -/
def add_image (seen : List Nat) (x : Nat) : List Nat :=
  if x ∈ seen then seen else seen ++ [x]

/-- The distinct images of a slot list, in order of first appearance. -/
def first_appearance (slots : List Nat) : List Nat :=
  slots.foldl add_image []

/-- The number of texels of the image buffer of surface `j`. -/
def surface_area (w : World) (data : List BakeImage) (j : Nat) : Nat :=
  match BKE_image_acquire_ibuf w (data.getD j default).image with
  | some ibuf => ibuf.x * ibuf.y
  | none => 0

/-- The sum of the texel counts of the surfaces before surface `j`. -/
def area_before (w : World) (data : List BakeImage) (j : Nat) : Nat :=
  ((List.range j).map (surface_area w data)).sum

/-- A state in which object 0 is the mesh "Cube" with one material slot on
image 7, object 1 is the mesh "High" and object 2 is "Lamp", not a mesh; the
objects 1 and 2 are hidden from rendering. -/
def demo_cage_world : World :=
  { demo_world (demo_object 1 (fun _ => some 7)) with
    object := fun n =>
      if n = 0 then demo_object 1 (fun _ => some 7)
      else if n = 1 then
        { name := "High", is_mesh := true, totcol := 0, mat := fun _ => none,
          mesh_mat := fun _ => none, active_image := fun _ => none }
      else
        { name := "Lamp", is_mesh := false, totcol := 0, mat := fun _ => none,
          mesh_mat := fun _ => none, active_image := fun _ => none }
    restrictflag := fun n => { render := decide (n ≠ 0), rest := n } }

/-- Collaborators as `demo_env` with an evaluator that succeeds, except that
`BKE_imbuf_write` fails for the first file and succeeds afterwards. -/
def demo_env_first_write_fails : Env :=
  { demo_env (fun _ => true) (fun _ => false) with
    BKE_imbuf_write := fun w _ _ _ => w.trace.any Event.is_write }

/-- An operator context without any job: scene 0, active object 0, the
objects 1 and 2 selected. -/
def demo_context : bContext :=
  { main := { name := "untitled.blend", object := [0, 1, 2] }
    scene_id := 0
    scene := { im_format := { depth := 8, planes := 32, imtype := 0 } }
    active_object := 0
    selected_objects := [1, 2]
    pass_type_identifier := fun _ => some "COMBINED"
    jobs := []
    is_rendering := false
    modal_handler := false }

/-- Operator properties asking for an external bake with split materials and
automatic names. -/
def demo_properties : OperatorProperties :=
  { type := ScenePassType.SCE_PASS_COMBINED
    margin := 0
    save_mode := BakeSaveMode.R_BAKE_SAVE_EXTERNAL
    use_clear := false
    use_split_materials := true
    use_automatic_name := true
    use_selected_to_active := false
    cage_extrusion := 0
    normal_space := BakeNormalSpace.R_BAKE_SPACE_TANGENT
    normal_r := BakeNormalSwizzle.R_BAKE_POSX
    normal_g := BakeNormalSwizzle.R_BAKE_POSY
    normal_b := BakeNormalSwizzle.R_BAKE_POSZ
    width := 2
    height := 1
    cage := "" }

/-- The loop invariant of `build_image_lookup` before slot `i`: `seen` lists
the images of the surfaces found so far. -/
structure LookupInv (slot : Nat → Nat) (i : Nat) (seen : List Nat) (bi : BakeImages)
    (w : World) : Prop where
  seen_le : seen.length ≤ i
  tagged : ∀ x, w.doit x = true ↔ x ∈ seen
  data_seen : ∀ p, p < seen.length → (bi.data.getD p default).image = seen[p]?
  lookup_ok : ∀ s, s < i → bi.lookup.getD s 0 < seen.length ∧
    (bi.data.getD (bi.lookup.getD s 0) default).image = some (slot s)

/-- Two states that differ at most in the trace and in `G.is_break`. -/
def SameButTrace (w w' : World) : Prop :=
  w'.doit = w.doit ∧ w'.ibuf = w.ibuf ∧ w'.image_name = w.image_name ∧
  w'.object = w.object ∧ w'.restrictflag = w.restrictflag ∧ w'.reports = w.reports

/-- Two states that differ at most in the trace, in `G.is_break` and in the
`restrictflag` of objects. -/
def SameButFlags (w w' : World) : Prop :=
  w'.doit = w.doit ∧ w'.ibuf = w.ibuf ∧ w'.image_name = w.image_name ∧
  w'.object = w.object ∧ w'.reports = w.reports

/-- The locals that the stages after the setup of `bake` leave as they are. -/
def SameControl (l l' : BakeLocals) : Prop :=
  l'.ob_cage = l.ob_cage ∧ l'.restrict_flag_cage = l.restrict_flag_cage ∧
  l'.is_highpoly = l.is_highpoly ∧ l'.tot_highpoly = l.tot_highpoly ∧
  l'.restrict_flag_low = l.restrict_flag_low ∧ l'.bake_images = l.bake_images ∧
  l'.num_pixels = l.num_pixels

/-- The evaluator calls of one run: evaluator calls only, all but the last
successful, the last one returning `ok`; without a call `ok` keeps `ok0`. -/
def EvalCalls (evs : List Event) (ok0 ok : Bool) : Prop :=
  (∀ e ∈ evs, e.is_evaluate = true) ∧
  ((evs = [] ∧ ok = ok0) ∨
    ∃ init eng ob np d, evs = init ++ [Event.evaluate eng ob np d ok] ∧
      ∀ e ∈ init, e.evaluate_failed = false)

/-- The number of passes of the save loop over `k` surfaces: all of them, but
at most one in external mode without split materials. -/
def save_count (a : BakeArgs) (k : Nat) : Nat :=
  if is_save_internal a = false ∧ a.is_split_materials = false then min k 1 else k

/-- The slice `(offset, width, height)` of surface `j`. -/
def surface_slice (bi : BakeImages) (j : Nat) : Nat × Nat × Nat :=
  ((bi.data.getD j default).offset, (bi.data.getD j default).width,
    (bi.data.getD j default).height)

/-- Two states that differ at most in the reports and in the `LIB_DOIT` tags. -/
def SameButReports (w w' : World) : Prop :=
  w'.trace = w.trace ∧ w'.ibuf = w.ibuf ∧ w'.restrictflag = w.restrictflag ∧
  w'.object = w.object ∧ w'.is_break = w.is_break ∧ w'.image_name = w.image_name

/-- The image buffer of `im` in `w'` is the one of `w` filled with the clear
colour. -/
def ClearedFrom (env : Env) (t : Bool) (w w' : World) (im : Nat) : Prop :=
  ∃ ib, w.ibuf im = some ib ∧
    w'.ibuf im = some
      { ib with pixels := List.replicate (ib.x * ib.y) (env.clear_color t ib.planes) }

/-- What the setup of `bake` may have done to the state: at most the images
cleared, in internal mode with `is_clear`, and reports added. -/
def SetupWorld (env : Env) (a : BakeArgs) (w w' : World) : Prop :=
  (∃ cl, w'.trace = w.trace ++ cl ∧ ∀ e ∈ cl, e = Event.ibuf_clear (is_tangent a)) ∧
  (¬(is_save_internal a = true ∧ a.is_clear = true) → w'.ibuf = w.ibuf) ∧
  (∀ im, w'.ibuf im = w.ibuf im ∨ ClearedFrom env (is_tangent a) w w' im) ∧
  w'.restrictflag = w.restrictflag ∧ w'.object = w.object

theorem find_image_index_some (data : List BakeImage) (image : Nat) :
    ∀ (k j r : Nat), find_image_index data image k j = some r →
      j ≤ r ∧ r < j + k ∧ (data.getD r default).image = some image := by
  intro k
  induction k with
  | zero => intro j r h; simp [find_image_index] at h
  | succ k ih =>
    intro j r h
    unfold find_image_index at h
    split at h
    · rename_i hj
      injection h with h
      subst h
      exact ⟨le_refl _, by omega, hj⟩
    · obtain ⟨h1, h2, h3⟩ := ih (j + 1) r h
      exact ⟨by omega, by omega, h3⟩

theorem find_image_index_first (data : List BakeImage) (image : Nat) :
    ∀ (k j p : Nat), j ≤ p → p < j + k → (data.getD p default).image = some image →
      ∃ r, find_image_index data image k j = some r ∧ r ≤ p := by
  intro k
  induction k with
  | zero => intro j p h1 h2; omega
  | succ k ih =>
    intro j p h1 h2 h3
    unfold find_image_index
    split
    · exact ⟨j, rfl, h1⟩
    · rename_i hj
      have hne : j ≠ p := by
        intro h
        subst h
        exact hj h3
      exact ih (j + 1) p (by omega) (by omega) h3

theorem build_image_lookup_loop_spec (ob : Object) (slot : Nat → Nat) :
    ∀ (k i : Nat) (seen : List Nat) (bi : BakeImages) (w : World),
      (∀ s, i ≤ s → s < i + k → ob.active_image (s + 1) = some (slot s)) →
      i + k ≤ bi.data.length → i + k ≤ bi.lookup.length →
      LookupInv slot i seen bi w →
      ∃ bi' d,
        build_image_lookup_loop ob k i seen.length bi w
          = (some (((List.range' i k).map slot).foldl add_image seen).length, bi',
              { w with doit := d }) ∧
        LookupInv slot (i + k) (((List.range' i k).map slot).foldl add_image seen) bi'
          { w with doit := d } ∧
        bi'.data.length = bi.data.length ∧ bi'.lookup.length = bi.lookup.length ∧
        bi'.size = bi.size := by
  intro k
  induction k with
  | zero =>
    intro i seen bi w _ _ _ hinv
    exact ⟨bi, w.doit, by simp [build_image_lookup_loop], by simpa using hinv, rfl, rfl, rfl⟩
  | succ k ih =>
    intro i seen bi w hslot hdata hlook hinv
    have hi : ob.active_image (i + 1) = some (slot i) := hslot i (le_refl _) (by omega)
    have hfold : ((List.range' i (k + 1)).map slot).foldl add_image seen
        = ((List.range' (i + 1) k).map slot).foldl add_image (add_image seen (slot i)) := by
      simp [List.range'_succ]
    rw [hfold]
    unfold build_image_lookup_loop
    simp only [hi]
    by_cases htag : w.doit (slot i) = true
    · -- the image is tagged: it is the image of an earlier surface
      have hmem : slot i ∈ seen := (hinv.tagged _).1 htag
      have hadd : add_image seen (slot i) = seen := by simp [add_image, hmem]
      obtain ⟨p, hp, hpe⟩ := List.getElem_of_mem hmem
      have hdp : (bi.data.getD p default).image = some (slot i) := by
        rw [hinv.data_seen p hp, List.getElem?_eq_getElem hp, hpe]
      have hpi : p < 0 + i := by have := hinv.seen_le; omega
      obtain ⟨r, hr, hrp⟩ :=
        find_image_index_first bi.data (slot i) i 0 p (Nat.zero_le _) hpi hdp
      obtain ⟨_, _, hrimg⟩ := find_image_index_some bi.data (slot i) i 0 r hr
      simp only [htag, if_true, hr]
      have hinv' : LookupInv slot (i + 1) seen { bi with lookup := bi.lookup.set i r } w := by
        refine ⟨by have := hinv.seen_le; omega, hinv.tagged, hinv.data_seen, ?_⟩
        intro s hs
        by_cases hsi : s = i
        · subst hsi
          have hlt : s < bi.lookup.length := by omega
          have hget : (bi.lookup.set s r).getD s 0 = r := by
            simp [List.getElem?_set_self hlt]
          simp only [hget]
          exact ⟨by omega, hrimg⟩
        · have hne : i ≠ s := fun h => hsi h.symm
          have hget : (bi.lookup.set i r).getD s 0 = bi.lookup.getD s 0 := by
            simp [List.getElem?_set_ne hne]
          simp only [hget]
          exact hinv.lookup_ok s (by omega)
      obtain ⟨bi', d, h1, h2, h3, h4, h5⟩ :=
        ih (i + 1) seen { bi with lookup := bi.lookup.set i r } w
          (fun s hs1 hs2 => hslot s (by omega) (by omega))
          (by simpa using (by omega : i + 1 + k ≤ bi.data.length))
          (by simpa using (by omega : i + 1 + k ≤ bi.lookup.length)) hinv'
      refine ⟨bi', d, ?_, ?_, ?_, ?_, ?_⟩
      · rw [hadd]; exact h1
      · rw [hadd]; have : i + (k + 1) = i + 1 + k := by omega
        rw [this]; exact h2
      · simpa using h3
      · simpa using h4
      · simpa using h5
    · -- a new image: it becomes surface number `seen.length`
      have htag' : w.doit (slot i) = false := by simpa using htag
      have hnot : slot i ∉ seen := fun h => htag ((hinv.tagged _).2 h)
      have hadd : add_image seen (slot i) = seen ++ [slot i] := by simp [add_image, hnot]
      simp only [htag', Bool.false_eq_true, if_false]
      have hlen : seen.length < bi.data.length := by have := hinv.seen_le; omega
      have hinv' : LookupInv slot (i + 1) (seen ++ [slot i])
          { bi with
            lookup := bi.lookup.set i seen.length
            data := bi.data.set seen.length
              { (bi.data.getD seen.length default) with image := some (slot i) } }
          { w with doit := Function.update w.doit (slot i) true } := by
        refine ⟨by have := hinv.seen_le; simp; omega, ?_, ?_, ?_⟩
        · intro x
          by_cases hx : x = slot i
          · subst hx; simp
          · simp [Function.update_noteq hx, hinv.tagged x, hx]
        · intro p hp
          by_cases hpl : p = seen.length
          · subst hpl
            simp [List.getElem?_set_self hlen]
          · have hp' : p < seen.length := by
              simp at hp; omega
            have hne : seen.length ≠ p := fun h => hpl h.symm
            have := hinv.data_seen p hp'
            simp only [List.getD_eq_getElem?_getD] at this ⊢
            rw [List.getElem?_set_ne hne, this, List.getElem?_append_left hp']
        · intro s hs
          by_cases hsi : s = i
          · subst hsi
            have hlt : s < bi.lookup.length := by omega
            simp [List.getElem?_set_self hlt, List.getElem?_set_self hlen]
          · have hne : i ≠ s := fun h => hsi h.symm
            obtain ⟨h1, h2⟩ := hinv.lookup_ok s (by omega)
            simp only [List.getD_eq_getElem?_getD] at h1 h2 ⊢
            rw [List.getElem?_set_ne hne]
            have hne2 : seen.length ≠ (bi.lookup[s]?).getD 0 := by omega
            rw [List.getElem?_set_ne hne2]
            refine ⟨by simp; omega, h2⟩
      have ih' := ih (i + 1) (seen ++ [slot i]) _ _
          (fun s hs1 hs2 => hslot s (by omega) (by omega))
          (by simpa using (by omega : i + 1 + k ≤ bi.data.length))
          (by simpa using (by omega : i + 1 + k ≤ bi.lookup.length)) hinv'
      obtain ⟨bi', d, h1, h2, h3, h4, h5⟩ := ih'
      refine ⟨bi', d, ?_, ?_, ?_, ?_, ?_⟩
      · rw [hadd]
        have hl : (seen ++ [slot i]).length = seen.length + 1 := by simp
        rw [hl] at h1
        exact h1
      · rw [hadd]; have : i + (k + 1) = i + 1 + k := by omega
        rw [this]; exact h2
      · simpa using h3
      · simpa using h4
      · simpa using h5

theorem foldl_add_image_mem (l : List Nat) :
    ∀ (seen : List Nat) (x : Nat), x ∈ l.foldl add_image seen ↔ x ∈ seen ∨ x ∈ l := by
  induction l with
  | nil => intro seen x; simp
  | cons a l ih =>
    intro seen x
    rw [List.foldl_cons, ih]
    by_cases ha : a ∈ seen
    · simp only [add_image, ha, if_true, List.mem_cons]
      constructor
      · rintro (h | h)
        · exact Or.inl h
        · exact Or.inr (Or.inr h)
      · rintro (h | h | h)
        · exact Or.inl h
        · subst h; exact Or.inl ha
        · exact Or.inr h
    · simp only [add_image, ha, if_false, List.mem_append, List.mem_singleton, List.mem_cons]
      tauto

theorem foldl_add_image_nodup (l : List Nat) :
    ∀ (seen : List Nat), seen.Nodup → (l.foldl add_image seen).Nodup := by
  induction l with
  | nil => intro seen h; simpa using h
  | cons a l ih =>
    intro seen h
    rw [List.foldl_cons]
    apply ih
    by_cases ha : a ∈ seen
    · simpa [add_image, ha] using h
    · simp only [add_image, ha, if_false]
      exact List.Nodup.append h (List.nodup_singleton a) (by simpa using ha)

theorem first_appearance_mem (slots : List Nat) (x : Nat) :
    x ∈ first_appearance slots ↔ x ∈ slots := by
  simp [first_appearance, foldl_add_image_mem]

theorem first_appearance_nodup (slots : List Nat) : (first_appearance slots).Nodup :=
  foldl_add_image_nodup slots [] List.nodup_nil

theorem first_appearance_length (slots : List Nat) :
    (first_appearance slots).length = slots.toFinset.card := by
  rw [← List.toFinset_card_of_nodup (first_appearance_nodup slots)]
  congr 1
  ext x
  simp [first_appearance_mem]

theorem first_appearance_length_le (slots : List Nat) :
    (first_appearance slots).length ≤ slots.length := by
  rw [first_appearance_length]
  exact List.toFinset_card_le slots

/-- What `build_image_lookup` leaves when every slot has an active image:
the shape used by the claims on the resolver. -/
theorem build_image_lookup_all_images (ob : Object) (slots : List Nat) (bi : BakeImages)
    (w : World) (hlen : slots.length = ob.totcol)
    (hslots : ∀ i, i < ob.totcol → ob.active_image (i + 1) = slots[i]?)
    (hdata : ob.totcol ≤ bi.data.length) (hlookup : ob.totcol ≤ bi.lookup.length) :
    ∃ bi' d,
      build_image_lookup ob bi w = (true, bi', { w with doit := d }) ∧
      bi'.size = (first_appearance slots).length ∧
      bi'.data.length = bi.data.length ∧ bi'.lookup.length = bi.lookup.length ∧
      (∀ p, p < bi'.size → (bi'.data.getD p default).image = (first_appearance slots)[p]?) ∧
      (∀ i, i < ob.totcol → bi'.lookup.getD i 0 < bi'.size ∧
        (bi'.data.getD (bi'.lookup.getD i 0) default).image = ob.active_image (i + 1)) := by
  have hslot : ∀ s, 0 ≤ s → s < 0 + ob.totcol →
      ob.active_image (s + 1) = some (slots.getD s 0) := by
    intro s _ hs
    have hs' : s < slots.length := by omega
    rw [hslots s (by omega)]
    simp [List.getElem?_eq_getElem hs']
  have hinv : LookupInv (fun s => slots.getD s 0) 0 [] bi (BKE_main_id_tag_idcode_images w) :=
    ⟨le_refl _, by simp [BKE_main_id_tag_idcode_images], by simp, by simp⟩
  obtain ⟨bi', d, h1, h2, h3, h4, h5⟩ :=
    build_image_lookup_loop_spec ob (fun s => slots.getD s 0) ob.totcol 0 [] bi
      (BKE_main_id_tag_idcode_images w) hslot (by simpa using hdata) (by simpa using hlookup) hinv
  have hmap : (List.range' 0 ob.totcol).map (fun s => slots.getD s 0) = slots := by
    apply List.ext_getElem
    · simp [hlen]
    · intro n h1 h2
      simp [List.getElem?_eq_getElem h2]
  rw [hmap] at h1 h2
  have hfa : List.foldl add_image [] slots = first_appearance slots := rfl
  rw [hfa] at h1 h2
  refine ⟨{ bi' with size := (first_appearance slots).length }, d, ?_, rfl, h3, h4, ?_, ?_⟩
  · unfold build_image_lookup
    simp only [List.length_nil] at h1
    rw [h1]
    rfl
  · intro p hp
    exact h2.data_seen p hp
  · intro i hi
    obtain ⟨h6, h7⟩ := h2.lookup_ok i (by omega)
    refine ⟨h6, ?_⟩
    have hi' : i < slots.length := by omega
    rw [h7, hslots i hi]
    simp [List.getElem?_eq_getElem hi']

/-- **C1.** For an object whose `N` material slots all have an active image
(`slots`), `M` of them distinct, `build_image_lookup` succeeds and leaves
`size = M`, the `M` distinct images in `data[0..M)` in order of first
appearance among the slots, a slot map of unchanged length, and for every
slot `i < N` an index `lookup[i] < M` whose surface holds the image of slot
`i`. -/
theorem build_image_lookup_distinct_images (ob : Object) (slots : List Nat)
    (bi : BakeImages) (w : World) (hlen : slots.length = ob.totcol)
    (hslots : ∀ i, i < ob.totcol → ob.active_image (i + 1) = slots[i]?)
    (hdata : ob.totcol ≤ bi.data.length) (hlookup : ob.totcol ≤ bi.lookup.length) :
    (build_image_lookup ob bi w).1 = true ∧
    (build_image_lookup ob bi w).2.1.size = slots.toFinset.card ∧
    slots.toFinset.card ≤ ob.totcol ∧
    ((build_image_lookup ob bi w).2.1.data.take slots.toFinset.card).map (fun d => d.image)
      = (first_appearance slots).map some ∧
    (first_appearance slots).Nodup ∧
    (∀ x, x ∈ first_appearance slots ↔ x ∈ slots) ∧
    (build_image_lookup ob bi w).2.1.lookup.length = bi.lookup.length ∧
    ∀ i, i < ob.totcol →
      (build_image_lookup ob bi w).2.1.lookup.getD i 0 < slots.toFinset.card ∧
      ((build_image_lookup ob bi w).2.1.data.getD
          ((build_image_lookup ob bi w).2.1.lookup.getD i 0) default).image
        = ob.active_image (i + 1) := by
  obtain ⟨bi', d, h1, h2, h3, h4, h5, h6⟩ :=
    build_image_lookup_all_images ob slots bi w hlen hslots hdata hlookup
  have hM : (first_appearance slots).length = slots.toFinset.card :=
    first_appearance_length slots
  rw [h1]
  simp only
  rw [hM] at h2
  rw [h2] at h5 h6
  refine ⟨trivial, h2, ?_, ?_, first_appearance_nodup slots,
    first_appearance_mem slots, h4, h6⟩
  · rw [← hlen, ← hM]
    exact first_appearance_length_le slots
  · apply List.ext_getElem?
    intro p
    by_cases hp : p < slots.toFinset.card
    · have hpl : p < bi'.data.length := by
        have := first_appearance_length_le slots
        omega
      have := h5 p hp
      simp only [List.getD_eq_getElem?_getD, List.getElem?_eq_getElem hpl,
        Option.getD_some] at this
      simp [List.getElem?_take_of_lt hp, List.getElem?_eq_getElem hpl, this,
        List.getElem?_eq_getElem (hM ▸ hp)]
    · have h7 : (first_appearance slots).length ≤ p := by omega
      simp [List.getElem?_take_eq_none (Nat.le_of_not_lt hp), List.getElem?_eq_none h7]

/-- Two slots on one image give one surface and the slot map `[0, 0]`. -/
theorem build_image_lookup_distinct_images_witness :
    (build_image_lookup (demo_object 2 (fun _ => some 7)) (calloc_bake_images 2 0)
        (demo_world (demo_object 2 (fun _ => some 7)))).2.1.size = 1 ∧
    (build_image_lookup (demo_object 2 (fun _ => some 7)) (calloc_bake_images 2 0)
        (demo_world (demo_object 2 (fun _ => some 7)))).2.1.lookup = [0, 0] ∧
    ((build_image_lookup (demo_object 2 (fun _ => some 7)) (calloc_bake_images 2 0)
        (demo_world (demo_object 2 (fun _ => some 7)))).2.1.data.take 1).map (fun d => d.image)
      = [some 7] := by
  have h := build_image_lookup_distinct_images (demo_object 2 (fun _ => some 7)) [7, 7]
    (calloc_bake_images 2 0) (demo_world (demo_object 2 (fun _ => some 7))) rfl
    (by decide) (by decide) (by decide)
  exact ⟨h.2.1, by decide, h.2.2.2.1⟩

theorem build_image_lookup_loop_missing (ob : Object) (m : Nat)
    (hm : ob.active_image (m + 1) = none) :
    ∀ (k i tot : Nat) (bi : BakeImages) (w : World), i ≤ m → m < i + k →
      (∀ s, i ≤ s → s < m → ob.active_image (s + 1) ≠ none) →
      ∃ bi' d, build_image_lookup_loop ob k i tot bi w
        = (none, bi', BKE_report { w with doit := d } ReportType.RPT_ERROR
            (no_image_report ob m)) := by
  intro k
  induction k with
  | zero => intro i tot bi w h1 h2; omega
  | succ k ih =>
    intro i tot bi w h1 h2 hfirst
    unfold build_image_lookup_loop
    by_cases him : i = m
    · subst him
      simp only [hm]
      exact ⟨bi, w.doit, rfl⟩
    · have hlt : i < m := by omega
      cases hai : ob.active_image (i + 1) with
      | none => exact absurd hai (hfirst i (le_refl _) hlt)
      | some image =>
        simp only
        have hrest : ∀ s, i + 1 ≤ s → s < m → ob.active_image (s + 1) ≠ none :=
          fun s hs1 hs2 => hfirst s (by omega) hs2
        split
        · split
          · exact ih (i + 1) tot _ w (by omega) (by omega) hrest
          · exact ih (i + 1) tot _ w (by omega) (by omega) hrest
        · obtain ⟨bi', d, h⟩ := ih (i + 1) (tot + 1)
            { bi with
              lookup := bi.lookup.set i tot
              data := bi.data.set tot { (bi.data.getD tot default) with image := some image } }
            { w with doit := Function.update w.doit image true }
            (by omega) (by omega) hrest
          exact ⟨bi', d, h⟩

theorem build_image_lookup_loop_all (ob : Object) :
    ∀ (k i tot : Nat) (bi : BakeImages) (w : World),
      (∀ s, i ≤ s → s < i + k → ob.active_image (s + 1) ≠ none) →
      ∃ t bi' d, build_image_lookup_loop ob k i tot bi w = (some t, bi', { w with doit := d }) := by
  intro k
  induction k with
  | zero => intro i tot bi w _; exact ⟨tot, bi, w.doit, rfl⟩
  | succ k ih =>
    intro i tot bi w hall
    unfold build_image_lookup_loop
    cases hai : ob.active_image (i + 1) with
    | none => exact absurd hai (hall i (le_refl _) (by omega))
    | some image =>
      simp only
      have hrest : ∀ s, i + 1 ≤ s → s < i + 1 + k → ob.active_image (s + 1) ≠ none :=
        fun s hs1 hs2 => hall s (by omega) (by omega)
      split
      · split
        · exact ih (i + 1) tot _ w hrest
        · exact ih (i + 1) tot _ w hrest
      · obtain ⟨t, bi', d, h⟩ := ih (i + 1) (tot + 1)
          { bi with
            lookup := bi.lookup.set i tot
            data := bi.data.set tot { (bi.data.getD tot default) with image := some image } }
          { w with doit := Function.update w.doit image true } hrest
        exact ⟨t, bi', d, h⟩

/-- `build_image_lookup` on an object whose first slot without active image is
slot `m`. -/
theorem build_image_lookup_missing (ob : Object) (m : Nat) (bi : BakeImages) (w : World)
    (hm : m < ob.totcol) (hnone : ob.active_image (m + 1) = none)
    (hfirst : ∀ s, s < m → ob.active_image (s + 1) ≠ none) :
    ∃ bi' d, build_image_lookup ob bi w
      = (false, bi', BKE_report { w with doit := d } ReportType.RPT_ERROR
          (no_image_report ob m)) := by
  obtain ⟨bi', d, h⟩ := build_image_lookup_loop_missing ob m hnone ob.totcol 0 0 bi
    (BKE_main_id_tag_idcode_images w) (Nat.zero_le _) (by omega) (fun s _ hs => hfirst s hs)
  refine ⟨bi', d, ?_⟩
  unfold build_image_lookup
  rw [h]
  rfl

/-- `build_image_lookup` returns true when every slot has an active image. -/
theorem build_image_lookup_true (ob : Object) (bi : BakeImages) (w : World)
    (hall : ∀ s, s < ob.totcol → ob.active_image (s + 1) ≠ none) :
    ∃ bi' d, build_image_lookup ob bi w = (true, bi', { w with doit := d }) := by
  obtain ⟨t, bi', d, h⟩ := build_image_lookup_loop_all ob ob.totcol 0 0 bi
    (BKE_main_id_tag_idcode_images w) (fun s _ hs => hall s (by omega))
  refine ⟨{ bi' with size := t }, d, ?_⟩
  unfold build_image_lookup
  rw [h]
  rfl

/-- The run of `bake` on an object whose first slot without active image is
slot `m`, in every save mode. -/
theorem bake_missing_image_exit (env : Env) (a : BakeArgs) (w : World) (m : Nat)
    (hm : m < (w.object a.ob_low).totcol)
    (hnone : (w.object a.ob_low).active_image (m + 1) = none)
    (hfirst : ∀ s, s < m → (w.object a.ob_low).active_image (s + 1) ≠ none) :
    ∃ d, bake env a w = (BakeExit.returned OperatorFlag.OPERATOR_CANCELLED,
      set_restrictflag (BKE_report { w with doit := d } ReportType.RPT_ERROR
        (no_image_report (w.object a.ob_low) m)) a.ob_low (w.restrictflag a.ob_low)) := by
  obtain ⟨bi', d, h⟩ := build_image_lookup_missing (w.object a.ob_low) m
    (calloc_bake_images (w.object a.ob_low).totcol 0) w hm hnone hfirst
  have htot : (w.object a.ob_low).totcol ≠ 0 := by omega
  have hsetup : bake_setup env a w = Except.error
      ({ bake_locals_init a w with bake_images := some bi' },
        BKE_report { w with doit := d } ReportType.RPT_ERROR
          (no_image_report (w.object a.ob_low) m)) := by
    simp only [bake_setup, bake_check_materials, bake_locals_init, htot, if_false,
      bake_resolve_images, h]
  refine ⟨d, ?_⟩
  simp only [bake, hsetup, bake_cleanup, bake_locals_init]
  rfl

/-- **C2.** If some material slot of the target object has no active image,
slot `m` being the first one, then `build_image_lookup` reports the error for
slot `m` and returns false, and `bake` (in every save mode, so in internal
mode and in split external mode) returns `OPERATOR_CANCELLED` with that one
report and without any call of the evaluator or of a writer; conversely
`build_image_lookup` returns true when every slot has an active image. -/
theorem bake_missing_image_cancels (env : Env) (a : BakeArgs) (w : World) (m : Nat)
    (hm : m < (w.object a.ob_low).totcol)
    (hnone : (w.object a.ob_low).active_image (m + 1) = none)
    (hfirst : ∀ s, s < m → (w.object a.ob_low).active_image (s + 1) ≠ none) :
    (∀ bi, (build_image_lookup (w.object a.ob_low) bi w).1 = false ∧
      (build_image_lookup (w.object a.ob_low) bi w).2.2.reports
        = w.reports ++ [⟨ReportType.RPT_ERROR, no_image_report (w.object a.ob_low) m⟩]) ∧
    (bake env a w).1 = BakeExit.returned OperatorFlag.OPERATOR_CANCELLED ∧
    (bake env a w).2.trace = w.trace ∧
    (bake env a w).2.reports
      = w.reports ++ [⟨ReportType.RPT_ERROR, no_image_report (w.object a.ob_low) m⟩] ∧
    (∀ (ob : Object) (bi : BakeImages) (w' : World),
      (∀ s, s < ob.totcol → ob.active_image (s + 1) ≠ none) →
      (build_image_lookup ob bi w').1 = true) := by
  obtain ⟨d, hbake⟩ := bake_missing_image_exit env a w m hm hnone hfirst
  refine ⟨?_, ?_, ?_, ?_, ?_⟩
  · intro bi
    obtain ⟨bi2, d2, h2⟩ :=
      build_image_lookup_missing (w.object a.ob_low) m bi w hm hnone hfirst
    rw [h2]
    exact ⟨rfl, rfl⟩
  · rw [hbake]
  · rw [hbake]; rfl
  · rw [hbake]; rfl
  · intro ob bi w' hall
    obtain ⟨bi2, d2, h2⟩ := build_image_lookup_true ob bi w' hall
    rw [h2]

/-- A bake to internal images of an object whose second slot has no image. -/
theorem bake_missing_image_cancels_witness :
    (bake (demo_env (fun _ => true) (fun _ => false))
        (demo_args BakeSaveMode.R_BAKE_SAVE_INTERNAL false false [])
        (demo_world (demo_object 2 (fun s => if s = 1 then some 7 else none)))).1
      = BakeExit.returned OperatorFlag.OPERATOR_CANCELLED ∧
    (bake (demo_env (fun _ => true) (fun _ => false))
        (demo_args BakeSaveMode.R_BAKE_SAVE_INTERNAL false false [])
        (demo_world (demo_object 2 (fun s => if s = 1 then some 7 else none)))).2.trace = [] ∧
    (bake (demo_env (fun _ => true) (fun _ => false))
        (demo_args BakeSaveMode.R_BAKE_SAVE_INTERNAL false false [])
        (demo_world (demo_object 2 (fun s => if s = 1 then some 7 else none)))).2.reports
      = [⟨ReportType.RPT_ERROR, ReportMsg.no_active_image_in_material_named 1 "Mat"⟩] := by
  have h := bake_missing_image_cancels (demo_env (fun _ => true) (fun _ => false))
    (demo_args BakeSaveMode.R_BAKE_SAVE_INTERNAL false false [])
    (demo_world (demo_object 2 (fun s => if s = 1 then some 7 else none))) 1
    (by decide) (by decide) (by decide)
  exact ⟨h.2.1, h.2.2.1, h.2.2.2.1⟩

theorem surface_area_set (w : World) (data : List BakeImage) (i j : Nat) (d : BakeImage)
    (hd : d.image = (data.getD i default).image) :
    surface_area w (data.set i d) j = surface_area w data j := by
  unfold surface_area
  by_cases hij : i = j
  · subst hij
    by_cases hi : i < data.length
    · simp [List.getElem?_set_self hi, List.getElem?_eq_getElem hi] at hd ⊢
      rw [hd]
    · have : data.set i d = data := by
        apply List.ext_getElem?
        intro n
        rw [List.getElem?_set]
        split
        · rename_i h; subst h
          simp [List.getElem?_eq_none (Nat.le_of_not_lt hi), Nat.le_of_not_lt hi]
        · rfl
      rw [this]
  · simp [List.getElem?_set_ne hij]

theorem area_before_succ (w : World) (data : List BakeImage) (j : Nat) :
    area_before w data (j + 1) = area_before w data j + surface_area w data j := by
  simp [area_before, List.range_succ]

theorem area_before_mono (w : World) (data : List BakeImage) (j : Nat) :
    ∀ j', j ≤ j' → area_before w data j ≤ area_before w data j' := by
  intro j' h
  induction j' with
  | zero =>
    have : j = 0 := by omega
    subst this; exact le_refl _
  | succ n ih =>
    by_cases hj : j = n + 1
    · subst hj; exact le_refl _
    · have := ih (by omega)
      rw [area_before_succ]
      omega

theorem int_of_eq (n : Nat) (h : n ≤ INT_MAX) : int_of n = n := by
  unfold int_of
  apply Nat.mod_eq_of_lt
  unfold INT_MAX at h
  omega

/-- The loop of `initialize_internal_images` over surfaces that all have an
image buffer: each takes the dimensions of its buffer; while the texel count
fits an `int`, the offsets are the running sums and the count is returned. -/
theorem initialize_internal_images_loop_ok :
    ∀ (k i tot : Nat) (bi : BakeImages) (w : World),
      (∀ j, i ≤ j → j < i + k →
        ∃ ib, BKE_image_acquire_ibuf w (bi.data.getD j default).image = some ib) →
      i + k ≤ bi.data.length →
      (initialize_internal_images_loop k i tot bi w).2.2 = w ∧
      (initialize_internal_images_loop k i tot bi w).2.1.size = bi.size ∧
      (initialize_internal_images_loop k i tot bi w).2.1.lookup = bi.lookup ∧
      (initialize_internal_images_loop k i tot bi w).2.1.data.length = bi.data.length ∧
      (∀ j, j < i ∨ i + k ≤ j →
        (initialize_internal_images_loop k i tot bi w).2.1.data.getD j default
          = bi.data.getD j default) ∧
      (∀ j, i ≤ j → j < i + k →
        ∃ ib, BKE_image_acquire_ibuf w (bi.data.getD j default).image = some ib ∧
          ((initialize_internal_images_loop k i tot bi w).2.1.data.getD j default).image
            = (bi.data.getD j default).image ∧
          ((initialize_internal_images_loop k i tot bi w).2.1.data.getD j default).width
            = ib.x ∧
          ((initialize_internal_images_loop k i tot bi w).2.1.data.getD j default).height
            = ib.y) ∧
      (tot + ((List.range' i k).map (surface_area w bi.data)).sum ≤ INT_MAX →
        (initialize_internal_images_loop k i tot bi w).1
          = tot + ((List.range' i k).map (surface_area w bi.data)).sum ∧
        ∀ j, i ≤ j → j < i + k →
          ((initialize_internal_images_loop k i tot bi w).2.1.data.getD j default).offset
            = tot + ((List.range' i (j - i)).map (surface_area w bi.data)).sum) := by
  intro k
  induction k with
  | zero =>
    intro i tot bi w _ _
    refine ⟨rfl, rfl, rfl, rfl, fun j _ => rfl, ?_, ?_⟩
    · intro j h1 h2
      omega
    · intro _
      refine ⟨by simp [initialize_internal_images_loop], ?_⟩
      intro j h1 h2
      omega
  | succ k ih =>
    intro i tot bi w hall hlen
    obtain ⟨ib, hib⟩ := hall i (le_refl _) (by omega)
    have hi : i < bi.data.length := by omega
    have harea : surface_area w bi.data i = ib.x * ib.y := by
      simp only [surface_area, hib]
    have hstep : initialize_internal_images_loop (k + 1) i tot bi w
        = initialize_internal_images_loop k (i + 1) (int_of (tot + int_of (ib.x * ib.y)))
            { bi with
              data := bi.data.set i
                { (bi.data.getD i default) with
                  width := ib.x, height := ib.y, offset := tot } } w := by
      conv_lhs => unfold initialize_internal_images_loop
      simp only [hib]
    have hsa : surface_area w (bi.data.set i
        { (bi.data.getD i default) with width := ib.x, height := ib.y, offset := tot })
        = surface_area w bi.data := funext (fun j => surface_area_set w bi.data i j _ rfl)
    have hget : ∀ j, j ≠ i → (bi.data.set i
        { (bi.data.getD i default) with width := ib.x, height := ib.y, offset := tot }).getD
          j default = bi.data.getD j default := by
      intro j hj
      simp [List.getElem?_set_ne (Ne.symm hj)]
    have hgeti : (bi.data.set i
        { (bi.data.getD i default) with width := ib.x, height := ib.y, offset := tot }).getD
          i default
        = { (bi.data.getD i default) with width := ib.x, height := ib.y, offset := tot } := by
      simp [List.getElem?_set_self hi]
    obtain ⟨h1, h3, h4, h5, h6, h7, h8⟩ := ih (i + 1) (int_of (tot + int_of (ib.x * ib.y)))
      { bi with
        data := bi.data.set i
          { (bi.data.getD i default) with width := ib.x, height := ib.y, offset := tot } } w
      (by
        intro j hj1 hj2
        have := hall j (by omega) (by omega)
        simp only [hget j (by omega)]
        exact this)
      (by simp; omega)
    rw [hstep]
    refine ⟨h1, h3, h4, by simpa using h5, ?_, ?_, ?_⟩
    · intro j hj
      rw [h6 j (by omega)]
      exact hget j (by omega)
    · intro j hj1 hj2
      by_cases hji : j = i
      · subst hji
        refine ⟨ib, hib, ?_⟩
        rw [h6 j (by omega), hgeti]
        exact ⟨rfl, rfl, rfl⟩
      · obtain ⟨ib', hib', hd⟩ := h7 j (by omega) (by omega)
        simp only [hget j hji] at hib' hd
        exact ⟨ib', hib', hd⟩
    · intro hfit
      have hsum : ((List.range' i (k + 1)).map (surface_area w bi.data)).sum
          = ib.x * ib.y + ((List.range' (i + 1) k).map (surface_area w bi.data)).sum := by
        simp only [List.range'_succ, List.map_cons, List.sum_cons, harea]
      rw [hsum] at hfit
      have htot : int_of (tot + int_of (ib.x * ib.y)) = tot + ib.x * ib.y := by
        rw [int_of_eq (ib.x * ib.y) (by omega), int_of_eq _ (by omega)]
      rw [htot, hsa] at h8
      rw [htot] at h6 ⊢
      obtain ⟨h2, h9⟩ := h8 (by omega)
      refine ⟨?_, ?_⟩
      · rw [h2, hsum]
        omega
      · intro j hj1 hj2
        by_cases hji : j = i
        · subst hji
          rw [h6 j (by omega), hgeti]
          simp
        · rw [h9 j (by omega) (by omega)]
          have hsplit : j - i = (j - (i + 1)) + 1 := by omega
          simp only [hsplit, List.range'_succ, List.map_cons, List.sum_cons, harea]
          omega

theorem initialize_internal_images_loop_image :
    ∀ (k i tot : Nat) (bi : BakeImages) (w : World) (j : Nat),
      ((initialize_internal_images_loop k i tot bi w).2.1.data.getD j default).image
        = (bi.data.getD j default).image := by
  intro k
  induction k with
  | zero => intro i tot bi w j; rfl
  | succ k ih =>
    intro i tot bi w j
    unfold initialize_internal_images_loop
    simp only
    split
    · rw [ih]
      simp only [List.getD_eq_getElem?_getD]
      rw [List.getElem?_set]
      split
      · rename_i hij
        subst hij
        split
        · rename_i hi
          simp [List.getElem?_eq_getElem hi]
        · rename_i hi
          simp [List.getElem?_eq_none (Nat.le_of_not_lt hi)]
      · rfl
    · rfl

theorem initialize_internal_images_loop_none :
    ∀ (k i tot : Nat) (bi : BakeImages) (w : World) (j : Nat), i ≤ j → j < i + k →
      BKE_image_acquire_ibuf w (bi.data.getD j default).image = none →
      (initialize_internal_images_loop k i tot bi w).1 = 0 ∧
      ∃ name, (initialize_internal_images_loop k i tot bi w).2.2
        = BKE_report w ReportType.RPT_ERROR (ReportMsg.not_initialized_image name) := by
  intro k
  induction k with
  | zero => intro i tot bi w j h1 h2; omega
  | succ k ih =>
    intro i tot bi w j h1 h2 hnone
    unfold initialize_internal_images_loop
    simp only
    split
    · rename_i ib hib
      have hji : j ≠ i := by
        intro h
        subst h
        rw [hnone] at hib
        exact absurd hib (by simp)
      apply ih (i + 1) _ _ w j (by omega) (by omega)
      have : (bi.data.set i { (bi.data.getD i default) with
          width := ib.x, height := ib.y, offset := tot }).getD j default
          = bi.data.getD j default := by
        simp [List.getElem?_set_ne (Ne.symm hji)]
      simp only [this]
      exact hnone
    · exact ⟨rfl, _, rfl⟩

/-- What `initialize_internal_images` leaves when every surface has an image
buffer and the texel count fits an `int`, in terms of the buffers at entry. -/
theorem initialize_internal_images_ok (bi : BakeImages) (w : World)
    (hsize : bi.size ≤ bi.data.length)
    (hall : ∀ j, j < bi.size →
      ∃ ib, BKE_image_acquire_ibuf w (bi.data.getD j default).image = some ib)
    (hfit : area_before w bi.data bi.size ≤ INT_MAX) :
    (initialize_internal_images bi w).2.2 = w ∧
    (initialize_internal_images bi w).1 = area_before w bi.data bi.size ∧
    (initialize_internal_images bi w).2.1.size = bi.size ∧
    (∀ j, j < bi.size →
      ∃ ib, BKE_image_acquire_ibuf w (bi.data.getD j default).image = some ib ∧
        (initialize_internal_images bi w).2.1.data.getD j default
          = { image := (bi.data.getD j default).image, width := ib.x, height := ib.y,
              offset := area_before w bi.data j }) := by
  obtain ⟨h1, h3, _, _, _, h7, h8⟩ := initialize_internal_images_loop_ok bi.size 0 0 bi w
    (fun j _ hj => hall j (by omega)) (by omega)
  have hfit' : 0 + ((List.range' 0 bi.size).map (surface_area w bi.data)).sum ≤ INT_MAX := by
    rw [Nat.zero_add, ← List.range_eq_range']
    exact hfit
  obtain ⟨h2, h9⟩ := h8 hfit'
  refine ⟨h1, ?_, h3, ?_⟩
  · unfold initialize_internal_images
    rw [h2, area_before, List.range_eq_range']
    simp
  · intro j hj
    obtain ⟨ib, hib, e1, e2, e3⟩ := h7 j (Nat.zero_le _) (by omega)
    have e4 := h9 j (Nat.zero_le _) (by omega)
    refine ⟨ib, hib, ?_⟩
    unfold initialize_internal_images
    have hoff : area_before w bi.data j
        = 0 + ((List.range' 0 (j - 0)).map (surface_area w bi.data)).sum := by
      rw [area_before, List.range_eq_range']
      simp
    rw [hoff, ← e4, ← e1, ← e2, ← e3]

/-- **C4.** When every resolved image has an image buffer,
`initialize_internal_images` sets the width and height of each surface to the
dimensions of its buffer and its offset to the sum of `width * height` over the
earlier surfaces, and returns the sum over all surfaces; so the slices
`[offset, offset + width * height)` start at 0, are contiguous, pairwise
disjoint and inside `[0, returned total)`; this for buffers whose texel counts
add up to at most `INT_MAX`, the range in which the `int` sums of the function
do not overflow.  If some image has no buffer it returns 0, and `bake` in
internal mode returns `OPERATOR_CANCELLED` without a call of the evaluator or
of a writer. -/
theorem initialize_internal_images_slices (env : Env) (a : BakeArgs) (bi : BakeImages)
    (w : World) :
    (bi.size ≤ bi.data.length →
      (∀ j, j < bi.size →
        ∃ ib, BKE_image_acquire_ibuf w (bi.data.getD j default).image = some ib) →
      area_before w bi.data bi.size ≤ INT_MAX →
      (∀ j, j < bi.size →
        ∃ ib, BKE_image_acquire_ibuf w (bi.data.getD j default).image = some ib ∧
          ((initialize_internal_images bi w).2.1.data.getD j default).width = ib.x ∧
          ((initialize_internal_images bi w).2.1.data.getD j default).height = ib.y ∧
          ((initialize_internal_images bi w).2.1.data.getD j default).image
            = (bi.data.getD j default).image ∧
          ((initialize_internal_images bi w).2.1.data.getD j default).offset
            = ((List.range j).map (fun p =>
                ((initialize_internal_images bi w).2.1.data.getD p default).width *
                ((initialize_internal_images bi w).2.1.data.getD p default).height)).sum) ∧
      (initialize_internal_images bi w).1
        = ((List.range bi.size).map (fun p =>
            ((initialize_internal_images bi w).2.1.data.getD p default).width *
            ((initialize_internal_images bi w).2.1.data.getD p default).height)).sum ∧
      (∀ j, j + 1 < bi.size →
        ((initialize_internal_images bi w).2.1.data.getD j default).offset +
          ((initialize_internal_images bi w).2.1.data.getD j default).width *
          ((initialize_internal_images bi w).2.1.data.getD j default).height
        = ((initialize_internal_images bi w).2.1.data.getD (j + 1) default).offset) ∧
      (∀ j j', j < j' → j' < bi.size →
        ((initialize_internal_images bi w).2.1.data.getD j default).offset +
          ((initialize_internal_images bi w).2.1.data.getD j default).width *
          ((initialize_internal_images bi w).2.1.data.getD j default).height
        ≤ ((initialize_internal_images bi w).2.1.data.getD j' default).offset) ∧
      (∀ j, j < bi.size →
        ((initialize_internal_images bi w).2.1.data.getD j default).offset +
          ((initialize_internal_images bi w).2.1.data.getD j default).width *
          ((initialize_internal_images bi w).2.1.data.getD j default).height
        ≤ (initialize_internal_images bi w).1)) ∧
    ((∃ j, j < bi.size ∧ BKE_image_acquire_ibuf w (bi.data.getD j default).image = none) →
      (initialize_internal_images bi w).1 = 0) ∧
    (a.save_mode = BakeSaveMode.R_BAKE_SAVE_INTERNAL →
      (∀ s, s < (w.object a.ob_low).totcol →
        (w.object a.ob_low).active_image (s + 1) ≠ none) →
      (∃ s im, s < (w.object a.ob_low).totcol ∧
        (w.object a.ob_low).active_image (s + 1) = some im ∧ w.ibuf im = none) →
      (bake env a w).1 = BakeExit.returned OperatorFlag.OPERATOR_CANCELLED ∧
      (bake env a w).2.trace = w.trace) := by
  refine ⟨?_, ?_, ?_⟩
  · intro hsize hall hfit
    obtain ⟨_, h2, _, h4⟩ := initialize_internal_images_ok bi w hsize hall hfit
    -- the area of a surface, read from the result
    have harea : ∀ p, p < bi.size →
        ((initialize_internal_images bi w).2.1.data.getD p default).width *
          ((initialize_internal_images bi w).2.1.data.getD p default).height
        = surface_area w bi.data p := by
      intro p hp
      obtain ⟨ib, hib, hd⟩ := h4 p hp
      rw [hd]
      simp only [surface_area, hib]
    have hoff : ∀ p, p < bi.size →
        ((initialize_internal_images bi w).2.1.data.getD p default).offset
          = area_before w bi.data p := by
      intro p hp
      obtain ⟨ib, hib, hd⟩ := h4 p hp
      rw [hd]
    have hsum : ∀ j, j ≤ bi.size →
        ((List.range j).map (fun p =>
          ((initialize_internal_images bi w).2.1.data.getD p default).width *
          ((initialize_internal_images bi w).2.1.data.getD p default).height)).sum
        = area_before w bi.data j := by
      intro j hj
      unfold area_before
      congr 1
      apply List.map_congr_left
      intro p hp
      exact harea p (by have := List.mem_range.1 hp; omega)
    refine ⟨?_, ?_, ?_, ?_, ?_⟩
    · intro j hj
      obtain ⟨ib, hib, hd⟩ := h4 j hj
      refine ⟨ib, hib, by rw [hd], by rw [hd], by rw [hd], ?_⟩
      rw [hsum j (by omega), hoff j hj]
    · rw [hsum bi.size (le_refl _), h2]
    · intro j hj
      rw [hoff j (by omega), hoff (j + 1) hj, harea j (by omega), area_before_succ]
    · intro j j' hjj hj'
      rw [hoff j (by omega), hoff j' hj', harea j (by omega), ← area_before_succ]
      exact area_before_mono w bi.data (j + 1) j' (by omega)
    · intro j hj
      rw [hoff j hj, harea j hj, ← area_before_succ, h2]
      exact area_before_mono w bi.data (j + 1) bi.size (by omega)
  · rintro ⟨j, hj, hnone⟩
    exact (initialize_internal_images_loop_none bi.size 0 0 bi w j (Nat.zero_le _)
      (by omega) hnone).1
  · intro hmode hall ⟨s, im, hs, him, hibuf⟩
    have htot : (w.object a.ob_low).totcol ≠ 0 := by omega
    -- the slot list of the object
    have hslots : ∀ i, i < (w.object a.ob_low).totcol →
        (w.object a.ob_low).active_image (i + 1)
          = ((List.range (w.object a.ob_low).totcol).map
              (fun i => ((w.object a.ob_low).active_image (i + 1)).getD 0))[i]? := by
      intro i hi
      have := hall i hi
      cases h : (w.object a.ob_low).active_image (i + 1) with
      | none => exact absurd h this
      | some x => simp [hi, h]
    obtain ⟨bi', d, h1, _, _, _, _, h6⟩ := build_image_lookup_all_images (w.object a.ob_low)
      ((List.range (w.object a.ob_low).totcol).map
        (fun i => ((w.object a.ob_low).active_image (i + 1)).getD 0))
      (calloc_bake_images (w.object a.ob_low).totcol 0) w (by simp) hslots
      (by simp [calloc_bake_images]) (by simp [calloc_bake_images])
    obtain ⟨h7, h8⟩ := h6 s hs
    have hnone : BKE_image_acquire_ibuf { w with doit := d }
        (bi'.data.getD (bi'.lookup.getD s 0) default).image = none := by
      rw [h8, him]
      exact hibuf
    obtain ⟨h9, name, h10⟩ := initialize_internal_images_loop_none bi'.size 0 0 bi'
      { w with doit := d } (bi'.lookup.getD s 0) (Nat.zero_le _) (by omega) hnone
    have hint : is_save_internal a = true := by simp [is_save_internal, hmode]
    have hsetup : bake_setup env a w = Except.error
        ({ bake_locals_init a w with
            bake_images := some (initialize_internal_images bi' { w with doit := d }).2.1
            num_pixels := 0 },
          BKE_report { w with doit := d } ReportType.RPT_ERROR
            (ReportMsg.not_initialized_image name)) := by
      simp only [bake_setup, bake_check_materials, bake_locals_init, htot, if_false,
        bake_resolve_images, h1, hint, if_true]
      unfold initialize_internal_images
      simp only [h9, if_true, h10]
    simp only [bake, hsetup, bake_cleanup, bake_locals_init]
    exact ⟨rfl, rfl⟩

theorem RE_bake_mask_fill_getD (pixel_array : List BakePixel) (n p : Nat) :
    (RE_bake_mask_fill pixel_array n).getD p false
      = (decide (p < n) && (pixel_array.getD p default).valid) := by
  unfold RE_bake_mask_fill
  by_cases hp : p < n
  · simp [hp]
  · have : (List.range n)[p]? = none := List.getElem?_eq_none (by simp; omega)
    simp [hp, this]

theorem buffer_from_float_mask_getD (store : Nat → Texel → Texel) (ib : ImBuf)
    (buffer : List Texel) (mask : List Bool) (p : Nat) (hp : p < ib.x * ib.y) :
    (buffer_from_float_mask store ib buffer mask).getD p 0
      = if mask.getD p false then store p (buffer.getD p 0) else ib.pixels.getD p 0 := by
  unfold buffer_from_float_mask
  simp [hp]

theorem buffer_from_float_getD (store : Nat → Texel → Texel) (ib : ImBuf)
    (buffer : List Texel) (p : Nat) (hp : p < ib.x * ib.y) :
    (buffer_from_float store ib buffer).getD p 0 = store p (buffer.getD p 0) := by
  unfold buffer_from_float
  simp [hp]

/-- The pixel conversion the populate step of the writers uses for an image
buffer. -/
theorem internal_populate_masked (env : Env) (ib : ImBuf) (buffer : List Texel)
    (pixel_array : List BakePixel) (n p : Nat) (hp : p < ib.x * ib.y) :
    (internal_populate env ib buffer (RE_bake_mask_fill pixel_array n) false).pixels.getD p 0
      = if p < n ∧ (pixel_array.getD p default).valid = true then
          (if ib.is_float then env.float_from_float ib p (buffer.getD p 0)
           else env.byte_from_float ib p (buffer.getD p 0))
        else ib.pixels.getD p 0 := by
  unfold internal_populate
  by_cases hf : ib.is_float = true
  · simp only [hf, if_true, Bool.false_eq_true, if_false]
    rw [buffer_from_float_mask_getD _ _ _ _ _ hp, RE_bake_mask_fill_getD]
    by_cases h1 : p < n <;> by_cases h2 : (pixel_array.getD p default).valid = true <;>
      simp [h1, h2]
  · simp only [hf, if_false, Bool.false_eq_true]
    rw [buffer_from_float_mask_getD _ _ _ _ _ hp, RE_bake_mask_fill_getD]
    by_cases h1 : p < n <;> by_cases h2 : (pixel_array.getD p default).valid = true <;>
      simp [h1, h2]

theorem internal_populate_clear (env : Env) (ib : ImBuf) (buffer : List Texel)
    (mask : List Bool) (p : Nat) (hp : p < ib.x * ib.y) :
    (internal_populate env ib buffer mask true).pixels.getD p 0
      = if ib.is_float then env.float_from_float ib p (buffer.getD p 0)
        else env.byte_from_float ib p (buffer.getD p 0) := by
  unfold internal_populate
  by_cases hf : ib.is_float = true
  · simp only [hf, if_true]
    exact buffer_from_float_getD _ _ _ _ hp
  · simp only [hf, if_false, if_true]
    exact buffer_from_float_getD _ _ _ _ hp

/-- **C9 (as amended).** For every texel whose locator is invalid, the populate
step of `write_internal_bake_pixels` called with `is_clear = false` leaves the
pixel of the image as it was: it is a masked merge that stores the converted
result exactly where the coverage mask built from the locator array is set;
the whole call leaves that pixel as it was when `margin = 0`.  With
`is_clear = true` the populate step stores the converted result in every
pixel of the image. -/
theorem write_internal_bake_pixels_masked (env : Env) (ib : ImBuf) (buffer : List Texel)
    (pixel_array : List BakePixel) (width height : Nat) :
    (∀ p, p < ib.x * ib.y → (pixel_array.getD p default).valid = false →
      (internal_populate env ib buffer (RE_bake_mask_fill pixel_array (width * height))
          false).pixels.getD p 0 = ib.pixels.getD p 0) ∧
    (∀ p, p < ib.x * ib.y → p < width * height →
      (pixel_array.getD p default).valid = true →
      (internal_populate env ib buffer (RE_bake_mask_fill pixel_array (width * height))
          false).pixels.getD p 0
        = if ib.is_float then env.float_from_float ib p (buffer.getD p 0)
          else env.byte_from_float ib p (buffer.getD p 0)) ∧
    (∀ (w : World) (im : Nat) (is_noncolor : Bool) (p : Nat), w.ibuf im = some ib →
      p < ib.x * ib.y → (pixel_array.getD p default).valid = false →
      ∃ ib', (write_internal_bake_pixels env (some im) pixel_array buffer width height 0
                false is_noncolor w).2.2.ibuf im = some ib' ∧
        ib'.pixels.getD p 0 = ib.pixels.getD p 0) ∧
    (∀ (mask : List Bool) (p : Nat), p < ib.x * ib.y →
      (internal_populate env ib buffer mask true).pixels.getD p 0
        = if ib.is_float then env.float_from_float ib p (buffer.getD p 0)
          else env.byte_from_float ib p (buffer.getD p 0)) := by
  refine ⟨?_, ?_, ?_, ?_⟩
  · intro p hp hv
    rw [internal_populate_masked env ib buffer pixel_array _ p hp]
    rw [if_neg (by rw [hv]; simp)]
  · intro p hp hn hv
    rw [internal_populate_masked env ib buffer pixel_array _ p hp]
    rw [if_pos ⟨hn, hv⟩]
  · intro w im is_noncolor p hib hp hv
    have hx : (internal_colormanagement env ib buffer is_noncolor w).2.ibuf = w.ibuf := by
      unfold internal_colormanagement
      simp only
      split_ifs <;> rfl
    refine ⟨{ (internal_populate env ib (internal_colormanagement env ib buffer is_noncolor w).1
        (RE_bake_mask_fill pixel_array (width * height)) false) with bitmapdirty := true }, ?_, ?_⟩
    · simp [write_internal_bake_pixels, BKE_image_acquire_ibuf, hib, set_ibuf]
    · simp only
      rw [internal_populate_masked env ib _ pixel_array _ p hp]
      rw [if_neg (by rw [hv]; simp)]
  · intro mask p hp
    exact internal_populate_clear env ib buffer mask p hp

/-- **C9 (counterexample).** A call with `is_clear = false` and `margin = 1` on
an image of 2 by 1 pixels `[5, 6]` whose second texel has an invalid locator:
the populate step leaves the second pixel, the margin that follows overwrites
it with the colour of the first. -/
theorem write_internal_bake_pixels_masked_counterexample :
    ((write_internal_bake_pixels (demo_env (fun _ => true) (fun _ => false)) (some 7)
        [{ valid := true, locator := 0 }, { valid := false, locator := 0 }] [9, 8] 2 1 1
        false true (demo_world (demo_object 1 (fun _ => some 7)))).2.2.ibuf 7).map
          (fun ib => ib.pixels) = some [9, 9] ∧
    ((demo_world (demo_object 1 (fun _ => some 7))).ibuf 7).map (fun ib => ib.pixels)
      = some [5, 6] ∧
    ((write_internal_bake_pixels (demo_env (fun _ => true) (fun _ => false)) (some 7)
        [{ valid := true, locator := 0 }, { valid := false, locator := 0 }] [9, 8] 2 1 0
        false true (demo_world (demo_object 1 (fun _ => some 7)))).2.2.ibuf 7).map
          (fun ib => ib.pixels) = some [9, 6] := by
  decide

/-! ### The evaluation stage of `bake` -/

theorem SameButTrace_refl (w : World) : SameButTrace w w :=
  ⟨rfl, rfl, rfl, rfl, rfl, rfl⟩

theorem SameButTrace_trans {w1 w2 w3 : World} (h1 : SameButTrace w1 w2)
    (h2 : SameButTrace w2 w3) : SameButTrace w1 w3 :=
  ⟨h2.1.trans h1.1, h2.2.1.trans h1.2.1, h2.2.2.1.trans h1.2.2.1,
    h2.2.2.2.1.trans h1.2.2.2.1, h2.2.2.2.2.1.trans h1.2.2.2.2.1,
    h2.2.2.2.2.2.trans h1.2.2.2.2.2⟩

theorem SameButTrace_emit (env : Env) (w : World) (e : Event) : SameButTrace w (emit env w e) :=
  ⟨rfl, rfl, rfl, rfl, rfl, rfl⟩

theorem bake_evaluate_spec (env : Env) (a : BakeArgs) (ob : Nat) (pixel_array : List BakePixel)
    (n : Nat) (result : List Texel) (w : World) :
    (bake_evaluate env a ob pixel_array n result w).2.2
      = emit env w (Event.evaluate env.RE_bake_has_engine ob n (env.RE_pass_depth a.pass_type)
          (bake_evaluate env a ob pixel_array n result w).1) := rfl

/-- The calls of the loop over the high-poly objects: evaluator calls only,
all but the last successful, the last one returning the `ok` of the loop. -/
theorem bake_highpoly_loop_spec (env : Env) (a : BakeArgs) (n : Nat) :
    ∀ (hp : List BakeHighPolyData) (ok0 : Bool) (result : List Texel) (w : World),
      ∃ evs, (bake_highpoly_loop env a n hp ok0 result w).2.2.trace = w.trace ++ evs ∧
        SameButTrace w (bake_highpoly_loop env a n hp ok0 result w).2.2 ∧
        (∀ e ∈ evs, e.is_evaluate = true) ∧
        ((evs = [] ∧ hp = [] ∧ (bake_highpoly_loop env a n hp ok0 result w).1 = ok0) ∨
          ∃ init eng ob np d,
            evs = init ++ [Event.evaluate eng ob np d
              (bake_highpoly_loop env a n hp ok0 result w).1] ∧
            ∀ e ∈ init, e.evaluate_failed = false) := by
  intro hp
  induction hp with
  | nil =>
    intro ok0 result w
    exact ⟨[], by simp [bake_highpoly_loop], SameButTrace_refl w, by simp,
      Or.inl ⟨rfl, rfl, rfl⟩⟩
  | cons h rest ih =>
    intro ok0 result w
    have hw := bake_evaluate_spec env a h.ob h.pixel_array n result w
    cases hok : (bake_evaluate env a h.ob h.pixel_array n result w).1 with
    | false =>
      have hloop : bake_highpoly_loop env a n (h :: rest) ok0 result w
          = (false, (bake_evaluate env a h.ob h.pixel_array n result w).2.1,
              (bake_evaluate env a h.ob h.pixel_array n result w).2.2) := by
        conv_lhs => unfold bake_highpoly_loop
        simp only [hok]
        rfl
      rw [hloop]
      simp only
      rw [hw, hok]
      exact ⟨[Event.evaluate env.RE_bake_has_engine h.ob n (env.RE_pass_depth a.pass_type) false],
        rfl, SameButTrace_emit env w _, by simp [Event.is_evaluate],
        Or.inr ⟨[], _, _, _, _, rfl, by simp⟩⟩
    | true =>
      have hloop : bake_highpoly_loop env a n (h :: rest) ok0 result w
          = bake_highpoly_loop env a n rest true
              (bake_evaluate env a h.ob h.pixel_array n result w).2.1
              (bake_evaluate env a h.ob h.pixel_array n result w).2.2 := by
        conv_lhs => unfold bake_highpoly_loop
        simp only [hok]
        rfl
      have htr : (bake_evaluate env a h.ob h.pixel_array n result w).2.2.trace
          = w.trace ++ [Event.evaluate env.RE_bake_has_engine h.ob n
              (env.RE_pass_depth a.pass_type) true] := by
        rw [hw, hok]; rfl
      have hsame : SameButTrace w (bake_evaluate env a h.ob h.pixel_array n result w).2.2 := by
        rw [hw]; exact SameButTrace_emit env w _
      obtain ⟨evs, h1, h2, h3, h4⟩ := ih true
        (bake_evaluate env a h.ob h.pixel_array n result w).2.1
        (bake_evaluate env a h.ob h.pixel_array n result w).2.2
      rw [hloop]
      refine ⟨Event.evaluate env.RE_bake_has_engine h.ob n (env.RE_pass_depth a.pass_type) true
        :: evs, ?_, ?_, ?_, ?_⟩
      · rw [h1, htr]
        simp
      · exact SameButTrace_trans hsame h2
      · intro e he
        rcases List.mem_cons.1 he with he | he
        · rw [he]; rfl
        · exact h3 e he
      · rcases h4 with ⟨he, _, hfin⟩ | ⟨init, eng, ob, np, d, he, hinit⟩
        · refine Or.inr ⟨[], env.RE_bake_has_engine, h.ob, n, env.RE_pass_depth a.pass_type,
            ?_, by simp⟩
          rw [he, hfin]
          rfl
        · refine Or.inr ⟨Event.evaluate env.RE_bake_has_engine h.ob n
            (env.RE_pass_depth a.pass_type) true :: init, eng, ob, np, d, ?_, ?_⟩
          · rw [he]; rfl
          · intro e he'
            rcases List.mem_cons.1 he' with he' | he'
            · rw [he']; rfl
            · exact hinit e he'

theorem SameButFlags_refl (w : World) : SameButFlags w w :=
  ⟨rfl, rfl, rfl, rfl, rfl⟩

theorem SameButFlags_trans {w1 w2 w3 : World} (h1 : SameButFlags w1 w2)
    (h2 : SameButFlags w2 w3) : SameButFlags w1 w3 :=
  ⟨h2.1.trans h1.1, h2.2.1.trans h1.2.1, h2.2.2.1.trans h1.2.2.1,
    h2.2.2.2.1.trans h1.2.2.2.1, h2.2.2.2.2.trans h1.2.2.2.2⟩

theorem SameButTrace_flags {w w' : World} (h : SameButTrace w w') : SameButFlags w w' :=
  ⟨h.1, h.2.1, h.2.2.1, h.2.2.2.1, h.2.2.2.2.2⟩

theorem SameControl_refl (l : BakeLocals) : SameControl l l :=
  ⟨rfl, rfl, rfl, rfl, rfl, rfl, rfl⟩

theorem SameControl_trans {l1 l2 l3 : BakeLocals} (h1 : SameControl l1 l2)
    (h2 : SameControl l2 l3) : SameControl l1 l3 :=
  ⟨h2.1.trans h1.1, h2.2.1.trans h1.2.1, h2.2.2.1.trans h1.2.2.1,
    h2.2.2.2.1.trans h1.2.2.2.1, h2.2.2.2.2.1.trans h1.2.2.2.2.1,
    h2.2.2.2.2.2.1.trans h1.2.2.2.2.2.1, h2.2.2.2.2.2.2.trans h1.2.2.2.2.2.2⟩

theorem bake_populate_highpoly_spec (a : BakeArgs) (n : Nat) :
    ∀ (objs : List Nat) (w : World),
      (bake_populate_highpoly a n objs w).2.trace = w.trace ∧
      (bake_populate_highpoly a n objs w).2.is_break = w.is_break ∧
      SameButFlags w (bake_populate_highpoly a n objs w).2 ∧
      (bake_populate_highpoly a n objs w).1.length
        = (objs.filter (fun ob_iter => ob_iter ≠ a.ob_low)).length := by
  intro objs
  induction objs with
  | nil => intro w; exact ⟨rfl, rfl, SameButFlags_refl w, rfl⟩
  | cons o rest ih =>
    intro w
    unfold bake_populate_highpoly
    by_cases ho : o = a.ob_low
    · simp only [ho, if_true]
      obtain ⟨h1, h2, h3, h4⟩ := ih w
      refine ⟨h1, h2, h3, ?_⟩
      rw [h4]
      simp
    · simp only [ho, if_false]
      obtain ⟨h1, h2, h3, h4⟩ := ih (set_restrict_render w o false)
      refine ⟨h1, h2, ?_, ?_⟩
      · exact SameButFlags_trans ⟨rfl, rfl, rfl, rfl, rfl⟩ h3
      · simp [h4, ho]

/-- The branch `if (is_highpoly)` of `bake`: its calls and what it leaves. -/
theorem bake_highpoly_spec (env : Env) (a : BakeArgs) (bi : BakeImages) (l : BakeLocals)
    (w : World) :
    ∃ evs, (bake_highpoly env a bi l w).2.trace = w.trace ++ evs ∧
      SameButFlags w (bake_highpoly env a bi l w).2 ∧
      SameControl l (bake_highpoly env a bi l w).1 ∧
      (bake_highpoly env a bi l w).1.op_result = l.op_result ∧
      (bake_highpoly env a bi l w).1.highpoly.isSome = true ∧
      EvalCalls evs l.ok (bake_highpoly env a bi l w).1.ok := by
  obtain ⟨p1, p2, p3, _⟩ := bake_populate_highpoly_spec a l.num_pixels a.selected_objects w
  unfold bake_highpoly
  simp only
  generalize List.zipWith _ (bake_populate_highpoly a l.num_pixels a.selected_objects w).1 _
    = highpoly
  obtain ⟨evs, h1, h2, h3, h4⟩ := bake_highpoly_loop_spec env a l.num_pixels highpoly l.ok
    l.result (set_restrict_render (bake_populate_highpoly a l.num_pixels a.selected_objects w).2
      a.ob_low true)
  generalize bake_highpoly_loop env a l.num_pixels highpoly l.ok l.result
    (set_restrict_render (bake_populate_highpoly a l.num_pixels a.selected_objects w).2
      a.ob_low true) = r at h1 h2 h3 h4 ⊢
  have hflags : SameButFlags w r.2.2 :=
    SameButFlags_trans
      (SameButFlags_trans p3
        (⟨rfl, rfl, rfl, rfl, rfl⟩ : SameButFlags _
          (set_restrict_render (bake_populate_highpoly a l.num_pixels a.selected_objects w).2
            a.ob_low true)))
      (SameButTrace_flags h2)
  have htrace : r.2.2.trace = w.trace ++ evs := by
    rw [h1]
    show (bake_populate_highpoly a l.num_pixels a.selected_objects w).2.trace ++ evs = _
    rw [p1]
  have hcalls : EvalCalls evs l.ok r.1 := by
    refine ⟨h3, ?_⟩
    rcases h4 with ⟨he, _, hfin⟩ | h4
    · exact Or.inl ⟨he, hfin⟩
    · exact Or.inr h4
  refine ⟨evs, ?_, ?_, ?_, ?_, ?_, hcalls⟩
  · cases l.ob_cage <;> exact htrace
  · cases l.ob_cage
    · exact hflags
    · exact SameButFlags_trans hflags ⟨rfl, rfl, rfl, rfl, rfl⟩
  · exact ⟨rfl, rfl, rfl, rfl, rfl, rfl, rfl⟩
  · trivial
  · trivial

/-- The direct bake of `bake`: one evaluator call. -/
theorem bake_direct_spec (env : Env) (a : BakeArgs) (bi : BakeImages) (l : BakeLocals)
    (w : World) :
    ∃ evs, (bake_direct env a bi l w).2.trace = w.trace ++ evs ∧
      SameButFlags w (bake_direct env a bi l w).2 ∧
      SameControl l (bake_direct env a bi l w).1 ∧
      (bake_direct env a bi l w).1.op_result = l.op_result ∧
      (bake_direct env a bi l w).1.highpoly = l.highpoly ∧
      evs.length = 1 ∧
      EvalCalls evs l.ok (bake_direct env a bi l w).1.ok := by
  unfold bake_direct
  simp only
  have hw := bake_evaluate_spec env a a.ob_low
    (env.RE_bake_pixels_populate { ob := a.ob_low, stack := 0 } l.pixel_array_low l.num_pixels bi)
    l.num_pixels l.result (set_restrict_render w a.ob_low false)
  generalize hev : bake_evaluate env a a.ob_low
    (env.RE_bake_pixels_populate { ob := a.ob_low, stack := 0 } l.pixel_array_low l.num_pixels bi)
    l.num_pixels l.result (set_restrict_render w a.ob_low false) = r at hw
  obtain ⟨ok, result, w2⟩ := r
  simp only at hw ⊢
  subst hw
  refine ⟨[Event.evaluate env.RE_bake_has_engine a.ob_low l.num_pixels
    (env.RE_pass_depth a.pass_type) ok], ?_, ?_, ?_, ?_, ?_, ?_, ?_, ?_⟩
  · trivial
  · exact ⟨rfl, rfl, rfl, rfl, rfl⟩
  · exact ⟨rfl, rfl, rfl, rfl, rfl, rfl, rfl⟩
  · trivial
  · trivial
  · trivial
  · intro e he
    rw [List.mem_singleton.1 he]
    rfl
  · exact Or.inr ⟨[], _, _, _, _, rfl, by simp⟩

/-- The normal space conversion of `bake`: converter calls only. -/
theorem bake_normal_space_spec (env : Env) (a : BakeArgs) (bi : BakeImages) (l : BakeLocals)
    (w : World) :
    ∃ cv, (bake_normal_space env a bi l w).2.trace = w.trace ++ cv ∧
      (∀ e ∈ cv, e.is_evaluate = false ∧ e.is_write = false ∧ e.is_transform = false) ∧
      SameButTrace w (bake_normal_space env a bi l w).2 ∧
      SameControl l (bake_normal_space env a bi l w).1 ∧
      (bake_normal_space env a bi l w).1.op_result = l.op_result ∧
      (bake_normal_space env a bi l w).1.highpoly = l.highpoly ∧
      (bake_normal_space env a bi l w).1.ok = l.ok := by
  have hnone : ∃ cv, w.trace = w.trace ++ cv ∧
      (∀ e ∈ cv, e.is_evaluate = false ∧ e.is_write = false ∧ e.is_transform = false) ∧
      SameButTrace w w ∧ SameControl l l ∧ l.op_result = l.op_result ∧
      l.highpoly = l.highpoly ∧ l.ok = l.ok :=
    ⟨[], by simp, by simp, SameButTrace_refl w, SameControl_refl l, rfl, rfl, rfl⟩
  have hone : ∀ (e : Event) (l' : BakeLocals), e.is_evaluate = false → e.is_write = false →
      e.is_transform = false → SameControl l l' → l'.op_result = l.op_result →
      l'.highpoly = l.highpoly → l'.ok = l.ok →
      ∃ cv, (emit env w e).trace = w.trace ++ cv ∧
        (∀ e ∈ cv, e.is_evaluate = false ∧ e.is_write = false ∧ e.is_transform = false) ∧
        SameButTrace w (emit env w e) ∧ SameControl l l' ∧ l'.op_result = l.op_result ∧
        l'.highpoly = l.highpoly ∧ l'.ok = l.ok := by
    intro e l' h1 h2 h3 h4 h5 h6 h7
    refine ⟨[e], rfl, ?_, SameButTrace_emit env w e, h4, h5, h6, h7⟩
    intro e' he'
    rw [List.mem_singleton.1 he']
    exact ⟨h1, h2, h3⟩
  unfold bake_normal_space
  simp only
  split
  · split
    · split
      · exact hnone
      · exact hone _ _ rfl rfl rfl ⟨rfl, rfl, rfl, rfl, rfl, rfl, rfl⟩ rfl rfl rfl
    · exact hone _ _ rfl rfl rfl ⟨rfl, rfl, rfl, rfl, rfl, rfl, rfl⟩ rfl rfl rfl
    · split
      · split
        · exact hone _ _ rfl rfl rfl ⟨rfl, rfl, rfl, rfl, rfl, rfl, rfl⟩ rfl rfl rfl
        · exact hnone
      · exact hone _ _ rfl rfl rfl ⟨rfl, rfl, rfl, rfl, rfl, rfl, rfl⟩ rfl rfl rfl
    · exact hnone
  · exact hnone

/-! ### The save stage of `bake` -/

theorem Event.transform_not_other (e : Event) (h : e.is_transform = true) :
    e.is_evaluate = false ∧ e.is_write = false ∧ e.write_slice = none := by
  cases e <;> simp_all [Event.is_transform, Event.is_evaluate, Event.is_write, Event.write_slice]

theorem internal_colormanagement_frame (env : Env) (ib : ImBuf) (buffer : List Texel)
    (is_noncolor : Bool) (w : World) :
    ∃ tr, (internal_colormanagement env ib buffer is_noncolor w).2.trace = w.trace ++ tr ∧
      (∀ e ∈ tr, e.is_transform = true) ∧
      SameButTrace w (internal_colormanagement env ib buffer is_noncolor w).2 := by
  unfold internal_colormanagement
  simp only
  split_ifs
  · exact ⟨[_], rfl, by simp [Event.is_transform], SameButTrace_emit env w _⟩
  · exact ⟨[], by simp, by simp, SameButTrace_refl w⟩
  · exact ⟨[_], rfl, by simp [Event.is_transform], SameButTrace_emit env w _⟩
  · exact ⟨[], by simp, by simp, SameButTrace_refl w⟩
  · exact ⟨[], by simp, by simp, SameButTrace_refl w⟩

/-- The calls `write_internal_bake_pixels` makes are colour space transforms;
it changes no report and no `restrictflag`. -/
theorem write_internal_bake_pixels_frame (env : Env) (image : Option Nat)
    (pixel_array : List BakePixel) (buffer : List Texel) (width height margin : Nat)
    (is_clear is_noncolor : Bool) (w : World) :
    ∃ tr, (write_internal_bake_pixels env image pixel_array buffer width height margin
        is_clear is_noncolor w).2.2.trace = w.trace ++ tr ∧
      (∀ e ∈ tr, e.is_transform = true) ∧
      (write_internal_bake_pixels env image pixel_array buffer width height margin
        is_clear is_noncolor w).2.2.reports = w.reports ∧
      (write_internal_bake_pixels env image pixel_array buffer width height margin
        is_clear is_noncolor w).2.2.restrictflag = w.restrictflag := by
  unfold write_internal_bake_pixels
  simp only
  split
  · rename_i im ibuf _
    obtain ⟨tr, h1, h2, h3⟩ := internal_colormanagement_frame env ibuf buffer is_noncolor w
    exact ⟨tr, h1, h2, h3.2.2.2.2.2, h3.2.2.2.2.1⟩
  · exact ⟨[], by simp, by simp, rfl, rfl⟩

theorem external_colormanagement_frame (env : Env) (ib : ImBuf) (buffer : List Texel)
    (is_float is_noncolor : Bool) (w : World) :
    ∃ tr, (external_colormanagement env ib buffer is_float is_noncolor w).2.trace
        = w.trace ++ tr ∧
      (∀ e ∈ tr, e.is_transform = true) ∧
      SameButTrace w (external_colormanagement env ib buffer is_float is_noncolor w).2 := by
  unfold external_colormanagement
  split_ifs
  · exact ⟨[], by simp, by simp, SameButTrace_refl w⟩
  · exact ⟨[_], rfl, by simp [Event.is_transform], SameButTrace_emit env w _⟩
  · exact ⟨[], by simp, by simp, SameButTrace_refl w⟩

/-- The calls `write_external_bake_pixels` makes are colour space transforms;
it changes no report, no image buffer and no `restrictflag`. -/
theorem write_external_bake_pixels_frame (env : Env) (filepath : PathName)
    (pixel_array : List BakePixel) (buffer : List Texel) (width height margin : Nat)
    (im_format : ImageFormatData) (is_noncolor : Bool) (w : World) :
    ∃ tr, (write_external_bake_pixels env filepath pixel_array buffer width height margin
        im_format is_noncolor w).2.2.trace = w.trace ++ tr ∧
      (∀ e ∈ tr, e.is_transform = true) ∧
      SameButTrace w (write_external_bake_pixels env filepath pixel_array buffer width height
        margin im_format is_noncolor w).2.2 := by
  unfold write_external_bake_pixels
  simp only
  split
  · exact ⟨[], by simp, by simp, SameButTrace_refl w⟩
  · exact external_colormanagement_frame env _ buffer _ is_noncolor w

/-- One pass of the body of the save loop: colour space transforms, then one
writer call for the slice of surface `i`, then one report. -/
theorem bake_save_surface_spec (env : Env) (a : BakeArgs) (bi : BakeImages) (i : Nat)
    (l : BakeLocals) (w : World) :
    ∃ tr wev rep,
      (bake_save_surface env a bi i l w).2.trace = w.trace ++ tr ++ [wev] ∧
      (∀ e ∈ tr, e.is_transform = true) ∧
      wev.is_write = true ∧ wev.is_evaluate = false ∧
      wev.write_slice = some ((bi.data.getD i default).offset,
        (bi.data.getD i default).width, (bi.data.getD i default).height) ∧
      (bake_save_surface env a bi i l w).2.reports = w.reports ++ [rep] ∧
      (bake_save_surface env a bi i l w).2.restrictflag = w.restrictflag ∧
      SameControl l (bake_save_surface env a bi i l w).1 ∧
      (bake_save_surface env a bi i l w).1.highpoly = l.highpoly ∧
      (bake_save_surface env a bi i l w).1.op_result
        = (if (bake_save_surface env a bi i l w).1.ok then OperatorFlag.OPERATOR_FINISHED
           else OperatorFlag.OPERATOR_CANCELLED) := by
  unfold bake_save_surface
  simp only
  split
  · obtain ⟨tr, h1, h2, h3, h4⟩ := write_internal_bake_pixels_frame env
      (bi.data.getD i default).image (l.pixel_array_low.drop (bi.data.getD i default).offset)
      (l.result.drop (bi.data.getD i default).offset) (bi.data.getD i default).width
      (bi.data.getD i default).height a.margin a.is_clear (is_noncolor_pass a.pass_type) w
    generalize write_internal_bake_pixels env
      (bi.data.getD i default).image (l.pixel_array_low.drop (bi.data.getD i default).offset)
      (l.result.drop (bi.data.getD i default).offset) (bi.data.getD i default).width
      (bi.data.getD i default).height a.margin a.is_clear (is_noncolor_pass a.pass_type) w
      = r at h1 h2 h3 h4 ⊢
    cases hok : r.1 with
    | true =>
      simp only [if_true]
      refine ⟨tr, Event.write_internal (bi.data.getD i default).image
        (bi.data.getD i default).offset (bi.data.getD i default).width
        (bi.data.getD i default).height true,
        ⟨ReportType.RPT_INFO, ReportMsg.saved_to_internal_image⟩,
        ?_, h2, rfl, rfl, rfl, ?_, h4, ⟨rfl, rfl, rfl, rfl, rfl, rfl, rfl⟩, ?_, ?_⟩
      · simp [BKE_report, emit, h1]
      · simp [BKE_report, emit, h3]
      · trivial
      · trivial
    | false =>
      simp only [Bool.false_eq_true, if_false]
      refine ⟨tr, Event.write_internal (bi.data.getD i default).image
        (bi.data.getD i default).offset (bi.data.getD i default).width
        (bi.data.getD i default).height false,
        ⟨ReportType.RPT_ERROR, ReportMsg.problem_saving_internally⟩,
        ?_, h2, rfl, rfl, rfl, ?_, h4, ⟨rfl, rfl, rfl, rfl, rfl, rfl, rfl⟩, ?_, ?_⟩
      · simp [BKE_report, emit, h1]
      · simp [BKE_report, emit, h3]
      · trivial
      · trivial
  · obtain ⟨tr, h1, h2, h3⟩ := write_external_bake_pixels_frame env
      (bake_file_name env a l w i (bi.data.getD i default))
      (l.pixel_array_low.drop (bi.data.getD i default).offset)
      (l.result.drop (bi.data.getD i default).offset) (bi.data.getD i default).width
      (bi.data.getD i default).height a.margin a.scene.im_format
      (is_noncolor_pass a.pass_type) w
    generalize write_external_bake_pixels env
      (bake_file_name env a l w i (bi.data.getD i default))
      (l.pixel_array_low.drop (bi.data.getD i default).offset)
      (l.result.drop (bi.data.getD i default).offset) (bi.data.getD i default).width
      (bi.data.getD i default).height a.margin a.scene.im_format
      (is_noncolor_pass a.pass_type) w = r at h1 h2 h3 ⊢
    cases hok : r.1 with
    | true =>
      simp only [if_true]
      refine ⟨tr, Event.write_external (bake_file_name env a l w i (bi.data.getD i default))
        (bi.data.getD i default).offset (bi.data.getD i default).width
        (bi.data.getD i default).height true,
        ⟨ReportType.RPT_INFO, ReportMsg.baking_map_written_to
          (bake_file_name env a l w i (bi.data.getD i default))⟩,
        ?_, h2, rfl, rfl, rfl, ?_, h3.2.2.2.2.1, ⟨rfl, rfl, rfl, rfl, rfl, rfl, rfl⟩, ?_, ?_⟩
      · simp [BKE_report, emit, h1]
      · simp [BKE_report, emit, h3.2.2.2.2.2]
      · trivial
      · trivial
    | false =>
      simp only [Bool.false_eq_true, if_false]
      refine ⟨tr, Event.write_external (bake_file_name env a l w i (bi.data.getD i default))
        (bi.data.getD i default).offset (bi.data.getD i default).width
        (bi.data.getD i default).height false,
        ⟨ReportType.RPT_ERROR, ReportMsg.problem_saving_baked_map_in
          (bake_file_name env a l w i (bi.data.getD i default))⟩,
        ?_, h2, rfl, rfl, rfl, ?_, h3.2.2.2.2.1, ⟨rfl, rfl, rfl, rfl, rfl, rfl, rfl⟩, ?_, ?_⟩
      · simp [BKE_report, emit, h1]
      · simp [BKE_report, emit, h3.2.2.2.2.2]
      · trivial
      · trivial

/-- The save loop of `bake`: one writer call for each surface in index order
(for the first surface only in external mode without split materials), with
one report for each call and no evaluator call. -/
theorem bake_save_loop_spec (env : Env) (a : BakeArgs) (bi : BakeImages) :
    ∀ (k i : Nat) (l : BakeLocals) (w : World),
      ∃ tr, (bake_save_loop env a bi k i l w).2.trace = w.trace ++ tr ∧
        (∀ e ∈ tr, e.is_evaluate = false) ∧
        tr.filterMap Event.write_slice
          = (List.range' i (save_count a k)).map (surface_slice bi) ∧
        (bake_save_loop env a bi k i l w).2.reports.length
          = w.reports.length + save_count a k ∧
        (bake_save_loop env a bi k i l w).2.restrictflag = w.restrictflag ∧
        SameControl l (bake_save_loop env a bi k i l w).1 ∧
        (bake_save_loop env a bi k i l w).1.highpoly = l.highpoly ∧
        (0 < k → (bake_save_loop env a bi k i l w).1.op_result
          = (if (bake_save_loop env a bi k i l w).1.ok then OperatorFlag.OPERATOR_FINISHED
             else OperatorFlag.OPERATOR_CANCELLED)) ∧
        (k = 0 → (bake_save_loop env a bi k i l w).1 = l) := by
  intro k
  induction k with
  | zero =>
    intro i l w
    refine ⟨[], by simp [bake_save_loop], by simp, ?_, ?_, rfl, SameControl_refl l, rfl,
      fun h => absurd h (Nat.lt_irrefl 0), fun _ => rfl⟩
    · simp [save_count]
    · simp [save_count, bake_save_loop]
  | succ k ih =>
    intro i l w
    obtain ⟨tr1, wev, rep, s1, s2, s3, s4, s5, s6, s7, s8, s9, s10⟩ :=
      bake_save_surface_spec env a bi i l w
    have hfm1 : (tr1 ++ [wev]).filterMap Event.write_slice = [surface_slice bi i] := by
      rw [List.filterMap_append]
      have : tr1.filterMap Event.write_slice = [] := by
        rw [List.filterMap_eq_nil_iff]
        intro e he
        exact (Event.transform_not_other e (s2 e he)).2.2
      rw [this]
      simp [s5, surface_slice]
    have hev1 : ∀ e ∈ tr1 ++ [wev], e.is_evaluate = false := by
      intro e he
      rcases List.mem_append.1 he with he | he
      · exact (Event.transform_not_other e (s2 e he)).1
      · rw [List.mem_singleton.1 he]; exact s4
    unfold bake_save_loop
    simp only
    by_cases hmode : is_save_internal a = false ∧ a.is_split_materials = false
    · simp only [if_pos hmode]
      have hc : save_count a (k + 1) = 1 := by
        simp [save_count, hmode]
      rw [hc]
      refine ⟨tr1 ++ [wev], by rw [s1, List.append_assoc], hev1, by rw [hfm1]; rfl,
        by rw [s6]; simp, s7, s8, s9,
        fun _ => s10, fun h => absurd h (Nat.succ_ne_zero k)⟩
    · simp only [if_neg hmode]
      have hc : ∀ n, save_count a n = n := by
        intro n
        simp only [save_count, hmode, if_false]
      obtain ⟨tr2, t1, t2, t3, t4, t5, t6, t7, t8, t9⟩ := ih (i + 1)
        (bake_save_surface env a bi i l w).1 (bake_save_surface env a bi i l w).2
      rw [hc] at t3 t4 ⊢
      refine ⟨tr1 ++ [wev] ++ tr2, ?_, ?_, ?_, ?_, ?_, SameControl_trans s8 t6, ?_, ?_,
        fun h => absurd h (Nat.succ_ne_zero k)⟩
      · rw [t1, s1]
        simp
      · intro e he
        rcases List.mem_append.1 he with he | he
        · exact hev1 e he
        · exact t2 e he
      · rw [List.filterMap_append, hfm1, t3]
        simp [List.range'_succ]
      · rw [t4, s6]
        simp
        omega
      · rw [t5, s7]
      · rw [t7, s9]
      · intro _
        by_cases hk : k = 0
        · rw [t9 hk]
          exact s10
        · exact t8 (Nat.pos_of_ne_zero hk)

/-! ### The setup and the cleanup of `bake` -/

theorem SameButReports_refl (w : World) : SameButReports w w :=
  ⟨rfl, rfl, rfl, rfl, rfl, rfl⟩

theorem SameButReports_trans {w1 w2 w3 : World} (h1 : SameButReports w1 w2)
    (h2 : SameButReports w2 w3) : SameButReports w1 w3 :=
  ⟨h2.1.trans h1.1, h2.2.1.trans h1.2.1, h2.2.2.1.trans h1.2.2.1,
    h2.2.2.2.1.trans h1.2.2.2.1, h2.2.2.2.2.1.trans h1.2.2.2.2.1,
    h2.2.2.2.2.2.trans h1.2.2.2.2.2⟩

theorem SameButReports_setup (env : Env) (a : BakeArgs) {w w' : World}
    (h : SameButReports w w') : SetupWorld env a w w' :=
  ⟨⟨[], by simp [h.1], by simp⟩, fun _ => h.2.1, fun im => Or.inl (by rw [h.2.1]),
    h.2.2.1, h.2.2.2.1⟩

theorem SetupWorld_then_reports (env : Env) (a : BakeArgs) {w w1 w2 : World}
    (h1 : SetupWorld env a w w1) (h2 : SameButReports w1 w2) : SetupWorld env a w w2 := by
  obtain ⟨⟨cl, c1, c2⟩, c3, c4, c5, c6⟩ := h1
  refine ⟨⟨cl, by rw [h2.1, c1], c2⟩, fun h => by rw [h2.2.1, c3 h], ?_,
    by rw [h2.2.2.1, c5], by rw [h2.2.2.2.1, c6]⟩
  intro im
  rcases c4 im with h | ⟨ib, hb1, hb2⟩
  · exact Or.inl (by rw [h2.2.1, h])
  · exact Or.inr ⟨ib, hb1, by rw [h2.2.1, hb2]⟩

theorem SameButReports_then_setup (env : Env) (a : BakeArgs) {w w1 w2 : World}
    (h1 : SameButReports w w1) (h2 : SetupWorld env a w1 w2) : SetupWorld env a w w2 := by
  obtain ⟨⟨cl, c1, c2⟩, c3, c4, c5, c6⟩ := h2
  refine ⟨⟨cl, by rw [c1, h1.1], c2⟩, fun h => by rw [c3 h, h1.2.1], ?_,
    by rw [c5, h1.2.2.1], by rw [c6, h1.2.2.2.1]⟩
  intro im
  rcases c4 im with h | ⟨ib, hb1, hb2⟩
  · exact Or.inl (by rw [h, h1.2.1])
  · exact Or.inr ⟨ib, by rw [← h1.2.1, hb1], hb2⟩

theorem build_image_lookup_loop_frame (ob : Object) :
    ∀ (k i tot : Nat) (bi : BakeImages) (w : World),
      SameButReports w (build_image_lookup_loop ob k i tot bi w).2.2 := by
  intro k
  induction k with
  | zero => intro i tot bi w; exact SameButReports_refl w
  | succ k ih =>
    intro i tot bi w
    unfold build_image_lookup_loop
    split
    · exact ⟨rfl, rfl, rfl, rfl, rfl, rfl⟩
    · split
      · split
        · exact ih _ _ _ _
        · exact ih _ _ _ _
      · exact SameButReports_trans ⟨rfl, rfl, rfl, rfl, rfl, rfl⟩ (ih _ _ _ _)

theorem build_image_lookup_frame (ob : Object) (bi : BakeImages) (w : World) :
    SameButReports w (build_image_lookup ob bi w).2.2 := by
  have h := build_image_lookup_loop_frame ob ob.totcol 0 0 bi (BKE_main_id_tag_idcode_images w)
  unfold build_image_lookup
  generalize build_image_lookup_loop ob ob.totcol 0 0 bi (BKE_main_id_tag_idcode_images w)
    = r at h ⊢
  obtain ⟨o, bi', w'⟩ := r
  cases o <;> exact SameButReports_trans ⟨rfl, rfl, rfl, rfl, rfl, rfl⟩ h

theorem initialize_internal_images_loop_frame :
    ∀ (k i tot : Nat) (bi : BakeImages) (w : World),
      SameButReports w (initialize_internal_images_loop k i tot bi w).2.2 := by
  intro k
  induction k with
  | zero => intro i tot bi w; exact SameButReports_refl w
  | succ k ih =>
    intro i tot bi w
    unfold initialize_internal_images_loop
    simp only
    split
    · exact ih _ _ _ _
    · exact ⟨rfl, rfl, rfl, rfl, rfl, rfl⟩

theorem ibuf_clear_image_spec (env : Env) (t : Bool) (w0 w : World) (d : BakeImage)
    (h : ∀ im, w.ibuf im = w0.ibuf im ∨ ClearedFrom env t w0 w im) :
    (∀ im, (ibuf_clear_image env t w d).ibuf im = w0.ibuf im ∨
      ClearedFrom env t w0 (ibuf_clear_image env t w d) im) ∧
    (ibuf_clear_image env t w d).trace = w.trace ∧
    (ibuf_clear_image env t w d).restrictflag = w.restrictflag ∧
    (ibuf_clear_image env t w d).object = w.object ∧
    (ibuf_clear_image env t w d).is_break = w.is_break ∧
    (ibuf_clear_image env t w d).reports = w.reports := by
  unfold ibuf_clear_image
  split
  · exact ⟨h, rfl, rfl, rfl, rfl, rfl⟩
  · rename_i im0 _
    split
    · exact ⟨h, rfl, rfl, rfl, rfl, rfl⟩
    · rename_i ib' hib'
      refine ⟨?_, rfl, rfl, rfl, rfl, rfl⟩
      intro im
      by_cases him : im = im0
      · subst him
        right
        rcases h im with h1 | ⟨ib, hb1, hb2⟩
        · exact ⟨ib', by rw [← h1, hib'], by simp [set_ibuf]⟩
        · refine ⟨ib, hb1, ?_⟩
          rw [hib'] at hb2
          injection hb2 with hb2
          subst hb2
          simp [set_ibuf]
      · rcases h im with h1 | ⟨ib, hb1, hb2⟩
        · left
          simp [set_ibuf, Function.update_noteq him, h1]
        · right
          exact ⟨ib, hb1, by simp [set_ibuf, Function.update_noteq him, hb2]⟩

theorem ibuf_clear_fold_spec (env : Env) (t : Bool) (w0 : World) :
    ∀ (ds : List BakeImage) (w : World),
      (∀ im, w.ibuf im = w0.ibuf im ∨ ClearedFrom env t w0 w im) →
      (∀ im, (ds.foldl (ibuf_clear_image env t) w).ibuf im = w0.ibuf im ∨
        ClearedFrom env t w0 (ds.foldl (ibuf_clear_image env t) w) im) ∧
      (ds.foldl (ibuf_clear_image env t) w).trace = w.trace ∧
      (ds.foldl (ibuf_clear_image env t) w).restrictflag = w.restrictflag ∧
      (ds.foldl (ibuf_clear_image env t) w).object = w.object ∧
      (ds.foldl (ibuf_clear_image env t) w).is_break = w.is_break ∧
      (ds.foldl (ibuf_clear_image env t) w).reports = w.reports := by
  intro ds
  induction ds with
  | nil => intro w h; exact ⟨h, rfl, rfl, rfl, rfl, rfl⟩
  | cons d rest ih =>
    intro w h
    obtain ⟨h1, h2, h3, h4, h5, h6⟩ := ibuf_clear_image_spec env t w0 w d h
    obtain ⟨i1, i2, i3, i4, i5, i6⟩ := ih (ibuf_clear_image env t w d) h1
    rw [List.foldl_cons]
    exact ⟨i1, i2.trans h2, i3.trans h3, i4.trans h4, i5.trans h5, i6.trans h6⟩

/-- `RE_bake_ibuf_clear`: one call, after which every image buffer is as it
was or filled with the clear colour. -/
theorem RE_bake_ibuf_clear_spec (env : Env) (bi : BakeImages) (t : Bool) (w : World) :
    (RE_bake_ibuf_clear env bi t w).trace = w.trace ++ [Event.ibuf_clear t] ∧
    (∀ im, (RE_bake_ibuf_clear env bi t w).ibuf im = w.ibuf im ∨
      ClearedFrom env t w (RE_bake_ibuf_clear env bi t w) im) ∧
    (RE_bake_ibuf_clear env bi t w).restrictflag = w.restrictflag ∧
    (RE_bake_ibuf_clear env bi t w).object = w.object ∧
    (RE_bake_ibuf_clear env bi t w).reports = w.reports := by
  obtain ⟨h1, h2, h3, h4, _, h6⟩ := ibuf_clear_fold_spec env t w (bi.data.take bi.size) w
    (fun _ => Or.inl rfl)
  unfold RE_bake_ibuf_clear
  refine ⟨by simp [emit, h2], ?_, h3, h4, h6⟩
  intro im
  rcases h1 im with h | ⟨ib, hb1, hb2⟩
  · exact Or.inl h
  · exact Or.inr ⟨ib, hb1, hb2⟩

theorem bake_check_materials_spec (a : BakeArgs) (l : BakeLocals) (w : World) :
    ∀ l' w',
      (bake_check_materials a l w = Except.error (l', w') → l' = l ∧ SameButReports w w') ∧
      (bake_check_materials a l w = Except.ok (l', w') →
        w' = w ∧ ∃ t, l' = { l with tot_materials := t }) := by
  intro l' w'
  unfold bake_check_materials
  split_ifs
  · refine ⟨fun h => ?_, fun h => by cases h⟩
    injection h with h
    injection h with h1 h2
    subst h1; subst h2
    exact ⟨rfl, rfl, rfl, rfl, rfl, rfl, rfl⟩
  · refine ⟨fun h => ?_, fun h => by cases h⟩
    injection h with h
    injection h with h1 h2
    subst h1; subst h2
    exact ⟨rfl, rfl, rfl, rfl, rfl, rfl, rfl⟩
  · refine ⟨fun h => (by cases h), fun h => ?_⟩
    injection h with h
    injection h with h1 h2
    subst h1; subst h2
    exact ⟨rfl, 1, rfl⟩
  · refine ⟨fun h => (by cases h), fun h => ?_⟩
    injection h with h
    injection h with h1 h2
    subst h1; subst h2
    exact ⟨rfl, l.tot_materials, rfl⟩

theorem bake_resolve_images_spec (env : Env) (a : BakeArgs) (l : BakeLocals) (w : World) :
    ∀ l' w',
      (bake_resolve_images env a l w = Except.error (l', w') →
        SameButReports w w' ∧ ∃ bi n, l' = { l with bake_images := some bi, num_pixels := n }) ∧
      (bake_resolve_images env a l w = Except.ok (l', w') →
        SetupWorld env a w w' ∧
        ∃ bi n, l' = { l with bake_images := some bi, num_pixels := n }) := by
  intro l' w'
  have hb := build_image_lookup_frame (w.object a.ob_low)
    (calloc_bake_images l.tot_materials 0) w
  unfold bake_resolve_images
  generalize build_image_lookup (w.object a.ob_low) (calloc_bake_images l.tot_materials 0) w
    = r at hb ⊢
  obtain ⟨b, bi, w1⟩ := r
  simp only at hb
  cases b with
  | false =>
    simp only
    refine ⟨fun h => ?_, fun h => by cases h⟩
    injection h with h
    injection h with h1 h2
    subst h1; subst h2
    exact ⟨hb, bi, l.num_pixels, rfl⟩
  | true =>
    simp only
    by_cases hint : is_save_internal a = true
    · simp only [hint, if_true]
      have hi := initialize_internal_images_loop_frame bi.size 0 0 bi w1
      unfold initialize_internal_images
      generalize initialize_internal_images_loop bi.size 0 0 bi w1 = r2 at hi ⊢
      obtain ⟨n, bi2, w2⟩ := r2
      simp only at hi ⊢
      split_ifs with hn hc
      · refine ⟨fun h => ?_, fun h => by cases h⟩
        injection h with h
        injection h with h1 h2
        subst h1; subst h2
        exact ⟨SameButReports_trans hb hi, bi2, n, rfl⟩
      · refine ⟨fun h => (by cases h), fun h => ?_⟩
        injection h with h
        injection h with h1 h2
        subst h1; subst h2
        refine ⟨?_, bi2, n, rfl⟩
        obtain ⟨c1, c2, c3, c4, _⟩ := RE_bake_ibuf_clear_spec env bi2 (is_tangent a) w2
        apply SameButReports_then_setup env a (SameButReports_trans hb hi)
        refine ⟨⟨[Event.ibuf_clear (is_tangent a)], c1, by simp⟩, ?_, c2, c3, c4⟩
        intro hno
        exact absurd ⟨hint, hc⟩ hno
      · refine ⟨fun h => (by cases h), fun h => ?_⟩
        injection h with h
        injection h with h1 h2
        subst h1; subst h2
        exact ⟨SameButReports_setup env a (SameButReports_trans hb hi), bi2, n, rfl⟩
    · simp only [hint, if_false, Bool.false_eq_true]
      refine ⟨fun h => (by cases h), fun h => ?_⟩
      injection h with h
      injection h with h1 h2
      subst h1; subst h2
      exact ⟨SameButReports_setup env a hb, _, _, rfl⟩

theorem bake_count_highpoly_spec (a : BakeArgs) (l : BakeLocals) (w : World) :
    ∀ l' w',
      (bake_count_highpoly a l w = Except.error (l', w') → SameButReports w w') ∧
      (bake_count_highpoly a l w = Except.ok (l', w') →
        w' = w ∧
        ((a.use_selected_to_active = false ∧ l' = l) ∨
          (a.use_selected_to_active = true ∧
            (a.selected_objects.filter (fun ob_iter => ob_iter ≠ a.ob_low)).length ≠ 0 ∧
            l' = { l with
              tot_highpoly :=
                (a.selected_objects.filter (fun ob_iter => ob_iter ≠ a.ob_low)).length
              is_highpoly := true }))) := by
  intro l' w'
  unfold bake_count_highpoly
  simp only
  split_ifs with h1 h2
  · refine ⟨fun h => ?_, fun h => by cases h⟩
    injection h with h
    injection h with h1 h2
    subst h1; subst h2
    exact ⟨rfl, rfl, rfl, rfl, rfl, rfl⟩
  · refine ⟨fun h => (by cases h), fun h => ?_⟩
    injection h with h
    injection h with h3 h4
    subst h3; subst h4
    exact ⟨rfl, Or.inr ⟨h1, h2, rfl⟩⟩
  · refine ⟨fun h => (by cases h), fun h => ?_⟩
    injection h with h
    injection h with h3 h4
    subst h3; subst h4
    exact ⟨rfl, Or.inl ⟨by simpa using h1, rfl⟩⟩

theorem bake_find_cage_spec (a : BakeArgs) (l : BakeLocals) (w : World) :
    ∀ l' w',
      (bake_find_cage a l w = Except.error (l', w') → SameButReports w w') ∧
      (bake_find_cage a l w = Except.ok (l', w') →
        w' = w ∧
        (l' = l ∨ ∃ c, l' = { l with ob_cage := some c,
                                      restrict_flag_cage := some (w.restrictflag c) })) := by
  intro l' w'
  unfold bake_find_cage
  split_ifs with h1
  · split
    · refine ⟨fun h => ?_, fun h => by cases h⟩
      injection h with h
      injection h with h3 h4
      subst h3; subst h4
      exact ⟨rfl, rfl, rfl, rfl, rfl, rfl⟩
    · split_ifs
      · refine ⟨fun h => (by cases h), fun h => ?_⟩
        injection h with h
        injection h with h3 h4
        subst h3; subst h4
        exact ⟨rfl, Or.inr ⟨_, rfl⟩⟩
      · refine ⟨fun h => ?_, fun h => by cases h⟩
        injection h with h
        injection h with h3 h4
        subst h3; subst h4
        exact ⟨rfl, rfl, rfl, rfl, rfl, rfl⟩
  · refine ⟨fun h => (by cases h), fun h => ?_⟩
    injection h with h
    injection h with h3 h4
    subst h3; subst h4
    exact ⟨rfl, Or.inl rfl⟩

/-- What the setup of `bake` leaves: on `goto cleanup` and on success. -/
theorem bake_setup_spec (env : Env) (a : BakeArgs) (w : World) :
    ∀ l w',
      (bake_setup env a w = Except.error (l, w') → SetupWorld env a w w') ∧
      (bake_setup env a w = Except.ok (l, w') →
        SetupWorld env a w w' ∧ l.ok = false ∧
        l.op_result = OperatorFlag.OPERATOR_CANCELLED ∧ l.highpoly = none ∧
        l.restrict_flag_low = w.restrictflag a.ob_low ∧
        (∃ bi, l.bake_images = some bi) ∧
        (l.ob_cage = none ∨ ∃ f, l.restrict_flag_cage = some f) ∧
        l.is_highpoly = a.use_selected_to_active ∧
        (a.use_selected_to_active = true →
          l.tot_highpoly
            = (a.selected_objects.filter (fun ob_iter => ob_iter ≠ a.ob_low)).length ∧
          l.tot_highpoly ≠ 0)) := by
  intro l w'
  unfold bake_setup
  cases h1 : bake_check_materials a (bake_locals_init a w) w with
  | error s1 =>
    obtain ⟨l1, w1⟩ := s1
    have := ((bake_check_materials_spec a (bake_locals_init a w) w l1 w1).1 h1).2
    refine ⟨fun h => ?_, fun h => (by cases h)⟩
    injection h with h
    injection h with h2 h3
    subst h2; subst h3
    exact SameButReports_setup env a this
  | ok s1 =>
    obtain ⟨l1, w1⟩ := s1
    obtain ⟨hw1, t, hl1⟩ := (bake_check_materials_spec a (bake_locals_init a w) w l1 w1).2 h1
    subst hw1
    simp only
    cases h2 : bake_resolve_images env a l1 w1 with
    | error s2 =>
      obtain ⟨l2, w2⟩ := s2
      have := ((bake_resolve_images_spec env a l1 w1 l2 w2).1 h2).1
      refine ⟨fun h => ?_, fun h => (by cases h)⟩
      injection h with h
      injection h with h3 h4
      subst h3; subst h4
      exact SameButReports_setup env a this
    | ok s2 =>
      obtain ⟨l2, w2⟩ := s2
      obtain ⟨hs2, bi, n, hl2⟩ := (bake_resolve_images_spec env a l1 w1 l2 w2).2 h2
      simp only
      cases h3 : bake_count_highpoly a l2 w2 with
      | error s3 =>
        obtain ⟨l3, w3⟩ := s3
        have := (bake_count_highpoly_spec a l2 w2 l3 w3).1 h3
        refine ⟨fun h => ?_, fun h => (by cases h)⟩
        injection h with h
        injection h with h4 h5
        subst h4; subst h5
        exact SetupWorld_then_reports env a hs2 this
      | ok s3 =>
        obtain ⟨l3, w3⟩ := s3
        obtain ⟨hw3, hl3⟩ := (bake_count_highpoly_spec a l2 w2 l3 w3).2 h3
        subst hw3
        simp only
        refine ⟨fun h => ?_, fun h => ?_⟩
        · exact SetupWorld_then_reports env a hs2 ((bake_find_cage_spec a l3 w3 l w').1 h)
        · obtain ⟨hw4, hl4⟩ := (bake_find_cage_spec a l3 w3 l w').2 h
          subst hw4
          have hcage : w'.restrictflag = w1.restrictflag := hs2.2.2.2.1
          refine ⟨hs2, ?_⟩
          rcases hl3 with ⟨hsel, hl3⟩ | ⟨hsel, hcount, hl3⟩
          · rcases hl4 with hl4 | ⟨c, hl4⟩ <;>
              subst hl4 <;> subst hl3 <;> subst hl2 <;> subst hl1 <;>
              simp [bake_locals_init, hsel]
          · have hcount' := hcount
            simp only [ne_eq, List.length_eq_zero, List.filter_eq_nil_iff, decide_eq_true_eq,
              not_forall, Classical.not_imp, Decidable.not_not, exists_prop] at hcount'
            rcases hl4 with hl4 | ⟨c, hl4⟩ <;>
              subst hl4 <;> subst hl3 <;> subst hl2 <;> subst hl1 <;>
              simp [bake_locals_init, hsel, hcount']

theorem cleanup_highpoly_frame :
    ∀ (hp : List BakeHighPolyData) (w : World),
      (cleanup_highpoly w hp).trace = w.trace ∧ (cleanup_highpoly w hp).ibuf = w.ibuf ∧
      (cleanup_highpoly w hp).reports = w.reports ∧
      (cleanup_highpoly w hp).is_break = w.is_break := by
  intro hp
  induction hp with
  | nil => intro w; exact ⟨rfl, rfl, rfl, rfl⟩
  | cons h rest ih =>
    intro w
    obtain ⟨h1, h2, h3, h4⟩ := ih (set_restrictflag w h.ob h.restrict_flag)
    unfold cleanup_highpoly at h1 h2 h3 h4 ⊢
    rw [List.foldl_cons]
    exact ⟨h1, h2, h3, h4⟩

/-- The cleanup of `bake` makes no call and changes no image and no report;
it returns `op_result` when the locals it reads have been assigned. -/
theorem bake_cleanup_spec (a : BakeArgs) (l : BakeLocals) (w : World) :
    (bake_cleanup a l w).2.trace = w.trace ∧ (bake_cleanup a l w).2.ibuf = w.ibuf ∧
    (bake_cleanup a l w).2.reports = w.reports ∧
    (bake_cleanup a l w).2.is_break = w.is_break ∧
    ((l.is_highpoly = true → ∃ hp, l.highpoly = some hp) →
      (l.ob_cage = none ∨ ∃ f, l.restrict_flag_cage = some f) →
      (∃ bi, l.bake_images = some bi) →
      (bake_cleanup a l w).1 = BakeExit.returned l.op_result) := by
  unfold bake_cleanup
  cases hhigh : l.is_highpoly with
  | false =>
    simp only [Bool.false_eq_true, if_false]
    cases hcage : l.ob_cage with
    | none =>
      simp only
      cases hbi : l.bake_images with
      | none =>
        refine ⟨rfl, rfl, rfl, rfl, fun _ _ h => ?_⟩
        obtain ⟨bi, h⟩ := h
        cases h
      | some bi => exact ⟨rfl, rfl, rfl, rfl, fun _ _ _ => rfl⟩
    | some c =>
      simp only
      cases hf : l.restrict_flag_cage with
      | none =>
        refine ⟨rfl, rfl, rfl, rfl, fun _ h _ => ?_⟩
        rcases h with h | ⟨f, h⟩
        · cases h
        · cases h
      | some f =>
        simp only
        cases hbi : l.bake_images with
        | none =>
          refine ⟨rfl, rfl, rfl, rfl, fun _ _ h => ?_⟩
          obtain ⟨bi, h⟩ := h
          cases h
        | some bi => exact ⟨rfl, rfl, rfl, rfl, fun _ _ _ => rfl⟩
  | true =>
    simp only [if_true]
    cases hhp : l.highpoly with
    | none =>
      refine ⟨rfl, rfl, rfl, rfl, fun h _ _ => ?_⟩
      obtain ⟨hp, h⟩ := h trivial
      cases h
    | some hp =>
      simp only
      obtain ⟨c1, c2, c3, c4⟩ := cleanup_highpoly_frame (hp.take l.tot_highpoly) w
      cases hcage : l.ob_cage with
      | none =>
        simp only
        cases hbi : l.bake_images with
        | none =>
          refine ⟨c1, c2, c3, c4, fun _ _ h => ?_⟩
          obtain ⟨bi, h⟩ := h
          cases h
        | some bi => exact ⟨c1, c2, c3, c4, fun _ _ _ => rfl⟩
      | some c =>
        simp only
        cases hf : l.restrict_flag_cage with
        | none =>
          refine ⟨c1, c2, c3, c4, fun _ h _ => ?_⟩
          rcases h with h | ⟨f, h⟩
          · cases h
          · cases h
        | some f =>
          simp only
          cases hbi : l.bake_images with
          | none =>
            refine ⟨c1, c2, c3, c4, fun _ _ h => ?_⟩
            obtain ⟨bi, h⟩ := h
            cases h
          | some bi => exact ⟨c1, c2, c3, c4, fun _ _ _ => rfl⟩

/-! ### The run of `bake` after the setup -/

/-- The evaluation stage of `bake`, high-poly or direct. -/
theorem bake_evaluation_spec (env : Env) (a : BakeArgs) (bi : BakeImages) (l : BakeLocals)
    (w : World) :
    ∃ evs,
      (bake_evaluation env a bi l w).2.trace = w.trace ++ evs ∧
      SameButFlags w (bake_evaluation env a bi l w).2 ∧
      SameControl l (bake_evaluation env a bi l w).1 ∧
      (bake_evaluation env a bi l w).1.op_result = l.op_result ∧
      (l.is_highpoly = true → ∃ hp, (bake_evaluation env a bi l w).1.highpoly = some hp) ∧
      (l.is_highpoly = false → evs.length = 1) ∧
      EvalCalls evs l.ok (bake_evaluation env a bi l w).1.ok := by
  unfold bake_evaluation
  cases hh : l.is_highpoly with
  | true =>
    simp only [if_true]
    obtain ⟨evs, h1, h2, h3, h4, h5, h6⟩ := bake_highpoly_spec env a bi l w
    refine ⟨evs, h1, h2, h3, h4, fun _ => ?_, fun h => (by cases h), h6⟩
    exact Option.isSome_iff_exists.1 h5
  | false =>
    simp only [Bool.false_eq_true, if_false]
    obtain ⟨evs, h1, h2, h3, h4, _, h6, h7⟩ := bake_direct_spec env a bi l w
    exact ⟨evs, h1, h2, h3, h4, fun h => (by cases h), fun _ => h6, h7⟩

/-- The block after the evaluation of `bake` when the evaluator failed: one
error report and no writer call. -/
theorem bake_save_failed (env : Env) (a : BakeArgs) (bi : BakeImages) (l : BakeLocals)
    (w : World) (hok : l.ok = false) :
    bake_save env a bi l w
      = ({ l with op_result := OperatorFlag.OPERATOR_CANCELLED },
         BKE_report w ReportType.RPT_ERROR ReportMsg.problem_baking_object_map) := by
  unfold bake_save
  simp [hok]

/-- The run of `bake` after a successful setup: evaluator calls, then
converter calls, then the save stage. -/
theorem bake_run_spec (env : Env) (a : BakeArgs) (l : BakeLocals) (w : World)
    (bi : BakeImages) (hbi : l.bake_images = some bi) :
    ∃ evs cv sv okE,
      (bake_run env a l w).2.trace = w.trace ++ evs ++ cv ++ sv ∧
      (bake_evaluation env a bi (bake_allocate l w).1 (bake_allocate l w).2).2.trace
        = w.trace ++ evs ∧
      okE = (bake_evaluation env a bi (bake_allocate l w).1 (bake_allocate l w).2).1.ok ∧
      EvalCalls evs l.ok okE ∧
      (l.is_highpoly = false → evs.length = 1) ∧
      (∀ e ∈ cv, e.is_evaluate = false ∧ e.is_write = false ∧ e.is_transform = false) ∧
      SameControl l (bake_run env a l w).1 ∧
      (l.is_highpoly = true → ∃ hp, (bake_run env a l w).1.highpoly = some hp) ∧
      (okE = false →
        sv = [] ∧ (bake_run env a l w).1.op_result = OperatorFlag.OPERATOR_CANCELLED ∧
        (bake_run env a l w).2.reports
          = w.reports ++ [⟨ReportType.RPT_ERROR, ReportMsg.problem_baking_object_map⟩] ∧
        (bake_run env a l w).2.ibuf = w.ibuf) ∧
      (okE = true →
        (∀ e ∈ sv, e.is_evaluate = false) ∧
        sv.filterMap Event.write_slice
          = (List.range' 0 (save_count a bi.size)).map (surface_slice bi) ∧
        (bake_run env a l w).2.reports.length = w.reports.length + save_count a bi.size ∧
        (0 < bi.size → (bake_run env a l w).1.op_result
          = (if (bake_run env a l w).1.ok then OperatorFlag.OPERATOR_FINISHED
             else OperatorFlag.OPERATOR_CANCELLED)) ∧
        (bi.size = 0 → (bake_run env a l w).1.op_result = l.op_result)) := by
  unfold bake_run
  simp only [hbi]
  obtain ⟨evs, e1, e2, e3, e4, e5, e6, e7⟩ := bake_evaluation_spec env a bi
    (bake_allocate l w).1 (bake_allocate l w).2
  generalize bake_evaluation env a bi (bake_allocate l w).1 (bake_allocate l w).2 = r2
    at e1 e2 e3 e4 e5 e6 e7 ⊢
  obtain ⟨cv, n1, n2, n3, n4, n5, n6, n7⟩ := bake_normal_space_spec env a bi r2.1 r2.2
  generalize bake_normal_space env a bi r2.1 r2.2 = r3 at n1 n2 n3 n4 n5 n6 n7 ⊢
  have hctl : SameControl l r3.1 :=
    SameControl_trans (SameControl_trans ⟨rfl, rfl, rfl, rfl, rfl, rfl, rfl⟩ e3) n4
  have htr : r3.2.trace = w.trace ++ evs ++ cv := by
    rw [n1, e1]
    rfl
  have hhp : l.is_highpoly = true → ∃ hp, r3.1.highpoly = some hp := by
    intro h
    obtain ⟨hp, hhp⟩ := e5 h
    exact ⟨hp, by rw [n6, hhp]⟩
  cases hok : r3.1.ok with
  | false =>
    have hsave := bake_save_failed env a bi r3.1 r3.2 hok
    rw [hsave]
    refine ⟨evs, cv, [], false, by simp [BKE_report, htr], e1, by rw [← n7, hok], ?_, e6, n2,
      hctl, hhp, ?_, fun h => (by cases h)⟩
    · rw [← hok, n7]; exact e7
    · intro _
      refine ⟨rfl, rfl, ?_, ?_⟩
      · show r3.2.reports ++ _ = _
        rw [n3.2.2.2.2.2, e2.2.2.2.2]
        rfl
      · show r3.2.ibuf = _
        rw [n3.2.1, e2.2.1]
        rfl
  | true =>
    have hsave : bake_save env a bi r3.1 r3.2 = bake_save_loop env a bi bi.size 0 r3.1 r3.2 := by
      unfold bake_save
      simp [hok]
    rw [hsave]
    obtain ⟨sv, s1, s2, s3, s4, s5, s6, s7, s8, s9⟩ :=
      bake_save_loop_spec env a bi bi.size 0 r3.1 r3.2
    refine ⟨evs, cv, sv, true, by rw [s1, htr], e1, by rw [← n7, hok], ?_, e6, n2,
      SameControl_trans hctl s6, ?_, fun h => (by cases h), fun _ => ⟨s2, s3, ?_, s8, ?_⟩⟩
    · rw [← hok, n7]; exact e7
    · intro h
      obtain ⟨hp, hhp⟩ := hhp h
      exact ⟨hp, by rw [s7, hhp]⟩
    · rw [s4, n3.2.2.2.2.2, e2.2.2.2.2]
      rfl
    · intro h0
      rw [s9 h0, n5, e4]
      rfl

theorem Event.failed_is_evaluate (e : Event) (h : e.evaluate_failed = true) :
    e.is_evaluate = true := by
  cases e <;> simp_all [Event.evaluate_failed, Event.is_evaluate]

theorem Event.evaluate_not_write (e : Event) (h : e.is_evaluate = true) :
    e.is_write = false ∧ e.write_slice = none := by
  cases e <;> simp_all [Event.is_write, Event.is_evaluate, Event.write_slice]

theorem Event.write_slice_isSome (e : Event) : (e.write_slice).isSome = e.is_write := by
  cases e <;> rfl

/-- The trace of a run of `bake` that got past its setup, and its exit. -/
theorem bake_after_setup (env : Env) (a : BakeArgs) (w : World) (l : BakeLocals) (w1 : World)
    (hs : bake_setup env a w = Except.ok (l, w1)) :
    (bake env a w).2.trace = (bake_run env a l w1).2.trace ∧
    (bake env a w).2.ibuf = (bake_run env a l w1).2.ibuf ∧
    (bake env a w).2.reports = (bake_run env a l w1).2.reports ∧
    (bake env a w).1 = BakeExit.returned (bake_run env a l w1).1.op_result := by
  obtain ⟨_, _, _, h4, _, ⟨bi, h6⟩, h7, _, _⟩ := (bake_setup_spec env a w l w1).2 hs
  obtain ⟨evs, cv, sv, okE, _, _, _, _, _, _, r5, r6, _, _⟩ := bake_run_spec env a l w1 bi h6
  obtain ⟨c1, c2, c3, _, c5⟩ := bake_cleanup_spec a (bake_run env a l w1).1 (bake_run env a l w1).2
  have hbake : bake env a w
      = bake_cleanup a (bake_run env a l w1).1 (bake_run env a l w1).2 := by
    unfold bake
    rw [hs]
  rw [hbake]
  refine ⟨c1, c2, c3, c5 ?_ ?_ ?_⟩
  · intro h
    rw [r5.2.2.1] at h
    exact r6 h
  · rw [r5.1, r5.2.1]
    exact h7
  · exact ⟨bi, by rw [r5.2.2.2.2.2.1, h6]⟩

/-- **C6 (as amended).** If the evaluator reports failure in a run of `bake`,
the failing call is the last evaluator call and all earlier ones succeeded;
`bake` ends with the error report "Problem baking object map", returns
`OPERATOR_CANCELLED` and calls neither writer.  The image buffers are as they
were at entry, except that in internal mode with `is_clear` set an image may
already have been filled with the clear colour before the evaluation. -/
theorem bake_evaluator_failure (env : Env) (a : BakeArgs) (w : World) (h0 : w.trace = [])
    (hfail : ∃ e ∈ (bake env a w).2.trace, e.evaluate_failed = true) :
    (bake env a w).1 = BakeExit.returned OperatorFlag.OPERATOR_CANCELLED ∧
    (bake env a w).2.reports.getLast?
      = some ⟨ReportType.RPT_ERROR, ReportMsg.problem_baking_object_map⟩ ∧
    (∀ e ∈ (bake env a w).2.trace, e.is_write = false) ∧
    (∃ init e, (bake env a w).2.trace.filter Event.is_evaluate = init ++ [e] ∧
      e.evaluate_failed = true ∧ ∀ e' ∈ init, e'.evaluate_failed = false) ∧
    (¬(is_save_internal a = true ∧ a.is_clear = true) → (bake env a w).2.ibuf = w.ibuf) ∧
    (∀ im, (bake env a w).2.ibuf im = w.ibuf im ∨
      ClearedFrom env (is_tangent a) w (bake env a w).2 im) := by
  obtain ⟨e, he, hef⟩ := hfail
  cases hs : bake_setup env a w with
  | error s =>
    obtain ⟨l, w1⟩ := s
    exfalso
    obtain ⟨⟨cl, c1, c2⟩, _⟩ := (bake_setup_spec env a w l w1).1 hs
    have hbake : bake env a w = bake_cleanup a l w1 := by
      unfold bake
      rw [hs]
    rw [hbake, (bake_cleanup_spec a l w1).1, c1, h0] at he
    have := c2 e (by simpa using he)
    rw [this] at hef
    cases hef
  | ok s =>
    obtain ⟨l, w1⟩ := s
    obtain ⟨⟨⟨cl, c1, c2⟩, c3, c4, _, _⟩, hok0, _, _, _, ⟨bi, hbi⟩, _, _, _⟩ :=
      (bake_setup_spec env a w l w1).2 hs
    obtain ⟨b1, b2, b3, b4⟩ := bake_after_setup env a w l w1 hs
    obtain ⟨evs, cv, sv, okE, r1, _, _, r2, _, r4, _, _, r7, r8⟩ :=
      bake_run_spec env a l w1 bi hbi
    rw [c1, h0] at r1
    rw [b1, r1] at he
    -- a converter call, a clearing call and a call of the save stage are no failed evaluation
    have hcl : ∀ e' ∈ cl, e'.is_evaluate = false ∧ e'.is_write = false := by
      intro e' he'
      rw [c2 e' he']
      exact ⟨rfl, rfl⟩
    have hnotfailed : ∀ e' : Event, e'.is_evaluate = false → e'.evaluate_failed = true → False := by
      intro e' h1 h2
      rw [Event.failed_is_evaluate e' h2] at h1
      cases h1
    -- the evaluator ended with failure
    have hE : okE = false := by
      cases hE : okE with
      | false => rfl
      | true =>
        exfalso
        obtain ⟨s1, _⟩ := r8 hE
        simp only [List.nil_append, List.mem_append] at he
        rcases he with ((he | he) | he) | he
        · exact hnotfailed e (hcl e he).1 hef
        · rw [hE] at r2
          rcases r2.2 with ⟨h1, _⟩ | ⟨init, eng, ob, np, d, h1, h2⟩
          · rw [h1] at he
            cases he
          · rw [h1] at he
            rcases List.mem_append.1 he with he | he
            · rw [h2 e he] at hef
              cases hef
            · rw [List.mem_singleton.1 he] at hef
              cases hef
        · exact hnotfailed e (r4 e he).1 hef
        · exact hnotfailed e (s1 e he) hef
    obtain ⟨s1, s2, s3, s4⟩ := r7 hE
    subst s1
    rw [hE] at r2
    have hevs : ∃ init eng ob np d,
        evs = init ++ [Event.evaluate eng ob np d false] ∧
        ∀ e' ∈ init, e'.evaluate_failed = false := by
      rcases r2.2 with ⟨h1, _⟩ | h
      · exfalso
        subst h1
        simp only [List.nil_append, List.append_nil, List.mem_append] at he
        rcases he with he | he
        · exact hnotfailed e (hcl e he).1 hef
        · exact hnotfailed e (r4 e he).1 hef
      · exact h
    refine ⟨by rw [b4, s2], ?_, ?_, ?_, ?_, ?_⟩
    · rw [b3, s3]
      simp
    · intro e' he'
      rw [b1, r1] at he'
      simp only [List.nil_append, List.append_nil, List.mem_append] at he'
      rcases he' with (he' | he') | he'
      · exact (hcl e' he').2
      · exact (Event.evaluate_not_write e' (r2.1 e' he')).1
      · exact (r4 e' he').2.1
    · obtain ⟨init, eng, ob, np, d, h1, h2⟩ := hevs
      refine ⟨init, Event.evaluate eng ob np d false, ?_, rfl, h2⟩
      rw [b1, r1]
      simp only [List.nil_append, List.append_nil, List.filter_append]
      have f1 : cl.filter Event.is_evaluate = [] := by
        rw [List.filter_eq_nil_iff]
        intro e' he'
        rw [(hcl e' he').1]
        simp
      have f2 : cv.filter Event.is_evaluate = [] := by
        rw [List.filter_eq_nil_iff]
        intro e' he'
        rw [(r4 e' he').1]
        simp
      have f3 : evs.filter Event.is_evaluate = evs := by
        rw [List.filter_eq_self]
        exact r2.1
      rw [f1, f2, f3, h1]
      simp
    · intro hno
      rw [b2, s4]
      exact c3 hno
    · intro im
      rcases c4 im with h | ⟨ib, hb1, hb2⟩
      · left
        rw [b2, s4, h]
      · right
        exact ⟨ib, hb1, by rw [b2, s4, hb2]⟩

/-- A bake to internal images, with `is_clear`, whose evaluator call fails. -/
theorem bake_evaluator_failure_witness :
    (bake (demo_env (fun _ => false) (fun _ => false))
        (demo_args BakeSaveMode.R_BAKE_SAVE_INTERNAL true false [])
        (demo_world (demo_object 1 (fun _ => some 7)))).1
      = BakeExit.returned OperatorFlag.OPERATOR_CANCELLED ∧
    (∀ e ∈ (bake (demo_env (fun _ => false) (fun _ => false))
        (demo_args BakeSaveMode.R_BAKE_SAVE_INTERNAL true false [])
        (demo_world (demo_object 1 (fun _ => some 7)))).2.trace, e.is_write = false) := by
  have h := bake_evaluator_failure (demo_env (fun _ => false) (fun _ => false))
    (demo_args BakeSaveMode.R_BAKE_SAVE_INTERNAL true false [])
    (demo_world (demo_object 1 (fun _ => some 7))) rfl
    ⟨Event.evaluate true 0 2 4 false, by decide, rfl⟩
  exact ⟨h.1, h.2.2.1⟩

/-- **C6 (counterexample).** A bake to the internal image 7 (2 by 1 pixels
`[5, 6]`) with `is_clear` set, whose evaluator call fails: `bake` returns
`OPERATOR_CANCELLED` without a writer call, and the pixels of image 7 are
`[0, 0]`, not those at entry. -/
theorem bake_evaluator_failure_counterexample :
    (bake (demo_env (fun _ => false) (fun _ => false))
        (demo_args BakeSaveMode.R_BAKE_SAVE_INTERNAL true false [])
        (demo_world (demo_object 1 (fun _ => some 7)))).1
      = BakeExit.returned OperatorFlag.OPERATOR_CANCELLED ∧
    (bake (demo_env (fun _ => false) (fun _ => false))
        (demo_args BakeSaveMode.R_BAKE_SAVE_INTERNAL true false [])
        (demo_world (demo_object 1 (fun _ => some 7)))).2.trace
      = [Event.ibuf_clear false, Event.evaluate true 0 2 4 false] ∧
    ((demo_world (demo_object 1 (fun _ => some 7))).ibuf 7).map (fun ib => ib.pixels)
      = some [5, 6] ∧
    ((bake (demo_env (fun _ => false) (fun _ => false))
        (demo_args BakeSaveMode.R_BAKE_SAVE_INTERNAL true false [])
        (demo_world (demo_object 1 (fun _ => some 7)))).2.ibuf 7).map (fun ib => ib.pixels)
      = some [0, 0] := by
  decide

theorem bake_break_iff (w : World) : bake_break w = 1 ↔ w.is_break = true := by
  unfold bake_break
  cases w.is_break <;> simp

/-- **C7 (counterexample).** A selected-to-active bake with the high-poly
objects 1 and 2 whose evaluator always succeeds; the escape handler sets the
interrupt flag during the first evaluator call.  `bake` still calls the
evaluator for object 2, writes the surface and returns `OPERATOR_FINISHED`,
the flag being set at the end. -/
theorem bake_does_not_poll_interrupt_counterexample :
    (bake (demo_env (fun _ => true) (fun tr => decide (tr.length = 1)))
        (demo_args BakeSaveMode.R_BAKE_SAVE_INTERNAL false false [1, 2])
        (demo_world (demo_object 1 (fun _ => some 7)))).1
      = BakeExit.returned OperatorFlag.OPERATOR_FINISHED ∧
    (bake (demo_env (fun _ => true) (fun tr => decide (tr.length = 1)))
        (demo_args BakeSaveMode.R_BAKE_SAVE_INTERNAL false false [1, 2])
        (demo_world (demo_object 1 (fun _ => some 7)))).2.trace
      = [Event.evaluate true 1 2 4 true, Event.evaluate true 2 2 4 true,
         Event.write_internal (some 7) 0 2 1 true] ∧
    (bake (demo_env (fun _ => true) (fun tr => decide (tr.length = 1)))
        (demo_args BakeSaveMode.R_BAKE_SAVE_INTERNAL false false [1, 2])
        (demo_world (demo_object 1 (fun _ => some 7)))).2.is_break = true := by
  decide

/-- The slices that `initialize_internal_images` leaves for two images of 2 by
1 pixels are `[0, 2)` and `[2, 4)`. -/
theorem initialize_internal_images_slices_witness :
    ((initialize_internal_images demo_two_surfaces
        (demo_world (demo_object 2 (fun s => some (s + 6))))).2.1.data.getD 0 default).offset +
      ((initialize_internal_images demo_two_surfaces
        (demo_world (demo_object 2 (fun s => some (s + 6))))).2.1.data.getD 0 default).width *
      ((initialize_internal_images demo_two_surfaces
        (demo_world (demo_object 2 (fun s => some (s + 6))))).2.1.data.getD 0 default).height
    ≤ ((initialize_internal_images demo_two_surfaces
        (demo_world (demo_object 2 (fun s => some (s + 6))))).2.1.data.getD 1 default).offset :=
  ((initialize_internal_images_slices (demo_env (fun _ => true) (fun _ => false))
    (demo_args BakeSaveMode.R_BAKE_SAVE_INTERNAL false false []) demo_two_surfaces
    (demo_world (demo_object 2 (fun s => some (s + 6))))).1 (by decide)
    (by
      intro j hj
      have hj2 : j < 2 := hj
      interval_cases j <;> exact ⟨_, rfl⟩)
    (by decide)).2.2.2.1 0 1 (by decide) (by decide)

/-- **C11.** When the pass kind is normal, the normal space is world and the
swizzle is (+X, +Y, +Z), or when the pass kind is not normal (whatever the
space and the swizzle), the normal space conversion of `bake` is the identity:
it calls no converter, so the trace is as it was, and it leaves the result
buffer and every other local as they were. -/
theorem bake_normal_space_identity (env : Env) (a : BakeArgs) (bi : BakeImages)
    (l : BakeLocals) (w : World)
    (h : (a.pass_type = ScenePassType.SCE_PASS_NORMAL ∧
          a.normal_space = BakeNormalSpace.R_BAKE_SPACE_WORLD ∧
          a.normal_swizzle[0]? = some BakeNormalSwizzle.R_BAKE_POSX ∧
          a.normal_swizzle[1]? = some BakeNormalSwizzle.R_BAKE_POSY ∧
          a.normal_swizzle[2]? = some BakeNormalSwizzle.R_BAKE_POSZ) ∨
         a.pass_type ≠ ScenePassType.SCE_PASS_NORMAL) :
    bake_normal_space env a bi l w = (l, w) ∧
    (bake_normal_space env a bi l w).1.result = l.result ∧
    (bake_normal_space env a bi l w).2.trace = w.trace := by
  have key : bake_normal_space env a bi l w = (l, w) := by
    unfold bake_normal_space
    rcases h with ⟨h1, h2, h3, h4, h5⟩ | h
    · simp only [h1, h2, h3, h4, h5, if_true, and_self]
    · simp only [h, if_false]
  rw [key]
  exact ⟨rfl, rfl, rfl⟩

/-- A normal bake to world space with the swizzle (+X, +Y, +Z): the result
buffer `[1, 2]` is left as it is. -/
theorem bake_normal_space_identity_witness :
    (bake_normal_space (demo_env (fun _ => true) (fun _ => false))
      { demo_args BakeSaveMode.R_BAKE_SAVE_INTERNAL false false [] with
        pass_type := ScenePassType.SCE_PASS_NORMAL }
      demo_two_surfaces
      { bake_locals_init (demo_args BakeSaveMode.R_BAKE_SAVE_INTERNAL false false [])
          (demo_world (demo_object 1 (fun _ => some 7))) with result := [1, 2] }
      (demo_world (demo_object 1 (fun _ => some 7)))).1.result = [1, 2] :=
  (bake_normal_space_identity (demo_env (fun _ => true) (fun _ => false))
    { demo_args BakeSaveMode.R_BAKE_SAVE_INTERNAL false false [] with
      pass_type := ScenePassType.SCE_PASS_NORMAL }
    demo_two_surfaces
    { bake_locals_init (demo_args BakeSaveMode.R_BAKE_SAVE_INTERNAL false false [])
        (demo_world (demo_object 1 (fun _ => some 7))) with result := [1, 2] }
    (demo_world (demo_object 1 (fun _ => some 7)))
    (Or.inl ⟨rfl, rfl, rfl, rfl, rfl⟩)).2.1

/-- **C17.** For every setting of the operator's properties the request built
by `bake_init_api_data` has `save_mode = R_BAKE_SAVE_INTERNAL`, so `bake_exec`
runs `bake` in internal mode; the split flag and the identifier are derived
from the requested save mode all the same: the request splits materials
exactly when the requested mode is external and `use_split_materials` is set,
and its identifier is the one of the pass kind when the requested mode is
external and names are automatic, and empty otherwise. -/
theorem bake_init_api_data_forces_internal (op : OperatorProperties) (C : bContext) :
    (bake_init_api_data op C).save_mode = BakeSaveMode.R_BAKE_SAVE_INTERNAL ∧
    ((bake_init_api_data op C).is_split_materials = true ↔
      op.save_mode = BakeSaveMode.R_BAKE_SAVE_EXTERNAL ∧ op.use_split_materials = true) ∧
    ((bake_init_api_data op C).identifier ≠ "" →
      op.save_mode = BakeSaveMode.R_BAKE_SAVE_EXTERNAL ∧ op.use_automatic_name = true) ∧
    (op.save_mode = BakeSaveMode.R_BAKE_SAVE_EXTERNAL → op.use_automatic_name = true →
      (bake_init_api_data op C).identifier = (C.pass_type_identifier op.type).getD "") ∧
    is_save_internal (bake_args (bake_init_api_data op C)) = true ∧
    ∀ (env : Env) (w : World),
      bake_exec env op C w
        = bake env { bake_args (bake_init_api_data op C) with
            save_mode := BakeSaveMode.R_BAKE_SAVE_INTERNAL } w := by
  refine ⟨rfl, ?_, ?_, ?_, rfl, fun _ _ => rfl⟩
  · unfold bake_init_api_data
    cases hm : op.save_mode <;> simp
  · unfold bake_init_api_data
    cases hm : op.save_mode <;> cases hn : op.use_automatic_name <;> simp
  · intro hm hn
    unfold bake_init_api_data
    simp only [hm, hn]
    cases C.pass_type_identifier op.type <;> rfl

/-- **C14 (the code while the texture-bake job runs).** When no job of the
scene is active at the call of `bake_invoke`, it starts a job of type
`WM_JOB_TYPE_OBJECT_BAKE_TEXTURE` and returns `OPERATOR_RUNNING_MODAL`; with
that job active, `bake_modal` finds no job of type `WM_JOB_TYPE_RENDER_BAKE`
and, on every event, the escape key too, returns
`OPERATOR_FINISHED | OPERATOR_PASS_THROUGH` and leaves `G.is_break` unset.
Only while a job of type `WM_JOB_TYPE_RENDER_BAKE` is active does it set the
flag on the escape key and pass other events through. -/
theorem bake_modal_tests_render_bake_job (op : OperatorProperties) (C : bContext) (w : World)
    (event : EventType)
    (hidle : ∀ j ∈ C.jobs, j.owner = C.scene_id → j.running = false ∧ j.suspended = false) :
    (bake_invoke op C w).1 = [OperatorFlag.OPERATOR_RUNNING_MODAL] ∧
    WM_jobs_test (bake_invoke op C w).2.1.jobs (bake_invoke op C w).2.1.scene_id
      JobType.WM_JOB_TYPE_OBJECT_BAKE_TEXTURE = true ∧
    (bake_invoke op C w).2.2.is_break = false ∧
    bake_modal (bake_invoke op C w).2.1 event (bake_invoke op C w).2.2
      = ([OperatorFlag.OPERATOR_FINISHED, OperatorFlag.OPERATOR_PASS_THROUGH],
         (bake_invoke op C w).2.2) ∧
    (bake_modal (bake_invoke op C w).2.1 event (bake_invoke op C w).2.2).2.is_break = false ∧
    ∀ (C1 : bContext) (w1 : World),
      WM_jobs_test C1.jobs C1.scene_id JobType.WM_JOB_TYPE_RENDER_BAKE = true →
      bake_modal C1 EventType.ESCKEY w1
        = ([OperatorFlag.OPERATOR_RUNNING_MODAL], { w1 with is_break := true }) ∧
      ∀ n, bake_modal C1 (EventType.other n) w1 = ([OperatorFlag.OPERATOR_PASS_THROUGH], w1) := by
  have hnone : ∀ t, WM_jobs_test C.jobs C.scene_id t = false := by
    intro t
    unfold WM_jobs_test
    rw [List.any_eq_false]
    intro j hj
    by_cases ho : j.owner = C.scene_id
    · obtain ⟨h1, h2⟩ := hidle j hj ho
      simp [h1, h2]
    · simp [ho]
  have hinv : bake_invoke op C w
      = ([OperatorFlag.OPERATOR_RUNNING_MODAL],
         { C with
           jobs := WM_jobs_start C.jobs C.scene_id JobType.WM_JOB_TYPE_OBJECT_BAKE_TEXTURE
             (bake_init_api_data op C)
           is_rendering := true
           modal_handler := true },
         { w with is_break := false }) := by
    unfold bake_invoke
    simp [hnone]
  have hrender : WM_jobs_test
      (WM_jobs_start C.jobs C.scene_id JobType.WM_JOB_TYPE_OBJECT_BAKE_TEXTURE
        (bake_init_api_data op C)) C.scene_id JobType.WM_JOB_TYPE_RENDER_BAKE = false := by
    have := hnone JobType.WM_JOB_TYPE_RENDER_BAKE
    unfold WM_jobs_test at this ⊢
    unfold WM_jobs_start
    rw [List.any_append, this]
    simp
  have htexture : WM_jobs_test
      (WM_jobs_start C.jobs C.scene_id JobType.WM_JOB_TYPE_OBJECT_BAKE_TEXTURE
        (bake_init_api_data op C)) C.scene_id JobType.WM_JOB_TYPE_OBJECT_BAKE_TEXTURE = true := by
    unfold WM_jobs_test WM_jobs_start
    rw [List.any_append]
    simp
  have hmodal : bake_modal (bake_invoke op C w).2.1 event (bake_invoke op C w).2.2
      = ([OperatorFlag.OPERATOR_FINISHED, OperatorFlag.OPERATOR_PASS_THROUGH],
         (bake_invoke op C w).2.2) := by
    rw [hinv]
    unfold bake_modal
    simp only [hrender, if_true]
  refine ⟨by rw [hinv], by rw [hinv]; exact htexture, by rw [hinv], hmodal, ?_, ?_⟩
  · rw [hmodal, hinv]
  · intro C1 w1 h1
    unfold bake_modal
    simp [h1]

/-- The escape key after `bake_invoke` in a context without jobs: `bake_modal`
returns `OPERATOR_FINISHED | OPERATOR_PASS_THROUGH`. -/
theorem bake_modal_tests_render_bake_job_witness :
    bake_modal (bake_invoke demo_properties demo_context demo_cage_world).2.1 EventType.ESCKEY
        (bake_invoke demo_properties demo_context demo_cage_world).2.2
      = ([OperatorFlag.OPERATOR_FINISHED, OperatorFlag.OPERATOR_PASS_THROUGH],
         (bake_invoke demo_properties demo_context demo_cage_world).2.2) :=
  (bake_modal_tests_render_bake_job demo_properties demo_context demo_cage_world
    EventType.ESCKEY (fun _ hj => absurd hj (List.not_mem_nil _))).2.2.2.1

/-- The locals with which the setup of `bake` goes to `cleanup`: `op_result`
is cancelled and `highpoly` is not allocated; `is_highpoly` is set and a cage
object is held only on the way out of the cage test, where
`restrict_flag_cage` is not assigned. -/
theorem bake_setup_error_locals (env : Env) (a : BakeArgs) (w : World) (l : BakeLocals)
    (w1 : World) (hs : bake_setup env a w = Except.error (l, w1)) :
    l.op_result = OperatorFlag.OPERATOR_CANCELLED ∧ l.highpoly = none ∧
    l.restrict_flag_cage = none ∧
    l.restrict_flag_low = w.restrictflag a.ob_low ∧
    (l.is_highpoly = true →
      a.use_selected_to_active = true ∧ l.tot_highpoly ≠ 0 ∧ a.custom_cage ≠ "") ∧
    (∀ c, l.ob_cage = some c → a.custom_cage ≠ "" ∧ (w.object c).is_mesh = false) ∧
    ((l.is_highpoly = true ∨ l.ob_cage ≠ none) → ∃ bi, l.bake_images = some bi) := by
  unfold bake_setup at hs
  cases h1 : bake_check_materials a (bake_locals_init a w) w with
  | error s1 =>
    obtain ⟨l1, w1'⟩ := s1
    rw [h1] at hs
    injection hs with hs
    injection hs with e1 e2
    subst e1
    obtain ⟨hl, _⟩ := (bake_check_materials_spec a (bake_locals_init a w) w l1 w1').1 h1
    subst hl
    refine ⟨rfl, rfl, rfl, rfl, fun h => (by cases h), fun c h => (by cases h), ?_⟩
    rintro (h | h)
    · cases h
    · exact absurd rfl h
  | ok s1 =>
    obtain ⟨l1, w1'⟩ := s1
    obtain ⟨hw1, t, hl1⟩ := (bake_check_materials_spec a (bake_locals_init a w) w l1 w1').2 h1
    subst hw1
    rw [h1] at hs
    simp only at hs
    cases h2 : bake_resolve_images env a l1 w1' with
    | error s2 =>
      obtain ⟨l2, w2⟩ := s2
      rw [h2] at hs
      injection hs with hs
      injection hs with e1 e2
      subst e1
      obtain ⟨_, bi, n, hl2⟩ := (bake_resolve_images_spec env a l1 w1' l2 w2).1 h2
      subst hl2; subst hl1
      refine ⟨rfl, rfl, rfl, rfl, fun h => (by cases h), fun c h => (by cases h), ?_⟩
      intro _
      exact ⟨bi, rfl⟩
    | ok s2 =>
      obtain ⟨l2, w2⟩ := s2
      obtain ⟨hs2, bi, n, hl2⟩ := (bake_resolve_images_spec env a l1 w1' l2 w2).2 h2
      rw [h2] at hs
      simp only at hs
      have hobj : w2.object = w1'.object := hs2.2.2.2.2
      cases h3 : bake_count_highpoly a l2 w2 with
      | error s3 =>
        obtain ⟨l3, w3⟩ := s3
        rw [h3] at hs
        injection hs with hs
        injection hs with e1 e2
        subst e1
        unfold bake_count_highpoly at h3
        simp only at h3
        split_ifs at h3
        injection h3 with h3
        injection h3 with e3 e4
        subst e3; subst hl2; subst hl1
        refine ⟨rfl, rfl, rfl, rfl, fun h => (by cases h), fun c h => (by cases h), ?_⟩
        intro _
        exact ⟨bi, rfl⟩
      | ok s3 =>
        obtain ⟨l3, w3⟩ := s3
        obtain ⟨hw3, hl3⟩ := (bake_count_highpoly_spec a l2 w2 l3 w3).2 h3
        subst hw3
        rw [h3] at hs
        simp only at hs
        unfold bake_find_cage at hs
        split_ifs at hs with hc
        have hl3' : l3.op_result = OperatorFlag.OPERATOR_CANCELLED ∧ l3.highpoly = none ∧
            l3.restrict_flag_cage = none ∧ l3.restrict_flag_low = w1'.restrictflag a.ob_low ∧
            (l3.is_highpoly = true → a.use_selected_to_active = true ∧ l3.tot_highpoly ≠ 0) ∧
            l3.bake_images = some bi := by
          rcases hl3 with ⟨_, hl3⟩ | ⟨hsel, hcount, hl3⟩
          · subst hl3; subst hl2; subst hl1
            exact ⟨rfl, rfl, rfl, rfl, fun h => (by cases h), rfl⟩
          · subst hl3; subst hl2; subst hl1
            exact ⟨rfl, rfl, rfl, rfl, fun _ => ⟨hsel, hcount⟩, rfl⟩
        obtain ⟨q1, q2, q3, q4, q5, q6⟩ := hl3'
        split at hs
        · injection hs with hs
          injection hs with e1 e2
          subst e1
          refine ⟨rfl, q2, q3, q4, fun h => ⟨(q5 h).1, (q5 h).2, hc⟩,
            fun c h => (by cases h), fun _ => ⟨bi, q6⟩⟩
        · rename_i c hfind
          split_ifs at hs with hm
          injection hs with hs
          injection hs with e1 e2
          subst e1
          refine ⟨rfl, q2, q3, q4, fun h => ⟨(q5 h).1, (q5 h).2, hc⟩, ?_, fun _ => ⟨bi, q6⟩⟩
          intro c' hc'
          injection hc' with hc'
          subst hc'
          refine ⟨hc, ?_⟩
          rw [← hobj]
          simpa using hm

/-- **C13 (the code on the way out of the cage test).** When `bake` goes to
`cleanup` holding a cage object, the cage name has resolved to an object that
is not a mesh and `restrict_flag_cage` has never been assigned: the cleanup
assigns that unassigned local to the `restrictflag` of the cage object, so
the run has no defined outcome. -/
theorem bake_cleanup_reads_unassigned_cage_flag (env : Env) (a : BakeArgs) (w : World)
    (l : BakeLocals) (w1 : World) (c : Nat)
    (hs : bake_setup env a w = Except.error (l, w1)) (hcage : l.ob_cage = some c) :
    a.custom_cage ≠ "" ∧ (w.object c).is_mesh = false ∧ l.restrict_flag_cage = none ∧
    (bake env a w).1 = BakeExit.undefined := by
  obtain ⟨_, h2, h3, _, _, h6, _⟩ := bake_setup_error_locals env a w l w1 hs
  obtain ⟨h7, h8⟩ := h6 c hcage
  refine ⟨h7, h8, h3, ?_⟩
  have hbake : bake env a w = bake_cleanup a l w1 := by
    unfold bake
    rw [hs]
  rw [hbake]
  unfold bake_cleanup
  cases hh : l.is_highpoly <;> simp [h2, h3, hcage]

/-- A bake of object 0 with the cage name "Lamp", which is object 2 and not a
mesh. -/
theorem bake_cleanup_reads_unassigned_cage_flag_witness :
    (bake (demo_env (fun _ => true) (fun _ => false))
      { demo_args BakeSaveMode.R_BAKE_SAVE_INTERNAL false false [] with custom_cage := "Lamp" }
      demo_cage_world).1 = BakeExit.undefined := by
  obtain ⟨l, w1, hs, hc⟩ : ∃ l w1,
      bake_setup (demo_env (fun _ => true) (fun _ => false))
        { demo_args BakeSaveMode.R_BAKE_SAVE_INTERNAL false false [] with
          custom_cage := "Lamp" }
        demo_cage_world = Except.error (l, w1) ∧ l.ob_cage = some 2 := ⟨_, _, rfl, rfl⟩
  exact (bake_cleanup_reads_unassigned_cage_flag (demo_env (fun _ => true) (fun _ => false))
    { demo_args BakeSaveMode.R_BAKE_SAVE_INTERNAL false false [] with custom_cage := "Lamp" }
    demo_cage_world l w1 2 hs hc).2.2.2

/-- **C15 (the code on the way out of the cage test).** When `bake` goes to
`cleanup` with `is_highpoly` set without having reached the evaluation, it
comes from the cage test of a selected-to-active bake with at least one
high-poly object: `highpoly` has not been allocated, and the loop of the
cleanup over `tot_highpoly` entries reads it all the same, so the run has no
defined outcome. -/
theorem bake_cleanup_reads_unallocated_highpoly (env : Env) (a : BakeArgs) (w : World)
    (l : BakeLocals) (w1 : World)
    (hs : bake_setup env a w = Except.error (l, w1)) (hhigh : l.is_highpoly = true) :
    l.highpoly = none ∧ l.tot_highpoly ≠ 0 ∧ a.use_selected_to_active = true ∧
    a.custom_cage ≠ "" ∧ (bake env a w).1 = BakeExit.undefined := by
  obtain ⟨_, h2, _, _, h5, _, _⟩ := bake_setup_error_locals env a w l w1 hs
  obtain ⟨h7, h8, h9⟩ := h5 hhigh
  refine ⟨h2, h8, h7, h9, ?_⟩
  have hbake : bake env a w = bake_cleanup a l w1 := by
    unfold bake
    rw [hs]
  rw [hbake]
  unfold bake_cleanup
  simp [h2, hhigh]

/-- A selected-to-active bake of object 0 from the high-poly object 1, with
the cage name "Missing", which no object has. -/
theorem bake_cleanup_reads_unallocated_highpoly_witness :
    (bake (demo_env (fun _ => true) (fun _ => false))
      { demo_args BakeSaveMode.R_BAKE_SAVE_INTERNAL false false [1] with
        custom_cage := "Missing" }
      demo_cage_world).1 = BakeExit.undefined := by
  obtain ⟨l, w1, hs, hh⟩ : ∃ l w1,
      bake_setup (demo_env (fun _ => true) (fun _ => false))
        { demo_args BakeSaveMode.R_BAKE_SAVE_INTERNAL false false [1] with
          custom_cage := "Missing" }
        demo_cage_world = Except.error (l, w1) ∧ l.is_highpoly = true := ⟨_, _, rfl, rfl⟩
  exact (bake_cleanup_reads_unallocated_highpoly (demo_env (fun _ => true) (fun _ => false))
    { demo_args BakeSaveMode.R_BAKE_SAVE_INTERNAL false false [1] with
      custom_cage := "Missing" }
    demo_cage_world l w1 hs hh).2.2.2.2

/-! ### The writer calls of the save stage: flags and file names -/

theorem Event.write_not_evaluate (e : Event) (h : e.is_write = true) :
    e.evaluate_ok = none ∧ e.is_converter = false := by
  cases e <;> simp_all [Event.is_write, Event.evaluate_ok, Event.is_converter]

theorem Event.evaluate_not_ok (e : Event) (h : e.is_evaluate = true) :
    e.write_ok = none ∧ e.write_name = none ∧ e.is_converter = false := by
  cases e <;> simp_all [Event.is_evaluate, Event.write_ok, Event.write_name, Event.is_converter]

theorem bake_eq_cleanup (env : Env) (a : BakeArgs) (w : World) :
    bake env a w
      = bake_cleanup a (bake_before_cleanup env a w).1 (bake_before_cleanup env a w).2 := by
  unfold bake bake_before_cleanup
  cases bake_setup env a w with
  | error s => rfl
  | ok s => rfl

/-- The restoring loop of the cleanup: an object of the array gets the flag
saved for it, any other object keeps its flag. -/
theorem cleanup_highpoly_flags (f0 : Nat → RestrictFlag) :
    ∀ (hp : List BakeHighPolyData) (w : World),
      (∀ h ∈ hp, h.restrict_flag = f0 h.ob) →
      ∀ ob, (cleanup_highpoly w hp).restrictflag ob
        = if ob ∈ hp.map (fun h => h.ob) then f0 ob else w.restrictflag ob := by
  intro hp
  induction hp with
  | nil => intro w _ ob; simp [cleanup_highpoly]
  | cons h rest ih =>
    intro w hcap ob
    have hrest : ∀ h' ∈ rest, h'.restrict_flag = f0 h'.ob :=
      fun h' hh' => hcap h' (List.mem_cons_of_mem h hh')
    have hstep : cleanup_highpoly w (h :: rest)
        = cleanup_highpoly (set_restrictflag w h.ob h.restrict_flag) rest := by
      unfold cleanup_highpoly
      rw [List.foldl_cons]
    rw [hstep, ih (set_restrictflag w h.ob h.restrict_flag) hrest ob]
    by_cases hin : ob ∈ rest.map (fun h => h.ob)
    · simp [hin]
    · by_cases hob : ob = h.ob
      · subst hob
        simp [hin, set_restrictflag, hcap h (List.mem_cons_self h rest)]
      · have : (set_restrictflag w h.ob h.restrict_flag).restrictflag ob = w.restrictflag ob := by
          simp [set_restrictflag, Function.update_noteq hob]
        simp [hin, hob, this]

/-- The loop that fills the `highpoly` array: for distinct selected objects
each entry holds the flag its object had before the loop, the entries are the
selected objects other than the low-poly one, and the flags of all other
objects are as they were. -/
theorem bake_populate_highpoly_flags (a : BakeArgs) (n : Nat) :
    ∀ (objs : List Nat) (w : World), objs.Nodup →
      (bake_populate_highpoly a n objs w).1.map (fun h => h.ob)
        = objs.filter (fun ob_iter => ob_iter ≠ a.ob_low) ∧
      (∀ h ∈ (bake_populate_highpoly a n objs w).1, h.restrict_flag = w.restrictflag h.ob) ∧
      (∀ ob, ob ∉ objs.filter (fun ob_iter => ob_iter ≠ a.ob_low) →
        (bake_populate_highpoly a n objs w).2.restrictflag ob = w.restrictflag ob) := by
  intro objs
  induction objs with
  | nil => intro w _; exact ⟨rfl, by simp [bake_populate_highpoly], fun _ _ => rfl⟩
  | cons o rest ih =>
    intro w hnd
    obtain ⟨ho, hnd'⟩ := List.nodup_cons.1 hnd
    unfold bake_populate_highpoly
    by_cases hlow : o = a.ob_low
    · simp only [hlow, if_true]
      obtain ⟨h1, h2, h3⟩ := ih w hnd'
      refine ⟨?_, h2, ?_⟩
      · rw [h1]; simp
      · intro ob hob
        apply h3
        simpa using hob
    · simp only [hlow, if_false]
      obtain ⟨h1, h2, h3⟩ := ih (set_restrict_render w o false) hnd'
      have hother : ∀ ob, ob ≠ o →
          (set_restrict_render w o false).restrictflag ob = w.restrictflag ob := by
        intro ob hob
        simp [set_restrict_render, Function.update_noteq hob]
      refine ⟨?_, ?_, ?_⟩
      · simp [h1, hlow]
      · intro h hh
        rcases List.mem_cons.1 hh with hh | hh
        · rw [hh]
        · rw [h2 h hh]
          apply hother
          have hmem : h.ob ∈ rest.filter (fun ob_iter => ob_iter ≠ a.ob_low) := by
            rw [← h1]
            exact List.mem_map_of_mem _ hh
          intro heq
          exact ho (heq ▸ (List.mem_filter.1 hmem).1)
      · intro ob hob
        have hob' : ob ≠ o ∧ ob ∉ rest.filter (fun ob_iter => ob_iter ≠ a.ob_low) := by
          simpa [hlow] using hob
        rw [h3 ob hob'.2]
        exact hother ob hob'.1

theorem zipWith_pixel_array_frame (g : Nat → List BakePixel) :
    ∀ (hp : List BakeHighPolyData) (is : List Nat), hp.length ≤ is.length →
      (List.zipWith (fun (h : BakeHighPolyData) i => { h with pixel_array := g i }) hp is).map
          (fun h => h.ob) = hp.map (fun h => h.ob) ∧
      ∀ h' ∈ List.zipWith (fun (h : BakeHighPolyData) i => { h with pixel_array := g i }) hp is,
        ∃ h ∈ hp, h'.ob = h.ob ∧ h'.restrict_flag = h.restrict_flag := by
  intro hp
  induction hp with
  | nil => intro is _; simp
  | cons h rest ih =>
    intro is hlen
    cases is with
    | nil => simp at hlen
    | cons i is' =>
      have hlen' : rest.length ≤ is'.length := by
        simp only [List.length_cons] at hlen
        omega
      obtain ⟨h1, h2⟩ := ih is' hlen'
      refine ⟨?_, ?_⟩
      · simp only [List.zipWith_cons_cons, List.map_cons, h1]
      · intro h' hh'
        simp only [List.zipWith_cons_cons] at hh'
        rcases List.mem_cons.1 hh' with hh' | hh'
        · exact ⟨h, List.mem_cons_self h rest, by rw [hh'], by rw [hh']⟩
        · obtain ⟨h0, hh0, e1, e2⟩ := h2 h' hh'
          exact ⟨h0, List.mem_cons_of_mem h hh0, e1, e2⟩

/-- The high-poly branch of `bake` with distinct selected objects: the entries
of `highpoly` are the selected objects other than the low-poly one, each with
the flag its object had before, and the flags of all objects other than
these, the low-poly object and the cage object are as they were. -/
theorem bake_highpoly_flags (env : Env) (a : BakeArgs) (bi : BakeImages) (l : BakeLocals)
    (w : World) (hnd : a.selected_objects.Nodup) :
    ∃ hp, (bake_highpoly env a bi l w).1.highpoly = some hp ∧
      hp.map (fun h => h.ob) = a.selected_objects.filter (fun ob_iter => ob_iter ≠ a.ob_low) ∧
      (∀ h ∈ hp, h.restrict_flag = w.restrictflag h.ob) ∧
      ∀ ob, ob ∉ hp.map (fun h => h.ob) → ob ≠ a.ob_low → l.ob_cage ≠ some ob →
        (bake_highpoly env a bi l w).2.restrictflag ob = w.restrictflag ob := by
  obtain ⟨p1, p2, p3⟩ := bake_populate_highpoly_flags a l.num_pixels a.selected_objects w hnd
  unfold bake_highpoly
  simp only
  generalize hz : List.zipWith _ (bake_populate_highpoly a l.num_pixels a.selected_objects w).1 _
    = highpoly
  have hzip : highpoly.map (fun h => h.ob)
        = (bake_populate_highpoly a l.num_pixels a.selected_objects w).1.map (fun h => h.ob) ∧
      ∀ h' ∈ highpoly,
        ∃ h ∈ (bake_populate_highpoly a l.num_pixels a.selected_objects w).1,
          h'.ob = h.ob ∧ h'.restrict_flag = h.restrict_flag := by
    rw [← hz]
    exact zipWith_pixel_array_frame _ _ _ (by simp)
  obtain ⟨z1, z2⟩ := hzip
  obtain ⟨evs, _, h2, _⟩ := bake_highpoly_loop_spec env a l.num_pixels highpoly l.ok
    l.result (set_restrict_render (bake_populate_highpoly a l.num_pixels a.selected_objects w).2
      a.ob_low true)
  generalize bake_highpoly_loop env a l.num_pixels highpoly l.ok l.result
    (set_restrict_render (bake_populate_highpoly a l.num_pixels a.selected_objects w).2
      a.ob_low true) = r at h2 ⊢
  have hflag : ∀ ob, ob ∉ highpoly.map (fun h => h.ob) → ob ≠ a.ob_low →
      r.2.2.restrictflag ob = w.restrictflag ob := by
    intro ob hob hlow
    rw [h2.2.2.2.2.1]
    rw [z1, p1] at hob
    rw [← p3 ob hob]
    simp [set_restrict_render, Function.update_noteq hlow]
  refine ⟨highpoly, ?_, by rw [z1, p1], ?_, ?_⟩
  · rfl
  · intro h' hh'
    obtain ⟨h0, hh0, e1, e2⟩ := z2 h' hh'
    rw [e1, e2]
    exact p2 h0 hh0
  · intro ob hob hlow hcage
    cases hc : l.ob_cage with
    | none => exact hflag ob hob hlow
    | some c =>
      have hne : ob ≠ c := by
        intro h
        apply hcage
        rw [hc, h]
      simp only
      rw [← hflag ob hob hlow]
      simp [set_restrict_render, Function.update_noteq hne]

theorem bake_save_flags (env : Env) (a : BakeArgs) (bi : BakeImages) (l : BakeLocals)
    (w : World) :
    (bake_save env a bi l w).2.restrictflag = w.restrictflag ∧
    (bake_save env a bi l w).1.highpoly = l.highpoly := by
  unfold bake_save
  cases hok : l.ok with
  | true =>
    simp only [if_true]
    obtain ⟨_, _, _, _, _, s5, _, s7, _⟩ := bake_save_loop_spec env a bi bi.size 0 l w
    exact ⟨s5, s7⟩
  | false =>
    simp only [Bool.false_eq_true, if_false]
    exact ⟨rfl, trivial⟩

/-- The `highpoly` array and the flags of the objects after the run of `bake`
that follows a successful setup, for distinct selected objects. -/
theorem bake_run_flags (env : Env) (a : BakeArgs) (l : BakeLocals) (w : World)
    (bi : BakeImages) (hbi : l.bake_images = some bi) (hnd : a.selected_objects.Nodup) :
    (l.is_highpoly = false →
      (bake_run env a l w).1.highpoly = l.highpoly ∧
      ∀ ob, ob ≠ a.ob_low → (bake_run env a l w).2.restrictflag ob = w.restrictflag ob) ∧
    (l.is_highpoly = true →
      ∃ hp, (bake_run env a l w).1.highpoly = some hp ∧
        hp.map (fun h => h.ob)
          = a.selected_objects.filter (fun ob_iter => ob_iter ≠ a.ob_low) ∧
        (∀ h ∈ hp, h.restrict_flag = w.restrictflag h.ob) ∧
        ∀ ob, ob ∉ hp.map (fun h => h.ob) → ob ≠ a.ob_low → l.ob_cage ≠ some ob →
          (bake_run env a l w).2.restrictflag ob = w.restrictflag ob) := by
  unfold bake_run
  simp only [hbi]
  have hE : (l.is_highpoly = false →
        bake_evaluation env a bi (bake_allocate l w).1 (bake_allocate l w).2
          = bake_direct env a bi (bake_allocate l w).1 (bake_allocate l w).2) ∧
      (l.is_highpoly = true →
        bake_evaluation env a bi (bake_allocate l w).1 (bake_allocate l w).2
          = bake_highpoly env a bi (bake_allocate l w).1 (bake_allocate l w).2) := by
    unfold bake_evaluation
    have : (bake_allocate l w).1.is_highpoly = l.is_highpoly := rfl
    rw [this]
    refine ⟨fun h => ?_, fun h => ?_⟩ <;> simp [h]
  obtain ⟨d1, d2⟩ : (bake_direct env a bi (bake_allocate l w).1
        (bake_allocate l w).2).1.highpoly = l.highpoly ∧
      ∀ ob, ob ≠ a.ob_low →
        (bake_direct env a bi (bake_allocate l w).1 (bake_allocate l w).2).2.restrictflag ob
          = w.restrictflag ob := by
    refine ⟨rfl, ?_⟩
    intro ob hob
    unfold bake_direct
    simp only
    rw [bake_evaluate_spec]
    simp [emit, set_restrict_render, bake_allocate, Function.update_noteq hob]
  refine ⟨fun hh => ?_, fun hh => ?_⟩
  · rw [hE.1 hh]
    generalize bake_direct env a bi (bake_allocate l w).1 (bake_allocate l w).2 = r2 at d1 d2 ⊢
    obtain ⟨_, _, _, n3, _, _, n6, _⟩ := bake_normal_space_spec env a bi r2.1 r2.2
    generalize bake_normal_space env a bi r2.1 r2.2 = r3 at n3 n6 ⊢
    obtain ⟨s1, s2⟩ := bake_save_flags env a bi r3.1 r3.2
    refine ⟨by rw [s2, n6, d1], fun ob hob => ?_⟩
    rw [s1, n3.2.2.2.2.1]
    exact d2 ob hob
  · rw [hE.2 hh]
    obtain ⟨hp, f1, f2, f3, f4⟩ := bake_highpoly_flags env a bi (bake_allocate l w).1
      (bake_allocate l w).2 hnd
    generalize bake_highpoly env a bi (bake_allocate l w).1 (bake_allocate l w).2 = r2
      at f1 f4 ⊢
    obtain ⟨_, _, _, n3, _, _, n6, _⟩ := bake_normal_space_spec env a bi r2.1 r2.2
    generalize bake_normal_space env a bi r2.1 r2.2 = r3 at n3 n6 ⊢
    obtain ⟨s1, s2⟩ := bake_save_flags env a bi r3.1 r3.2
    refine ⟨hp, by rw [s2, n6, f1], f2, f3, fun ob h1 h2 h3 => ?_⟩
    rw [s1, n3.2.2.2.2.1]
    exact f4 ob h1 h2 h3

/-- After a successful setup of `bake` that found a cage object,
`restrict_flag_cage` holds the flag the cage object had at entry. -/
theorem bake_setup_cage_flag (env : Env) (a : BakeArgs) (w : World) (l : BakeLocals)
    (w1 : World) (hs : bake_setup env a w = Except.ok (l, w1)) :
    ∀ c, l.ob_cage = some c → l.restrict_flag_cage = some (w.restrictflag c) := by
  unfold bake_setup at hs
  cases h1 : bake_check_materials a (bake_locals_init a w) w with
  | error s1 => rw [h1] at hs; cases hs
  | ok s1 =>
    obtain ⟨l1, w1'⟩ := s1
    obtain ⟨hw1, t, hl1⟩ := (bake_check_materials_spec a (bake_locals_init a w) w l1 w1').2 h1
    rw [h1] at hs
    simp only at hs
    cases h2 : bake_resolve_images env a l1 w1' with
    | error s2 => rw [h2] at hs; cases hs
    | ok s2 =>
      obtain ⟨l2, w2⟩ := s2
      obtain ⟨hs2, bi, n, hl2⟩ := (bake_resolve_images_spec env a l1 w1' l2 w2).2 h2
      rw [h2] at hs
      simp only at hs
      cases h3 : bake_count_highpoly a l2 w2 with
      | error s3 => rw [h3] at hs; cases hs
      | ok s3 =>
        obtain ⟨l3, w3⟩ := s3
        obtain ⟨hw3, hl3⟩ := (bake_count_highpoly_spec a l2 w2 l3 w3).2 h3
        rw [h3] at hs
        simp only at hs
        obtain ⟨_, hl4⟩ := (bake_find_cage_spec a l3 w3 l w1).2 hs
        have hflag : w3.restrictflag = w.restrictflag := by
          rw [hw3, hs2.2.2.2.1, hw1]
        have hnone : l3.ob_cage = none := by
          rcases hl3 with ⟨_, hl3⟩ | ⟨_, _, hl3⟩ <;> subst hl3 <;> subst hl2 <;> subst hl1 <;> rfl
        intro c hc
        rcases hl4 with hl4 | ⟨c', hl4⟩
        · subst hl4
          rw [hnone] at hc
          cases hc
        · subst hl4
          injection hc with hc
          subst hc
          show some (w3.restrictflag c') = _
          rw [hflag]

/-- When the cleanup of `bake` returns, the flags of the objects are: for the
cage object the saved `restrict_flag_cage`, else for the low-poly object the
saved `restrict_flag_low`, else what the restoring loop over `highpoly`
leaves. -/
theorem bake_cleanup_flags (a : BakeArgs) (l : BakeLocals) (w : World) (r : OperatorFlag)
    (h : (bake_cleanup a l w).1 = BakeExit.returned r) :
    ∃ hp, (l.is_highpoly = true → l.highpoly = some hp) ∧ (l.is_highpoly = false → hp = []) ∧
      (∀ c, l.ob_cage = some c →
        ∃ f, l.restrict_flag_cage = some f ∧ (bake_cleanup a l w).2.restrictflag c = f) ∧
      (∀ ob, l.ob_cage ≠ some ob →
        (bake_cleanup a l w).2.restrictflag ob
          = if ob = a.ob_low then l.restrict_flag_low
            else (cleanup_highpoly w (hp.take l.tot_highpoly)).restrictflag ob) := by
  unfold bake_cleanup at h ⊢
  cases hh : l.is_highpoly with
  | false =>
    simp only [hh, Bool.false_eq_true, if_false] at h ⊢
    refine ⟨[], fun h' => (by cases h'), fun _ => rfl, ?_⟩
    cases hc : l.ob_cage with
    | none =>
      simp only [hc] at h ⊢
      cases hb : l.bake_images with
      | none => rw [hb] at h; cases h
      | some bi =>
        refine ⟨fun c h' => (by cases h'), fun ob _ => ?_⟩
        by_cases hob : ob = a.ob_low
        · subst hob
          simp [set_restrictflag, cleanup_highpoly]
        · simp [set_restrictflag, cleanup_highpoly, Function.update_noteq hob, hob]
    | some c =>
      simp only [hc] at h ⊢
      cases hf : l.restrict_flag_cage with
      | none => rw [hf] at h; cases h
      | some f =>
        simp only [hf] at h ⊢
        cases hb : l.bake_images with
        | none => rw [hb] at h; cases h
        | some bi =>
          refine ⟨fun c' h' => ?_, fun ob hne => ?_⟩
          · injection h' with h'
            subst h'
            exact ⟨f, rfl, by simp [set_restrictflag]⟩
          · have hne' : ob ≠ c := fun e => hne (by rw [e])
            by_cases hob : ob = a.ob_low
            · subst hob
              simp [set_restrictflag, cleanup_highpoly, Function.update_noteq hne']
            · simp [set_restrictflag, cleanup_highpoly, Function.update_noteq hob,
                Function.update_noteq hne', hob]
  | true =>
    simp only [hh, if_true] at h ⊢
    cases hhp : l.highpoly with
    | none => rw [hhp] at h; cases h
    | some hp =>
      simp only [hhp] at h ⊢
      refine ⟨hp, fun _ => rfl, fun h' => (by cases h'), ?_⟩
      cases hc : l.ob_cage with
      | none =>
        simp only [hc] at h ⊢
        cases hb : l.bake_images with
        | none => rw [hb] at h; cases h
        | some bi =>
          refine ⟨fun c h' => (by cases h'), fun ob _ => ?_⟩
          by_cases hob : ob = a.ob_low
          · subst hob
            simp [set_restrictflag]
          · simp [set_restrictflag, Function.update_noteq hob, hob]
      | some c =>
        simp only [hc] at h ⊢
        cases hf : l.restrict_flag_cage with
        | none => rw [hf] at h; cases h
        | some f =>
          simp only [hf] at h ⊢
          cases hb : l.bake_images with
          | none => rw [hb] at h; cases h
          | some bi =>
            refine ⟨fun c' h' => ?_, fun ob hne => ?_⟩
            · injection h' with h'
              subst h'
              exact ⟨f, rfl, by simp [set_restrictflag]⟩
            · have hne' : ob ≠ c := fun e => hne (by rw [e])
              by_cases hob : ob = a.ob_low
              · subst hob
                simp [set_restrictflag, Function.update_noteq hne']
              · simp [set_restrictflag, Function.update_noteq hob,
                  Function.update_noteq hne', hob]

/-- For distinct selected objects, every run of `bake` that reaches its
`return` without reading an unassigned local leaves the `restrictflag` of
every object (low-poly, high-poly, cage and all others) as it was at entry. -/
theorem bake_restores_restrictflag (env : Env) (a : BakeArgs) (w : World)
    (hnd : a.selected_objects.Nodup) (r : OperatorFlag)
    (hret : (bake env a w).1 = BakeExit.returned r) :
    (bake env a w).2.restrictflag = w.restrictflag := by
  funext ob
  rw [bake_eq_cleanup] at hret ⊢
  obtain ⟨hp, c1, c2, c3, c4⟩ := bake_cleanup_flags a _ _ r hret
  cases hs : bake_setup env a w with
  | error s =>
    obtain ⟨l, w1⟩ := s
    have hbefore : bake_before_cleanup env a w = (l, w1) := by
      unfold bake_before_cleanup
      rw [hs]
    rw [hbefore] at c1 c2 c3 c4 ⊢
    simp only at c1 c2 c3 c4 ⊢
    obtain ⟨_, e2, e3, e4, _⟩ := bake_setup_error_locals env a w l w1 hs
    have hflag : w1.restrictflag = w.restrictflag :=
      ((bake_setup_spec env a w l w1).1 hs).2.2.2.1
    have hcage : l.ob_cage ≠ some ob := by
      intro hc
      obtain ⟨f, hf, _⟩ := c3 ob hc
      rw [e3] at hf
      cases hf
    have hhigh : l.is_highpoly = false := by
      cases hh : l.is_highpoly with
      | false => rfl
      | true =>
        have := c1 hh
        rw [e2] at this
        cases this
    rw [c4 ob hcage, c2 hhigh]
    by_cases hob : ob = a.ob_low
    · rw [if_pos hob, e4, hob]
    · rw [if_neg hob]
      rw [List.take_nil]
      show w1.restrictflag ob = _
      rw [hflag]
  | ok s =>
    obtain ⟨l, w1⟩ := s
    have hbefore : bake_before_cleanup env a w = bake_run env a l w1 := by
      unfold bake_before_cleanup
      rw [hs]
    rw [hbefore] at c1 c2 c3 c4 ⊢
    obtain ⟨hsw, _, _, _, hlow, ⟨bi, hbi⟩, _, hhigh, hcount⟩ :=
      (bake_setup_spec env a w l w1).2 hs
    have hflag : w1.restrictflag = w.restrictflag := hsw.2.2.2.1
    obtain ⟨_, _, _, _, _, _, _, _, _, _, hctl, _⟩ := bake_run_spec env a l w1 bi hbi
    obtain ⟨g1, g2, g3, g4, g5, _, _⟩ := hctl
    obtain ⟨f1, f2⟩ := bake_run_flags env a l w1 bi hbi hnd
    by_cases hcage : (bake_run env a l w1).1.ob_cage = some ob
    · obtain ⟨f, hf, hfin⟩ := c3 ob hcage
      rw [hfin]
      rw [g1] at hcage
      rw [g2, bake_setup_cage_flag env a w l w1 hs ob hcage] at hf
      injection hf with hf
      exact hf.symm
    · rw [c4 ob hcage]
      by_cases hob : ob = a.ob_low
      · rw [if_pos hob, g5, hlow, hob]
      · rw [if_neg hob]
        rw [g1] at hcage
        cases hh : l.is_highpoly with
        | false =>
          rw [c2 (by rw [g3, hh]), List.take_nil]
          show (bake_run env a l w1).2.restrictflag ob = _
          rw [(f1 hh).2 ob hob, hflag]
        | true =>
          obtain ⟨hp', q1, q2, q3, q4⟩ := f2 hh
          have hhp := c1 (by rw [g3, hh])
          rw [q1] at hhp
          injection hhp with hhp
          subst hhp
          have hsel : a.use_selected_to_active = true := by rw [← hhigh, hh]
          have hlen : hp'.length ≤ (bake_run env a l w1).1.tot_highpoly := by
            rw [g4, (hcount hsel).1, ← q2, List.length_map]
          rw [List.take_of_length_le hlen,
            cleanup_highpoly_flags w1.restrictflag hp' _ q3 ob]
          by_cases hin : ob ∈ hp'.map (fun h => h.ob)
          · rw [if_pos hin, hflag]
          · rw [if_neg hin, q4 ob hin hob hcage, hflag]

/-! ### The colour space transform in a bake of a non-colour pass -/

theorem write_internal_bake_pixels_noncolor (env : Env) (image : Option Nat)
    (pixel_array : List BakePixel) (buffer : List Texel) (width height margin : Nat)
    (is_clear : Bool) (w : World) :
    (write_internal_bake_pixels env image pixel_array buffer width height margin is_clear
        true w).2.1 = buffer ∧
    (write_internal_bake_pixels env image pixel_array buffer width height margin is_clear
        true w).2.2.trace = w.trace := by
  unfold write_internal_bake_pixels
  simp only
  split
  · simp [internal_colormanagement, set_ibuf]
  · exact ⟨rfl, rfl⟩

theorem write_external_bake_pixels_noncolor (env : Env) (filepath : PathName)
    (pixel_array : List BakePixel) (buffer : List Texel) (width height margin : Nat)
    (im_format : ImageFormatData) (w : World) :
    (write_external_bake_pixels env filepath pixel_array buffer width height margin
        im_format true w).2.1 = buffer ∧
    (write_external_bake_pixels env filepath pixel_array buffer width height margin
        im_format true w).2.2.trace = w.trace := by
  unfold write_external_bake_pixels
  simp only
  split
  · exact ⟨rfl, rfl⟩
  · unfold external_colormanagement
    split <;> simp

/-- One pass of the body of the save loop for a non-colour pass: the writer
call is the only call. -/
theorem bake_save_surface_noncolor (env : Env) (a : BakeArgs) (bi : BakeImages) (i : Nat)
    (l : BakeLocals) (w : World) (hnc : is_noncolor_pass a.pass_type = true) :
    ∃ wev, (bake_save_surface env a bi i l w).2.trace = w.trace ++ [wev] ∧
      wev.is_write = true := by
  unfold bake_save_surface
  simp only [hnc]
  split
  · have h := (write_internal_bake_pixels_noncolor env (bi.data.getD i default).image
      (l.pixel_array_low.drop (bi.data.getD i default).offset)
      (l.result.drop (bi.data.getD i default).offset) (bi.data.getD i default).width
      (bi.data.getD i default).height a.margin a.is_clear w).2
    generalize write_internal_bake_pixels env (bi.data.getD i default).image
      (l.pixel_array_low.drop (bi.data.getD i default).offset)
      (l.result.drop (bi.data.getD i default).offset) (bi.data.getD i default).width
      (bi.data.getD i default).height a.margin a.is_clear true w = r at h ⊢
    cases hok : r.1 <;> simp [BKE_report, emit, h, Event.is_write]
  · have h := (write_external_bake_pixels_noncolor env
      (bake_file_name env a l w i (bi.data.getD i default))
      (l.pixel_array_low.drop (bi.data.getD i default).offset)
      (l.result.drop (bi.data.getD i default).offset) (bi.data.getD i default).width
      (bi.data.getD i default).height a.margin a.scene.im_format w).2
    generalize write_external_bake_pixels env
      (bake_file_name env a l w i (bi.data.getD i default))
      (l.pixel_array_low.drop (bi.data.getD i default).offset)
      (l.result.drop (bi.data.getD i default).offset) (bi.data.getD i default).width
      (bi.data.getD i default).height a.margin a.scene.im_format true w = r at h ⊢
    cases hok : r.1 <;> simp [BKE_report, emit, h, Event.is_write]

theorem bake_save_loop_noncolor (env : Env) (a : BakeArgs) (bi : BakeImages)
    (hnc : is_noncolor_pass a.pass_type = true) :
    ∀ (k i : Nat) (l : BakeLocals) (w : World),
      ∃ tr, (bake_save_loop env a bi k i l w).2.trace = w.trace ++ tr ∧
        ∀ e ∈ tr, e.is_write = true := by
  intro k
  induction k with
  | zero => intro i l w; exact ⟨[], by simp [bake_save_loop], by simp⟩
  | succ k ih =>
    intro i l w
    obtain ⟨wev, s1, s2⟩ := bake_save_surface_noncolor env a bi i l w hnc
    unfold bake_save_loop
    simp only
    split_ifs
    · exact ⟨[wev], s1, by simpa using s2⟩
    · obtain ⟨tr, t1, t2⟩ := ih (i + 1) (bake_save_surface env a bi i l w).1
        (bake_save_surface env a bi i l w).2
      refine ⟨wev :: tr, by rw [t1, s1]; simp, ?_⟩
      intro e he
      rcases List.mem_cons.1 he with he | he
      · rw [he]; exact s2
      · exact t2 e he

theorem Event.write_not_transform (e : Event) (h : e.is_write = true) :
    e.is_transform = false := by
  cases e <;> simp_all [Event.is_write, Event.is_transform]

theorem Event.evaluate_not_transform (e : Event) (h : e.is_evaluate = true) :
    e.is_transform = false := by
  cases e <;> simp_all [Event.is_evaluate, Event.is_transform]

/-- A run of `bake` of a non-colour pass makes no colour space transform. -/
theorem bake_noncolor_trace (env : Env) (a : BakeArgs) (w : World)
    (hnc : is_noncolor_pass a.pass_type = true) :
    ∃ tr, (bake env a w).2.trace = w.trace ++ tr ∧ ∀ e ∈ tr, e.is_transform = false := by
  rw [bake_eq_cleanup, (bake_cleanup_spec a _ _).1]
  unfold bake_before_cleanup
  cases hs : bake_setup env a w with
  | error s =>
    obtain ⟨l, w1⟩ := s
    obtain ⟨⟨cl, c1, c2⟩, _⟩ := (bake_setup_spec env a w l w1).1 hs
    refine ⟨cl, c1, ?_⟩
    intro e he
    rw [c2 e he]
    rfl
  | ok s =>
    obtain ⟨l, w1⟩ := s
    obtain ⟨⟨⟨cl, c1, c2⟩, _⟩, _, _, _, _, ⟨bi, hbi⟩, _⟩ := (bake_setup_spec env a w l w1).2 hs
    simp only
    unfold bake_run
    simp only [hbi]
    obtain ⟨evs, e1, _, _, _, _, _, e7⟩ := bake_evaluation_spec env a bi
      (bake_allocate l w1).1 (bake_allocate l w1).2
    generalize bake_evaluation env a bi (bake_allocate l w1).1 (bake_allocate l w1).2 = r2
      at e1 ⊢
    obtain ⟨cv, n1, n2, _⟩ := bake_normal_space_spec env a bi r2.1 r2.2
    generalize bake_normal_space env a bi r2.1 r2.2 = r3 at n1 ⊢
    have htr : r3.2.trace = w.trace ++ (cl ++ evs ++ cv) := by
      rw [n1, e1]
      show w1.trace ++ evs ++ cv = _
      rw [c1]
      simp
    have hpre : ∀ e ∈ cl ++ evs ++ cv, e.is_transform = false := by
      intro e he
      rcases List.mem_append.1 he with he | he
      · rcases List.mem_append.1 he with he | he
        · rw [c2 e he]; rfl
        · exact Event.evaluate_not_transform e (e7.1 e he)
      · exact (n2 e he).2.2
    unfold bake_save
    split_ifs
    · obtain ⟨sv, s1, s2⟩ := bake_save_loop_noncolor env a bi hnc bi.size 0 r3.1 r3.2
      refine ⟨cl ++ evs ++ cv ++ sv, by rw [s1, htr]; simp, ?_⟩
      intro e he
      rcases List.mem_append.1 he with he | he
      · exact hpre e he
      · exact Event.write_not_transform e (s2 e he)
    · exact ⟨cl ++ evs ++ cv, htr, hpre⟩

/-- **C10.** `is_noncolor_pass` is true exactly for the seven pass kinds Z,
normal, vector, object index, UV, ray hits and material index; with
`is_noncolor = true` neither writer calls the colour space transform: each
leaves `buffer` as it was and makes no call at all; and `bake` hands
`is_noncolor_pass(pass_type)` to the writers, so a run of `bake` of one of the
seven pass kinds makes no colour space transform at all. -/
theorem is_noncolor_pass_bypasses_transform :
    (∀ pass_type, is_noncolor_pass pass_type = true ↔
      pass_type ∈ [ScenePassType.SCE_PASS_Z, ScenePassType.SCE_PASS_NORMAL,
        ScenePassType.SCE_PASS_VECTOR, ScenePassType.SCE_PASS_INDEXOB,
        ScenePassType.SCE_PASS_UV, ScenePassType.SCE_PASS_RAYHITS,
        ScenePassType.SCE_PASS_INDEXMA]) ∧
    (∀ (env : Env) (image : Option Nat) (pixel_array : List BakePixel) (buffer : List Texel)
        (width height margin : Nat) (is_clear : Bool) (w : World),
      (write_internal_bake_pixels env image pixel_array buffer width height margin is_clear
          true w).2.1 = buffer ∧
      (write_internal_bake_pixels env image pixel_array buffer width height margin is_clear
          true w).2.2.trace = w.trace) ∧
    (∀ (env : Env) (filepath : PathName) (pixel_array : List BakePixel) (buffer : List Texel)
        (width height margin : Nat) (im_format : ImageFormatData) (w : World),
      (write_external_bake_pixels env filepath pixel_array buffer width height margin
          im_format true w).2.1 = buffer ∧
      (write_external_bake_pixels env filepath pixel_array buffer width height margin
          im_format true w).2.2.trace = w.trace) ∧
    (∀ (env : Env) (a : BakeArgs) (w : World),
      a.pass_type ∈ [ScenePassType.SCE_PASS_Z, ScenePassType.SCE_PASS_NORMAL,
        ScenePassType.SCE_PASS_VECTOR, ScenePassType.SCE_PASS_INDEXOB,
        ScenePassType.SCE_PASS_UV, ScenePassType.SCE_PASS_RAYHITS,
        ScenePassType.SCE_PASS_INDEXMA] →
      ∃ tr, (bake env a w).2.trace = w.trace ++ tr ∧ ∀ e ∈ tr, e.is_transform = false) := by
  have hiff : ∀ pass_type, is_noncolor_pass pass_type = true ↔
      pass_type ∈ [ScenePassType.SCE_PASS_Z, ScenePassType.SCE_PASS_NORMAL,
        ScenePassType.SCE_PASS_VECTOR, ScenePassType.SCE_PASS_INDEXOB,
        ScenePassType.SCE_PASS_UV, ScenePassType.SCE_PASS_RAYHITS,
        ScenePassType.SCE_PASS_INDEXMA] := by
    intro pass_type
    simp only [is_noncolor_pass, Bool.or_eq_true, decide_eq_true_eq, List.mem_cons,
      List.mem_singleton]
    tauto
  exact ⟨hiff, write_internal_bake_pixels_noncolor, write_external_bake_pixels_noncolor,
    fun env a w h => bake_noncolor_trace env a w ((hiff a.pass_type).2 h)⟩

/-! ### The evaluator calls of a selected-to-active bake -/

theorem Event.not_evaluate_ob (e : Event) (h : e.is_evaluate = false) : e.evaluate_ob = none := by
  cases e <;> simp_all [Event.is_evaluate, Event.evaluate_ob]

/-- The loop over the high-poly objects, when none of its evaluator calls
returned failure: it called the evaluator for every object of the array, in
order, and ends with `ok` set. -/
theorem bake_highpoly_loop_calls (env : Env) (a : BakeArgs) (n : Nat) :
    ∀ (hp : List BakeHighPolyData) (ok0 : Bool) (result : List Texel) (w : World),
      (∀ e ∈ (bake_highpoly_loop env a n hp ok0 result w).2.2.trace,
        e.evaluate_failed = false) →
      (bake_highpoly_loop env a n hp ok0 result w).2.2.trace.filterMap Event.evaluate_ob
        = w.trace.filterMap Event.evaluate_ob ++ hp.map (fun h => h.ob) ∧
      (hp ≠ [] → (bake_highpoly_loop env a n hp ok0 result w).1 = true) := by
  intro hp
  induction hp with
  | nil =>
    intro ok0 result w _
    simp [bake_highpoly_loop]
  | cons h rest ih =>
    intro ok0 result w hrun
    have hw := bake_evaluate_spec env a h.ob h.pixel_array n result w
    cases hok : (bake_evaluate env a h.ob h.pixel_array n result w).1 with
    | false =>
      have hloop : bake_highpoly_loop env a n (h :: rest) ok0 result w
          = (false, (bake_evaluate env a h.ob h.pixel_array n result w).2.1,
              (bake_evaluate env a h.ob h.pixel_array n result w).2.2) := by
        conv_lhs => unfold bake_highpoly_loop
        simp only [hok]
        rfl
      rw [hloop] at hrun
      simp only at hrun
      rw [hw, hok] at hrun
      have := hrun (Event.evaluate env.RE_bake_has_engine h.ob n
        (env.RE_pass_depth a.pass_type) false) (by simp [emit])
      simp [Event.evaluate_failed] at this
    | true =>
      have hloop : bake_highpoly_loop env a n (h :: rest) ok0 result w
          = bake_highpoly_loop env a n rest true
              (bake_evaluate env a h.ob h.pixel_array n result w).2.1
              (bake_evaluate env a h.ob h.pixel_array n result w).2.2 := by
        conv_lhs => unfold bake_highpoly_loop
        simp only [hok]
        rfl
      rw [hloop] at hrun ⊢
      obtain ⟨h1, h2⟩ := ih true (bake_evaluate env a h.ob h.pixel_array n result w).2.1
        (bake_evaluate env a h.ob h.pixel_array n result w).2.2 hrun
      refine ⟨?_, fun _ => ?_⟩
      · rw [h1, hw]
        simp [emit, Event.evaluate_ob]
      · by_cases hr : rest = []
        · subst hr
          simp [bake_highpoly_loop]
        · exact h2 hr

theorem bake_populate_highpoly_obs (a : BakeArgs) (n : Nat) :
    ∀ (objs : List Nat) (w : World),
      (bake_populate_highpoly a n objs w).1.map (fun h => h.ob)
        = objs.filter (fun ob_iter => ob_iter ≠ a.ob_low) := by
  intro objs
  induction objs with
  | nil => intro w; rfl
  | cons o rest ih =>
    intro w
    unfold bake_populate_highpoly
    by_cases hlow : o = a.ob_low
    · simp only [hlow, if_true]
      rw [ih w]
      simp
    · simp only [hlow, if_false]
      simp [ih, hlow]

/-- The high-poly branch of `bake`, when none of its evaluator calls returned
failure: it called the evaluator for every selected object other than the
low-poly one, in the order of the selection. -/
theorem bake_highpoly_calls (env : Env) (a : BakeArgs) (bi : BakeImages) (l : BakeLocals)
    (w : World)
    (hrun : ∀ e ∈ (bake_highpoly env a bi l w).2.trace, e.evaluate_failed = false) :
    (bake_highpoly env a bi l w).2.trace.filterMap Event.evaluate_ob
      = w.trace.filterMap Event.evaluate_ob
        ++ a.selected_objects.filter (fun ob_iter => ob_iter ≠ a.ob_low) ∧
    (a.selected_objects.filter (fun ob_iter => ob_iter ≠ a.ob_low) ≠ [] →
      (bake_highpoly env a bi l w).1.ok = true) := by
  obtain ⟨p1, _, _, _⟩ := bake_populate_highpoly_spec a l.num_pixels a.selected_objects w
  have p5 := bake_populate_highpoly_obs a l.num_pixels a.selected_objects w
  unfold bake_highpoly at hrun ⊢
  simp only at hrun ⊢
  generalize hz : List.zipWith _ (bake_populate_highpoly a l.num_pixels a.selected_objects w).1 _
    = highpoly at hrun ⊢
  have hobs : highpoly.map (fun h => h.ob)
      = a.selected_objects.filter (fun ob_iter => ob_iter ≠ a.ob_low) := by
    rw [← p5, ← hz]
    exact (zipWith_pixel_array_frame _ _ _ (by simp)).1
  have htr : (set_restrict_render (bake_populate_highpoly a l.num_pixels a.selected_objects w).2
      a.ob_low true).trace = w.trace := p1
  have hrun' : ∀ e ∈ (bake_highpoly_loop env a l.num_pixels highpoly l.ok l.result
      (set_restrict_render (bake_populate_highpoly a l.num_pixels a.selected_objects w).2
        a.ob_low true)).2.2.trace, e.evaluate_failed = false := by
    intro e he
    apply hrun e
    cases l.ob_cage <;> exact he
  obtain ⟨h1, h2⟩ := bake_highpoly_loop_calls env a l.num_pixels highpoly l.ok l.result
    (set_restrict_render (bake_populate_highpoly a l.num_pixels a.selected_objects w).2
      a.ob_low true) hrun'
  rw [htr, hobs] at h1
  refine ⟨?_, ?_⟩
  · cases l.ob_cage <;> exact h1
  · intro hne
    apply h2
    intro hnil
    rw [hnil] at hobs
    exact hne hobs.symm

/-- **C7 (as amended).** `bake` resets the interrupt flag `G.is_break` and
hands `bake_break` to the renderer as its break test before the evaluation;
`bake_break` returns 1 exactly when the flag is set; `bake` itself never polls
the flag.  Whatever the escape handler does to the flag during the run: in a
selected-to-active bake none of whose evaluator calls returned failure, the
evaluator is called once for every selected object other than the low-poly
one, in the order of the selection, and the save stage then makes its writer
call for every surface in index order (for the first surface only in external
mode without split materials). -/
theorem bake_does_not_poll_interrupt (env : Env) (a : BakeArgs) (w : World)
    (l : BakeLocals) (w1 : World) (h0 : w.trace = [])
    (hs : bake_setup env a w = Except.ok (l, w1))
    (hsel : a.use_selected_to_active = true)
    (hrun : ∀ e ∈ (bake env a w).2.trace, e.evaluate_failed = false) :
    (∀ w', bake_break w' = 1 ↔ w'.is_break = true) ∧
    (bake_allocate l w1).2.is_break = false ∧
    (bake_allocate l w1).1.re_test_break = some bake_break ∧
    (bake env a w).2.trace.filterMap Event.evaluate_ob
      = a.selected_objects.filter (fun ob_iter => ob_iter ≠ a.ob_low) ∧
    ∃ bi, l.bake_images = some bi ∧
      (bake env a w).2.trace.filterMap Event.write_slice
        = (List.range' 0 (save_count a bi.size)).map (surface_slice bi) := by
  obtain ⟨⟨⟨cl, c1, c2⟩, _⟩, _, _, _, _, ⟨bi, hbi⟩, _, hhigh, hcount⟩ :=
    (bake_setup_spec env a w l w1).2 hs
  obtain ⟨hc1, hc2⟩ := hcount hsel
  obtain ⟨b1, _, _, _⟩ := bake_after_setup env a w l w1 hs
  obtain ⟨evs, cv, sv, okE, r1, r2, r3, r4, _, r6, _, _, _, r10⟩ :=
    bake_run_spec env a l w1 bi hbi
  have hev : bake_evaluation env a bi (bake_allocate l w1).1 (bake_allocate l w1).2
      = bake_highpoly env a bi (bake_allocate l w1).1 (bake_allocate l w1).2 := by
    unfold bake_evaluation
    have : (bake_allocate l w1).1.is_highpoly = true := by
      show l.is_highpoly = true
      rw [hhigh, hsel]
    rw [this]
    rfl
  rw [hev] at r2 r3
  have hrun' : ∀ e ∈ (bake_highpoly env a bi (bake_allocate l w1).1
      (bake_allocate l w1).2).2.trace, e.evaluate_failed = false := by
    intro e he
    apply hrun e
    rw [b1, r1]
    rw [r2] at he
    exact List.mem_append_left _ (List.mem_append_left _ he)
  obtain ⟨a1, a2⟩ := bake_highpoly_calls env a bi (bake_allocate l w1).1
    (bake_allocate l w1).2 hrun'
  have hE : okE = true := by
    rw [r3]
    apply a2
    intro hnil
    apply hc2
    rw [hc1, hnil]
    rfl
  obtain ⟨s1, s2, _⟩ := r10 hE
  have hcl1 : cl.filterMap Event.evaluate_ob = [] := by
    rw [List.filterMap_eq_nil_iff]
    intro e he
    rw [c2 e he]
    rfl
  have hcl2 : cl.filterMap Event.write_slice = [] := by
    rw [List.filterMap_eq_nil_iff]
    intro e he
    rw [c2 e he]
    rfl
  have hw1 : w1.trace = cl := by rw [c1, h0]; rfl
  refine ⟨bake_break_iff, rfl, rfl, ?_, bi, hbi, ?_⟩
  · have hcv : cv.filterMap Event.evaluate_ob = [] := by
      rw [List.filterMap_eq_nil_iff]
      intro e he
      exact Event.not_evaluate_ob e (r6 e he).1
    have hsv : sv.filterMap Event.evaluate_ob = [] := by
      rw [List.filterMap_eq_nil_iff]
      intro e he
      exact Event.not_evaluate_ob e (s1 e he)
    have hal : (bake_allocate l w1).2.trace = w1.trace := rfl
    rw [r2, hal, hw1] at a1
    rw [b1, r1, hw1]
    simp only [List.filterMap_append, hcv, hsv, hcl1, List.append_nil, List.nil_append] at a1 ⊢
    exact a1
  · have hev2 : evs.filterMap Event.write_slice = [] := by
      rw [List.filterMap_eq_nil_iff]
      intro e he
      exact (Event.evaluate_not_write e (r4.1 e he)).2
    have hcv : cv.filterMap Event.write_slice = [] := by
      rw [List.filterMap_eq_nil_iff]
      intro e he
      have h1 := Event.write_slice_isSome e
      rw [(r6 e he).2.1] at h1
      cases h2 : e.write_slice with
      | none => rfl
      | some x => rw [h2] at h1; cases h1
    rw [b1, r1, hw1]
    simp only [List.filterMap_append, hcl2, hev2, hcv, List.nil_append]
    exact s2

/-- A selected-to-active bake with the high-poly objects 1 and 2, during whose
first evaluator call the escape handler sets the interrupt flag: the evaluator
is still called for object 2, and the image is written. -/
theorem bake_does_not_poll_interrupt_witness :
    (bake (demo_env (fun _ => true) (fun tr => decide (tr.length = 1)))
        (demo_args BakeSaveMode.R_BAKE_SAVE_INTERNAL false false [1, 2])
        (demo_world (demo_object 1 (fun _ => some 7)))).2.trace.filterMap
          Event.evaluate_ob = [1, 2] := by
  obtain ⟨l, w1, hs⟩ : ∃ l w1,
      bake_setup (demo_env (fun _ => true) (fun tr => decide (tr.length = 1)))
        (demo_args BakeSaveMode.R_BAKE_SAVE_INTERNAL false false [1, 2])
        (demo_world (demo_object 1 (fun _ => some 7))) = Except.ok (l, w1) := ⟨_, _, rfl⟩
  exact ((bake_does_not_poll_interrupt
    (demo_env (fun _ => true) (fun tr => decide (tr.length = 1)))
    (demo_args BakeSaveMode.R_BAKE_SAVE_INTERNAL false false [1, 2])
    (demo_world (demo_object 1 (fun _ => some 7))) l w1 rfl hs rfl
    (by decide)).2.2.2.1).trans (by decide)

/-! ### Whether `bake` returns -/

/-- The save loop after a failed write: `bake` given external mode with split
materials, two surfaces and a file writer that fails for the first file calls
the writer for the second surface all the same, adds the error report of the
first call and the info report of the second, and returns
`OPERATOR_FINISHED`. -/
theorem bake_save_continues_after_failed_write :
    (bake demo_env_first_write_fails
        (demo_args BakeSaveMode.R_BAKE_SAVE_EXTERNAL false true [])
        (demo_world (demo_object 2 (fun s => some (s + 6))))).2.trace.filterMap Event.write_ok
      = [false, true] ∧
    (bake demo_env_first_write_fails
        (demo_args BakeSaveMode.R_BAKE_SAVE_EXTERNAL false true [])
        (demo_world (demo_object 2 (fun s => some (s + 6))))).2.reports.map (fun r => r.type)
      = [ReportType.RPT_ERROR, ReportType.RPT_INFO] ∧
    (bake demo_env_first_write_fails
        (demo_args BakeSaveMode.R_BAKE_SAVE_EXTERNAL false true [])
        (demo_world (demo_object 2 (fun s => some (s + 6))))).1
      = BakeExit.returned OperatorFlag.OPERATOR_FINISHED := by
  decide

end BlenderBake
